import Mathlib

/-!
# USBasp (PDI/UART variant) firmware: session state machine

A shallow embedding of `firmware/main.c` (the three transport entry points
`usbFunctionSetup`, `usbFunctionRead`, `usbFunctionWrite`) together with the
constants of `firmware/usbasp.h`.

* Machine integers are natural numbers reduced explicitly to the width of the
  C type (`uchar` 8 bits, `int` / `unsigned int` 16 bits on the AVR target,
  `unsigned long` 32 bits).
* The file-scope statics of `main.c` are the fields of `State`.
* Every call into a collaborator (ISP, TPI, PDI, UART, clock, GPIO) appends an
  `Event` to `State.trace`, in program order.  The value a collaborator returns
  is given by an `Env`, as a function of the events issued so far and of the
  arguments of the call.
-/

namespace USBasp

/-! ## Constants of `usbasp.h` -/

def USBASP_FUNC_CONNECT : Nat := 1
def USBASP_FUNC_DISCONNECT : Nat := 2
def USBASP_FUNC_TRANSMIT : Nat := 3
def USBASP_FUNC_READFLASH : Nat := 4
def USBASP_FUNC_ENABLEPROG : Nat := 5
def USBASP_FUNC_WRITEFLASH : Nat := 6
def USBASP_FUNC_READEEPROM : Nat := 7
def USBASP_FUNC_WRITEEEPROM : Nat := 8
def USBASP_FUNC_SETLONGADDRESS : Nat := 9
def USBASP_FUNC_SETISPSCK : Nat := 10
def USBASP_FUNC_TPI_CONNECT : Nat := 11
def USBASP_FUNC_TPI_DISCONNECT : Nat := 12
def USBASP_FUNC_TPI_RAWREAD : Nat := 13
def USBASP_FUNC_TPI_RAWWRITE : Nat := 14
def USBASP_FUNC_TPI_READBLOCK : Nat := 15
def USBASP_FUNC_TPI_WRITEBLOCK : Nat := 16
def USBASP_FUNC_UART_CONFIG : Nat := 60
def USBASP_FUNC_UART_FLUSHTX : Nat := 61
def USBASP_FUNC_UART_FLUSHRX : Nat := 62
def USBASP_FUNC_UART_DISABLE : Nat := 63
def USBASP_FUNC_UART_TX : Nat := 64
def USBASP_FUNC_UART_RX : Nat := 65
def USBASP_FUNC_UART_TX_FREE : Nat := 66
def USBASP_FUNC_UART_RX_FREE : Nat := 67
def USBASP_FUNC_PDI_CONNECT : Nat := 17
def USBASP_FUNC_PDI_DISCONNECT : Nat := 18
def USBASP_FUNC_PDI_READ : Nat := 19
def USBASP_FUNC_PDI_SEND : Nat := 20
def USBASP_FUNC_GETCAPABILITIES : Nat := 127

def USBASP_CAP_0_TPI : Nat := 0x01
def USBASP_CAP_0_PDI : Nat := 0x02
def USBASP_CAP_6_UART : Nat := 1 <<< 6

def PROG_STATE_IDLE : Nat := 0
def PROG_STATE_WRITEFLASH : Nat := 1
def PROG_STATE_READFLASH : Nat := 2
def PROG_STATE_READEEPROM : Nat := 3
def PROG_STATE_WRITEEEPROM : Nat := 4
def PROG_STATE_TPI_READ : Nat := 5
def PROG_STATE_TPI_WRITE : Nat := 6
def PROG_STATE_PDI_READ : Nat := 7
def PROG_STATE_PDI_SEND : Nat := 8
def PROG_STATE_UART_TX : Nat := 60
def PROG_STATE_UART_RX : Nat := 61
def USBASP_PDI_WAIT_BUSY : Nat := 1
def USBASP_PDI_MARK_BUSY : Nat := 2

def PROG_BLOCKFLAG_FIRST : Nat := 1
def PROG_BLOCKFLAG_LAST : Nat := 2

def USBASP_ISP_SCK_AUTO : Nat := 0
def USBASP_ISP_SCK_0_5 : Nat := 1
def USBASP_ISP_SCK_1 : Nat := 2
def USBASP_ISP_SCK_2 : Nat := 3
def USBASP_ISP_SCK_4 : Nat := 4
def USBASP_ISP_SCK_8 : Nat := 5
def USBASP_ISP_SCK_16 : Nat := 6
def USBASP_ISP_SCK_32 : Nat := 7
def USBASP_ISP_SCK_93_75 : Nat := 8
def USBASP_ISP_SCK_187_5 : Nat := 9
def USBASP_ISP_SCK_375 : Nat := 10
def USBASP_ISP_SCK_750 : Nat := 11
def USBASP_ISP_SCK_1500 : Nat := 12

def USBASP_UART_PARITY_MASK : Nat := 0b11
def USBASP_UART_STOP_MASK : Nat := 0b100
def USBASP_UART_BYTES_MASK : Nat := 0b111000

/-! ## Collaborator calls -/

/-- One call into a collaborator of `main.c`, with the arguments passed. -/
inductive Event where
  | uart_disable
  | read_PINC
  | ispSetSCKOption (option : Nat)
  | ledRedOn
  | ledRedOff
  | ispConnect
  | ispDisconnect
  | ispTransmit (send_byte : Nat)
  | ispEnterProgrammingMode
  | ispReadFlash (address : Nat)
  | ispReadEEPROM (address : Nat)
  | ispWriteFlash (address data pollmode : Nat)
  | ispFlushPage (address pollvalue : Nat)
  | ispWriteEEPROM (address data : Nat)
  | clockWait (time : Nat)
  | ISP_OUT_set_RST
  | ISP_DDR_set_RST
  | ISP_OUT_clear_RST
  | ISP_DDR_clear_RST_SCK_MOSI
  | ISP_OUT_clear_RST_SCK_MOSI
  | tpi_init
  | tpi_send_byte (b : Nat)
  | tpi_recv_byte
  | tpi_read_block (addr len : Nat)
  | tpi_write_block (addr : Nat) (sptr : List Nat) (len : Nat)
  | pdiInit
  | pdiCleanup (keep_reset : Nat)
  | pdiDisableTimerClock
  | pdiEnableTimerClock
  | pdiSendIdle
  | pdiWaitNVM
  | pdiReadBlock (addr len : Nat)
  | pdiSendBytes (buf : List Nat) (count : Nat)
  | uart_config (baud par stop bytes : Nat)
  | uart_flush_tx
  | uart_flush_rx
  | uart_getc
  | uart_putsn (data : List Nat) (len : Nat)
  | uart_tx_freeplaces
  deriving DecidableEq

/-- What the collaborators answer, and the constants of the headers that are
not part of the sources (`usbdrv.h`, `pdi.h`, `tpi_defs.h`, `avr/io.h`).
Each answer is a function of the calls issued so far and of the arguments. -/
structure Env where
  USB_NO_MSG : Nat
  PDI_STATUS_OK : Nat
  PC2 : Nat
  TPI_OP_SSTCS_TPISR : Nat
  PINC : List Event → Nat
  ispTransmit : List Event → Nat → Nat
  ispEnterProgrammingMode : List Event → Nat
  ispReadFlash : List Event → Nat → Nat
  ispReadEEPROM : List Event → Nat → Nat
  tpi_recv_byte : List Event → Nat
  tpi_read_block : List Event → Nat → Nat → Nat → Nat
  pdiInit : List Event → Nat
  pdiReadBlock : List Event → Nat → Nat → Nat
  pdiReadBlock_dst : List Event → Nat → Nat → Nat → Nat
  uart_tx_freeplaces : List Event → Nat

/-- The statics of `main.c`, the globals it shares with `pdi.c`, `tpi.c` and the
USB driver, the receive FIFO behind `uart_getc`, and the calls issued so far. -/
structure State where
  replyBuffer : Nat → Nat
  prog_state : Nat
  prog_sck : Nat
  prog_address_newmode : Nat
  prog_address : Nat
  prog_nbytes : Nat
  prog_pagesize : Nat
  prog_blockflags : Nat
  prog_pagecounter : Nat
  prog_buf : Nat → Nat
  prog_buf_pos : Nat
  pdi_nvmbusy : Nat
  tpi_dly_cnt : Nat
  usbMsgPtr_replyBuffer : Bool
  uart_rx : List Nat
  trace : List Event

/-- State after power-up: the initialisers of `main.c`, zero for the rest. -/
def State.init : State where
  replyBuffer := fun _ => 0
  prog_state := PROG_STATE_IDLE
  prog_sck := USBASP_ISP_SCK_AUTO
  prog_address_newmode := 0
  prog_address := 0
  prog_nbytes := 0
  prog_pagesize := 0
  prog_blockflags := 0
  prog_pagecounter := 0
  prog_buf := fun _ => 0
  prog_buf_pos := 0
  pdi_nvmbusy := 0
  tpi_dly_cnt := 0
  usbMsgPtr_replyBuffer := false
  uart_rx := []
  trace := []

/-- Reduction to the 8 bits of a `uchar`. -/
def u8 (x : Nat) : Nat := x % 256

/-- Reduction to the 16 bits of an `unsigned int`. -/
def u16 (x : Nat) : Nat := x % 65536

/-- Reduction to the 32 bits of an `unsigned long`. -/
def u32 (x : Nat) : Nat := x % 4294967296

/-- Record a collaborator call. -/
def emit (e : Event) (s : State) : State :=
  { s with trace := s.trace ++ [e] }

/-- Store `v` at index `i` of an array. -/
def store (a : Nat → Nat) (i v : Nat) : Nat → Nat :=
  fun j => if j = i then v else a j

/-- The bytes of a buffer from index `0` up to `n`. -/
def bufBytes (a : Nat → Nat) (n : Nat) : List Nat :=
  (List.range n).map a

/-- The element `data[i]` of the `uchar data[8]` command record. -/
def byte (data : List Nat) (i : Nat) : Nat :=
  u8 (data.getD i 0)

/-- The expression `(data[hi] << 8) | data[lo]`: the operands are promoted to
the 16-bit `int`; this is its bit pattern. -/
def word16 (data : List Nat) (hi lo : Nat) : Nat :=
  u16 ((byte data hi <<< 8) ||| byte data lo)

/-- Conversion of a 16-bit `int` (given by its bit pattern) to the 32-bit
`unsigned long`: a negative value is sign-extended. -/
def intToULong (v : Nat) : Nat :=
  if u16 v < 32768 then u16 v else u16 v + 0xFFFF0000

/-- The expression `*((unsigned long*) &data[2])` on the little-endian AVR, also
what `memmove(&prog_address, data+2, 4)` stores. -/
def ulongAt2 (data : List Nat) : Nat :=
  byte data 2 + (byte data 3 <<< 8) + (byte data 4 <<< 16) + (byte data 5 <<< 24)

/-- Result of `usbFunctionSetup`: the returned length code and the state. -/
structure SetupResult where
  len : Nat
  st : State

/-- Result of `usbFunctionRead`: the returned count, the bytes stored into the
caller's buffer (from index 0 on), and the state. -/
structure ReadResult where
  ret : Nat
  data : List Nat
  st : State

/-- Result of `usbFunctionWrite`: the returned code and the state. -/
structure WriteResult where
  ret : Nat
  st : State

/-- Modelled from the spec: `pdiWaitNVM` of `pdi.c`, which is not among the
sources.  The explicit wait blocks until the memory controller is ready and
clears the busy flag `pdi_nvmbusy`. -/
def pdiWaitNVM (s : State) : State :=
  { emit Event.pdiWaitNVM s with pdi_nvmbusy := 0 }

/-- Modelled from the spec: `uart_getc` of `uart.c`, which is not among the
sources.  A non-blocking receive: with an empty receive FIFO nothing is stored
and the call reports failure, otherwise the oldest byte is taken out. -/
def uart_getc (s : State) : Option Nat × State :=
  match s.uart_rx with
  | [] => (none, emit Event.uart_getc s)
  | b :: rest => (some b, { emit Event.uart_getc s with uart_rx := rest })

/-! ## `usbFunctionSetup` -/

/-- The command dispatcher `usbFunctionSetup(uchar data[8])`. -/
def usbFunctionSetup (env : Env) (data : List Nat) (s : State) : SetupResult :=
  let fn := byte data 1
  let r : SetupResult :=
    if fn = USBASP_FUNC_CONNECT then
      let s1 : State := emit Event.uart_disable s
      let pin := env.PINC s1.trace
      let s2 : State := emit Event.read_PINC s1
      let s3 : State :=
        if pin &&& (1 <<< env.PC2) = 0 then emit (Event.ispSetSCKOption USBASP_ISP_SCK_8) s2
        else emit (Event.ispSetSCKOption s2.prog_sck) s2
      let s4 : State := { s3 with prog_address_newmode := 0 }
      ⟨0, emit Event.ispConnect (emit Event.ledRedOn s4)⟩
    else if fn = USBASP_FUNC_DISCONNECT then
      ⟨0, emit Event.ledRedOff (emit Event.ispDisconnect s)⟩
    else if fn = USBASP_FUNC_TRANSMIT then
      let r0 := u8 (env.ispTransmit s.trace (byte data 2))
      let s1 : State := { emit (Event.ispTransmit (byte data 2)) s with
                  replyBuffer := store s.replyBuffer 0 r0 }
      let r1 := u8 (env.ispTransmit s1.trace (byte data 3))
      let s2 : State := { emit (Event.ispTransmit (byte data 3)) s1 with
                  replyBuffer := store s1.replyBuffer 1 r1 }
      let r2 := u8 (env.ispTransmit s2.trace (byte data 4))
      let s3 : State := { emit (Event.ispTransmit (byte data 4)) s2 with
                  replyBuffer := store s2.replyBuffer 2 r2 }
      let r3 := u8 (env.ispTransmit s3.trace (byte data 5))
      let s4 : State := { emit (Event.ispTransmit (byte data 5)) s3 with
                  replyBuffer := store s3.replyBuffer 3 r3 }
      ⟨4, s4⟩
    else if fn = USBASP_FUNC_READFLASH then
      let s1 : State := if s.prog_address_newmode = 0
                then { s with prog_address := intToULong (word16 data 3 2) } else s
      ⟨env.USB_NO_MSG, { s1 with prog_nbytes := word16 data 7 6,
                                 prog_state := PROG_STATE_READFLASH }⟩
    else if fn = USBASP_FUNC_READEEPROM then
      let s1 : State := if s.prog_address_newmode = 0
                then { s with prog_address := intToULong (word16 data 3 2) } else s
      ⟨env.USB_NO_MSG, { s1 with prog_nbytes := word16 data 7 6,
                                 prog_state := PROG_STATE_READEEPROM }⟩
    else if fn = USBASP_FUNC_ENABLEPROG then
      let r0 := u8 (env.ispEnterProgrammingMode s.trace)
      ⟨1, { emit Event.ispEnterProgrammingMode s with
            replyBuffer := store s.replyBuffer 0 r0 }⟩
    else if fn = USBASP_FUNC_WRITEFLASH then
      let s1 : State := if s.prog_address_newmode = 0
                then { s with prog_address := intToULong (word16 data 3 2) } else s
      let s2 : State := { s1 with prog_pagesize := byte data 4 }
      let s3 : State := { s2 with prog_blockflags := byte data 5 &&& 0x0F }
      let s4 : State := { s3 with
                  prog_pagesize := u16 (s3.prog_pagesize + ((byte data 5 &&& 0xF0) <<< 4)) }
      let s5 : State := if s4.prog_blockflags &&& PROG_BLOCKFLAG_FIRST ≠ 0
                then { s4 with prog_pagecounter := u8 s4.prog_pagesize } else s4
      ⟨env.USB_NO_MSG, { s5 with prog_nbytes := word16 data 7 6,
                                 prog_state := PROG_STATE_WRITEFLASH }⟩
    else if fn = USBASP_FUNC_WRITEEEPROM then
      let s1 : State := if s.prog_address_newmode = 0
                then { s with prog_address := intToULong (word16 data 3 2) } else s
      ⟨env.USB_NO_MSG, { s1 with prog_pagesize := 0,
                                 prog_blockflags := 0,
                                 prog_nbytes := word16 data 7 6,
                                 prog_state := PROG_STATE_WRITEEEPROM }⟩
    else if fn = USBASP_FUNC_SETLONGADDRESS then
      ⟨0, { s with prog_address_newmode := 1, prog_address := ulongAt2 data }⟩
    else if fn = USBASP_FUNC_SETISPSCK then
      ⟨1, { s with prog_sck := byte data 2, replyBuffer := store s.replyBuffer 0 0 }⟩
    else if fn = USBASP_FUNC_TPI_CONNECT then
      let s1 : State := emit Event.uart_disable s
      let s2 : State := { s1 with tpi_dly_cnt := word16 data 3 2 }
      let s3 : State := emit Event.ISP_DDR_set_RST (emit Event.ISP_OUT_set_RST s2)
      let s4 : State := emit (Event.clockWait 3) s3
      let s5 : State := emit Event.ledRedOn (emit Event.ISP_OUT_clear_RST s4)
      ⟨0, emit Event.tpi_init (emit (Event.clockWait 16) s5)⟩
    else if fn = USBASP_FUNC_TPI_DISCONNECT then
      let s1 : State := emit (Event.tpi_send_byte 0) (emit (Event.tpi_send_byte env.TPI_OP_SSTCS_TPISR) s)
      let s2 : State := emit (Event.clockWait 10) s1
      let s3 : State := emit (Event.clockWait 5) (emit Event.ISP_OUT_set_RST s2)
      let s4 : State := emit (Event.clockWait 5) (emit Event.ISP_OUT_clear_RST s3)
      let s5 : State := emit Event.ISP_OUT_clear_RST_SCK_MOSI (emit Event.ISP_DDR_clear_RST_SCK_MOSI s4)
      ⟨0, emit Event.ledRedOff s5⟩
    else if fn = USBASP_FUNC_TPI_RAWREAD then
      let r0 := u8 (env.tpi_recv_byte s.trace)
      ⟨1, { emit Event.tpi_recv_byte s with replyBuffer := store s.replyBuffer 0 r0 }⟩
    else if fn = USBASP_FUNC_TPI_RAWWRITE then
      ⟨0, emit (Event.tpi_send_byte (byte data 2)) s⟩
    else if fn = USBASP_FUNC_TPI_READBLOCK then
      ⟨env.USB_NO_MSG, { s with prog_address := intToULong (word16 data 3 2),
                                prog_nbytes := word16 data 7 6,
                                prog_state := PROG_STATE_TPI_READ }⟩
    else if fn = USBASP_FUNC_TPI_WRITEBLOCK then
      ⟨env.USB_NO_MSG, { s with prog_address := intToULong (word16 data 3 2),
                                prog_nbytes := word16 data 7 6,
                                prog_state := PROG_STATE_TPI_WRITE }⟩
    else if fn = USBASP_FUNC_PDI_CONNECT then
      let r0 := u8 (env.pdiInit s.trace)
      let s1 : State := { emit Event.pdiInit s with replyBuffer := store s.replyBuffer 0 r0 }
      ⟨1, if r0 = env.PDI_STATUS_OK then emit Event.ledRedOn s1 else s1⟩
    else if fn = USBASP_FUNC_PDI_DISCONNECT then
      ⟨0, emit (Event.pdiCleanup (byte data 2)) (emit Event.ledRedOff s)⟩
    else if fn = USBASP_FUNC_PDI_SEND then
      ⟨0xff, { s with prog_nbytes := word16 data 7 6,
                      prog_blockflags := byte data 2,
                      prog_state := PROG_STATE_PDI_SEND,
                      prog_buf_pos := 0 }⟩
    else if fn = USBASP_FUNC_PDI_READ then
      ⟨0xff, { s with prog_address := ulongAt2 data,
                      prog_nbytes := word16 data 7 6,
                      prog_state := PROG_STATE_PDI_READ }⟩
    else if fn = USBASP_FUNC_UART_CONFIG then
      ⟨0, emit (Event.uart_config (word16 data 3 2)
                  (byte data 4 &&& USBASP_UART_PARITY_MASK)
                  (byte data 4 &&& USBASP_UART_STOP_MASK)
                  (byte data 4 &&& USBASP_UART_BYTES_MASK)) s⟩
    else if fn = USBASP_FUNC_UART_FLUSHTX then
      ⟨0, emit Event.uart_flush_tx s⟩
    else if fn = USBASP_FUNC_UART_FLUSHRX then
      ⟨0, emit Event.uart_flush_rx s⟩
    else if fn = USBASP_FUNC_UART_DISABLE then
      ⟨0, emit Event.uart_disable s⟩
    else if fn = USBASP_FUNC_UART_TX then
      ⟨env.USB_NO_MSG, { s with prog_nbytes := word16 data 7 6,
                                prog_state := PROG_STATE_UART_TX }⟩
    else if fn = USBASP_FUNC_UART_RX then
      ⟨env.USB_NO_MSG, { s with prog_nbytes := word16 data 7 6,
                                prog_state := PROG_STATE_UART_RX }⟩
    else if fn = USBASP_FUNC_UART_TX_FREE then
      let places := u16 (env.uart_tx_freeplaces s.trace)
      let s1 : State := emit Event.uart_tx_freeplaces s
      ⟨2, { s1 with replyBuffer := store (store s1.replyBuffer 0 (u8 (places >>> 8))) 1
                                     (places &&& 0xFF) }⟩
    else if fn = USBASP_FUNC_GETCAPABILITIES then
      let cap := USBASP_CAP_0_TPI ||| USBASP_CAP_6_UART ||| USBASP_CAP_0_PDI
      ⟨4, { s with replyBuffer :=
              store (store (store (store s.replyBuffer 0 cap) 1 0) 2 0) 3 0 }⟩
    else
      ⟨0, s⟩
  ⟨r.len, { r.st with usbMsgPtr_replyBuffer := true }⟩

/-! ## `usbFunctionRead` -/

/-- The loop `for (i = 0; i < len; i++)` of the ISP branch of `usbFunctionRead`,
`n` iterations left: one `ispReadFlash` or `ispReadEEPROM` per byte, the
result stored in `data[i]`, then `prog_address++`. -/
def ispReadLoop (env : Env) : Nat → State → List Nat × State
  | 0, s => ([], s)
  | n + 1, s =>
    let v :=
      if s.prog_state = PROG_STATE_READFLASH then u8 (env.ispReadFlash s.trace s.prog_address)
      else u8 (env.ispReadEEPROM s.trace s.prog_address)
    let s1 : State :=
      if s.prog_state = PROG_STATE_READFLASH then emit (Event.ispReadFlash s.prog_address) s
      else emit (Event.ispReadEEPROM s.prog_address) s
    let s2 : State := { s1 with prog_address := u32 (s1.prog_address + 1) }
    let r := ispReadLoop env n s2
    (v :: r.1, r.2)

/-- The loop `for (uint8_t rd = 0; rd < len; rd++)` of the serial branch of
`usbFunctionRead`, `n` iterations left at index `rd`; returns the value of
`len` after the loop, the bytes stored at `data[rd]`, `data[rd+1]`, ... and
the state. -/
def uartRxLoop (len : Nat) : Nat → Nat → State → Nat × List Nat × State
  | 0, _, s => (len, [], s)
  | n + 1, rd, s =>
    match uart_getc s with
    | (none, s1) => (rd, [], s1)
    | (some b, s1) =>
      let r := uartRxLoop len n (rd + 1) (emit Event.ledRedOn s1)
      (r.1, b :: r.2.1, r.2.2)

/-- The inbound producer `usbFunctionRead(uchar *data, uchar len)`. -/
def usbFunctionRead (env : Env) (len : Nat) (s : State) : ReadResult :=
  if s.prog_state = PROG_STATE_TPI_READ then
    let out := bufBytes (env.tpi_read_block s.trace s.prog_address len) len
    let s1 : State := emit (Event.tpi_read_block s.prog_address len) s
    ⟨len, out, { s1 with prog_address := u32 (s1.prog_address + len) }⟩
  else if s.prog_state = PROG_STATE_UART_RX then
    let r := uartRxLoop len len 0 s
    let len1 := r.1
    let s1 : State := r.2.2
    let s2 : State := if len1 < 8 then { s1 with prog_state := PROG_STATE_IDLE } else s1
    ⟨len1, r.2.1, emit Event.ledRedOff s2⟩
  else if s.prog_state = PROG_STATE_PDI_READ then
    let s1 : State := emit Event.pdiSendIdle (emit Event.pdiDisableTimerClock s)
    let s2 : State := if s1.pdi_nvmbusy ≠ 0 then pdiWaitNVM s1 else s1
    let ret := u8 (env.pdiReadBlock s2.trace s2.prog_address len)
    let out := bufBytes (env.pdiReadBlock_dst s2.trace s2.prog_address len) len
    let s3 : State := emit (Event.pdiReadBlock s2.prog_address len) s2
    let s4 : State := emit Event.pdiEnableTimerClock s3
    if ret ≠ env.PDI_STATUS_OK then ⟨0, out, s4⟩
    else ⟨len, out, { s4 with prog_address := u32 (s4.prog_address + len) }⟩
  else if s.prog_state = PROG_STATE_READFLASH ∨ s.prog_state = PROG_STATE_READEEPROM then
    let r := ispReadLoop env len s
    let s1 : State := if len < 8 then { r.2 with prog_state := PROG_STATE_IDLE } else r.2
    ⟨len, r.1, s1⟩
  else
    ⟨0xFF, [], s⟩

/-! ## `usbFunctionWrite` -/

/-- One iteration of the loop `for (i = 0; i < len; i++)` of the ISP branch of
`usbFunctionWrite`, for the byte `d = data[i]`; the second component is
`retVal`. -/
def ispWriteStep (acc : State × Nat) (d : Nat) : State × Nat :=
  let s := acc.1
  let s1 : State :=
    if s.prog_state = PROG_STATE_WRITEFLASH then
      if s.prog_pagesize = 0 then
        emit (Event.ispWriteFlash s.prog_address d 1) s
      else
        let s2 : State := emit (Event.ispWriteFlash s.prog_address d 0) s
        let pagecounter := u8 (s2.prog_pagecounter + 255)
        let s3 : State := { s2 with prog_pagecounter := pagecounter }
        if pagecounter = 0 then
          { emit (Event.ispFlushPage s3.prog_address d) s3 with
            prog_pagecounter := u8 s3.prog_pagesize }
        else s3
    else
      emit (Event.ispWriteEEPROM s.prog_address d) s
  let nbytes := u16 (s1.prog_nbytes + 65535)
  let s4 : State := { s1 with prog_nbytes := nbytes }
  let r : State × Nat :=
    if nbytes = 0 then
      let s5 : State := { s4 with prog_state := PROG_STATE_IDLE }
      let s6 : State :=
        if s5.prog_blockflags &&& PROG_BLOCKFLAG_LAST ≠ 0
            ∧ s5.prog_pagecounter ≠ s5.prog_pagesize then
          emit (Event.ispFlushPage s5.prog_address d) s5
        else s5
      (s6, 1)
    else (s4, acc.2)
  ({ r.1 with prog_address := u32 (r.1.prog_address + 1) }, r.2)

/-- The call `memmove(&prog_buf[pos], data, len)`.  The array `prog_buf` has 128
elements; the function gives the content of the array after the call only
when the copy ends inside it, `pos + len <= 128`.  A copy that ends past
index 127 is out of bounds in the source and overwrites whatever lies behind
the array; about such a call this function says nothing that holds of the
source. -/
def memmove_at (buf : Nat → Nat) (pos : Nat) (data : List Nat) : Nat → Nat :=
  fun j => if pos ≤ j ∧ j < pos + data.length then data.getD (j - pos) 0 else buf j

/-- The outbound consumer `usbFunctionWrite(uchar *data, uchar len)`; the list
`data` holds the `len` bytes of the packet.  In accumulate-then-commit mode
the result is that of the source only for a call whose copy stays inside the
128 bytes of `prog_buf` (`scratchCopyInBounds`, `usbFunctionWriteChecked`
below): past them the behaviour of the source is undefined, and the
statements about this mode are restricted to copies inside the array. -/
def usbFunctionWrite (data : List Nat) (s : State) : WriteResult :=
  let len := data.length
  if s.prog_state = PROG_STATE_TPI_WRITE then
    let s1 : State := emit (Event.tpi_write_block s.prog_address data len) s
    let s2 : State := { s1 with prog_address := u32 (s1.prog_address + len) }
    let nbytes := u16 (s2.prog_nbytes + (65536 - u16 len))
    let s3 : State := { s2 with prog_nbytes := nbytes }
    if nbytes = 0 then ⟨1, { s3 with prog_state := PROG_STATE_IDLE }⟩
    else ⟨0, s3⟩
  else if s.prog_state = PROG_STATE_UART_TX then
    let s1 : State :=
      if len ≠ 0 then
        emit Event.ledRedOff (emit (Event.uart_putsn data len) (emit Event.ledRedOn s))
      else s
    let nbytes := u16 (s1.prog_nbytes + (65536 - u16 len))
    let s2 : State := { s1 with prog_nbytes := nbytes }
    if nbytes = 0 then ⟨1, { s2 with prog_state := PROG_STATE_IDLE }⟩
    else ⟨0, s2⟩
  else if s.prog_state = PROG_STATE_PDI_SEND then
    let s1 : State := { s with prog_buf := memmove_at s.prog_buf s.prog_buf_pos data }
    let s2 : State := { s1 with prog_buf_pos := u8 (s1.prog_buf_pos + len) }
    let nbytes := u16 (s2.prog_nbytes + (65536 - u16 len))
    let s3 : State := { s2 with prog_nbytes := nbytes }
    if nbytes = 0 then
      let s4 : State := emit Event.pdiSendIdle (emit Event.pdiDisableTimerClock s3)
      let s5 : State :=
        if s4.prog_blockflags &&& USBASP_PDI_WAIT_BUSY ≠ 0 ∧ s4.pdi_nvmbusy ≠ 0 then
          pdiWaitNVM s4
        else s4
      let s6 : State := emit (Event.pdiSendBytes (bufBytes s5.prog_buf s5.prog_buf_pos) s5.prog_buf_pos) s5
      let s7 : State :=
        if s6.prog_blockflags &&& USBASP_PDI_MARK_BUSY ≠ 0 then { s6 with pdi_nvmbusy := 1 }
        else s6
      let s8 : State := emit Event.pdiEnableTimerClock s7
      ⟨1, { s8 with prog_state := PROG_STATE_IDLE }⟩
    else ⟨0, s3⟩
  else if s.prog_state = PROG_STATE_WRITEFLASH ∨ s.prog_state = PROG_STATE_WRITEEEPROM then
    let r := data.foldl ispWriteStep (s, 0)
    ⟨r.2, r.1⟩
  else
    ⟨0xFF, s⟩

/-! ## The transport driving the entry points -/

/-- The transport handing the packets of one OUT transfer to `usbFunctionWrite`,
one after the other; returns the codes returned, in order, and the state. -/
def writePackets : List (List Nat) → State → List Nat × State
  | [], s => ([], s)
  | c :: cs, s =>
    let r := usbFunctionWrite c s
    let t := writePackets cs r.st
    (r.ret :: t.1, t.2)

/-- The transport asking `usbFunctionRead` for packets of the given sizes, one
after the other; returns the counts returned, the bytes produced (the first
`ret` bytes of each packet, concatenated), and the state. -/
def readPackets (env : Env) : List Nat → State → List Nat × List Nat × State
  | [], s => ([], [], s)
  | n :: ns, s =>
    let r := usbFunctionRead env n s
    let t := readPackets env ns r.st
    (r.ret :: t.1, r.data.take r.ret ++ t.2.1, t.2.2)

/-- The `ispFlushPage` calls of a trace, in order, with their arguments. -/
def flushCalls (tr : List Event) : List (Nat × Nat) :=
  tr.filterMap fun e =>
    match e with
    | Event.ispFlushPage a v => some (a, v)
    | _ => none

/-! ## Notions used by the statements -/

/-- The modes in which `usbFunctionRead` produces data. -/
def isReadMode (m : Nat) : Prop :=
  m = PROG_STATE_READFLASH ∨ m = PROG_STATE_READEEPROM ∨ m = PROG_STATE_TPI_READ
    ∨ m = PROG_STATE_PDI_READ ∨ m = PROG_STATE_UART_RX

/-- The modes in which `usbFunctionWrite` consumes data. -/
def isWriteMode (m : Nat) : Prop :=
  m = PROG_STATE_WRITEFLASH ∨ m = PROG_STATE_WRITEEEPROM ∨ m = PROG_STATE_TPI_WRITE
    ∨ m = PROG_STATE_PDI_SEND ∨ m = PROG_STATE_UART_TX

instance isReadMode.instDecidable (m : Nat) : Decidable (isReadMode m) := by
  unfold isReadMode; infer_instance

instance isWriteMode.instDecidable (m : Nat) : Decidable (isWriteMode m) := by
  unfold isWriteMode; infer_instance

/-- A collaborator environment with fixed answers, for concrete evaluations:
`USB_NO_MSG` is 255 and `PDI_STATUS_OK` is 1, the pin reads high, memories
read as erased (0xFF), the PDI block read succeeds. -/
def Env.fixed : Env where
  USB_NO_MSG := 255
  PDI_STATUS_OK := 1
  PC2 := 2
  TPI_OP_SSTCS_TPISR := 0xC0
  PINC := fun _ => 0xFF
  ispTransmit := fun _ _ => 0
  ispEnterProgrammingMode := fun _ => 0
  ispReadFlash := fun _ _ => 0xFF
  ispReadEEPROM := fun _ _ => 0xFF
  tpi_recv_byte := fun _ => 0
  tpi_read_block := fun _ _ _ _ => 0xFF
  pdiInit := fun _ => 1
  pdiReadBlock := fun _ _ _ => 1
  pdiReadBlock_dst := fun _ _ _ _ => 0xFF
  uart_tx_freeplaces := fun _ => 0

/-- The environment `Env.fixed` with a PDI block read that fails (status 0). -/
def Env.pdiFailing : Env :=
  { Env.fixed with pdiReadBlock := fun _ _ _ => 0 }

/-- Total number of bytes in a sequence of packets. -/
def totalLen (chunks : List (List Nat)) : Nat :=
  (chunks.map List.length).sum

/-- The calls issued before the block read of one `usbFunctionRead` call in
accumulate-then-read mode: clock disabled, idle frame, and the wait on the
memory controller only if the busy flag is set. -/
def pdiIdleWaitCalls (busy : Nat) : List Event :=
  [Event.pdiDisableTimerClock, Event.pdiSendIdle]
    ++ (if busy ≠ 0 then [Event.pdiWaitNVM] else [])

/-- The block writes expected from a two-pin block write transfer that starts at
address `A`: one per packet, carrying the packet verbatim, at `A` plus the
number `off` of bytes of the earlier packets (32-bit address arithmetic). -/
def tpiWriteCalls (A : Nat) : Nat → List (List Nat) → List Event
  | _, [] => []
  | off, c :: cs =>
    Event.tpi_write_block (u32 (A + off)) c c.length :: tpiWriteCalls A (off + c.length) cs

/-- The calls issued by the `usbFunctionWrite` call that completes an
accumulate-then-commit transfer: idle/wait sequence (the wait only if the
command asked for it and the busy flag is set), one send of `count` bytes
`bytes`, clock re-enabled. -/
def pdiSendCalls (flags busy : Nat) (bytes : List Nat) (count : Nat) : List Event :=
  [Event.pdiDisableTimerClock, Event.pdiSendIdle]
    ++ (if flags &&& USBASP_PDI_WAIT_BUSY ≠ 0 ∧ busy ≠ 0 then [Event.pdiWaitNVM] else [])
    ++ [Event.pdiSendBytes bytes count, Event.pdiEnableTimerClock]

/-- The busy flag after the completing call of an accumulate-then-commit
transfer: 1 when the command asked to mark the controller busy, otherwise 0
if the wait ran, otherwise as before. -/
def pdiBusyAfter (flags busy : Nat) : Nat :=
  if flags &&& USBASP_PDI_MARK_BUSY ≠ 0 then 1
  else if flags &&& USBASP_PDI_WAIT_BUSY ≠ 0 ∧ busy ≠ 0 then 0
  else busy

/-- The power-up state put into mode `m`. -/
def State.inMode (m : Nat) : State :=
  { State.init with prog_state := m }

/-! ## A mocked byte-addressable backend -/

/-- Effect of one call on the mocked flash: `ispWriteFlash` stores the byte at
its address. -/
def mockFlashStep (m : Nat → Nat) (e : Event) : Nat → Nat :=
  match e with
  | Event.ispWriteFlash a v _ => store m a v
  | _ => m

/-- Effect of one call on the mocked EEPROM: `ispWriteEEPROM` stores the byte
at its address. -/
def mockEEPROMStep (m : Nat → Nat) (e : Event) : Nat → Nat :=
  match e with
  | Event.ispWriteEEPROM a v => store m a v
  | _ => m

/-- Effect of one call on the mocked two-pin target memory: `tpi_write_block`
stores the bytes of the block from its address on. -/
def mockTpiStep (m : Nat → Nat) (e : Event) : Nat → Nat :=
  match e with
  | Event.tpi_write_block a d _ => memmove_at m a d
  | _ => m

/-- Contents of the mocked flash after the calls `h`; cells never written read
as erased (0xFF). -/
def mockFlash (h : List Event) : Nat → Nat :=
  h.foldl mockFlashStep (fun _ => 0xFF)

/-- Contents of the mocked EEPROM after the calls `h`. -/
def mockEEPROM (h : List Event) : Nat → Nat :=
  h.foldl mockEEPROMStep (fun _ => 0xFF)

/-- Contents of the mocked two-pin target memory after the calls `h`. -/
def mockTpi (h : List Event) : Nat → Nat :=
  h.foldl mockTpiStep (fun _ => 0xFF)

/-- The mocked backend: a read at an address returns the byte last stored
there. -/
def Env.mock : Env :=
  { Env.fixed with
    ispReadFlash := fun h a => mockFlash h a
    ispReadEEPROM := fun h a => mockEEPROM h a
    tpi_read_block := fun h a _ i => mockTpi h (a + i) }

/-- The three memory backends with a write and a matching read command. -/
inductive MemBackend where
  | flash
  | eeprom
  | tpi
  deriving DecidableEq

/-- Function id of the write command of a memory backend. -/
def MemBackend.writeFn : MemBackend → Nat
  | MemBackend.flash => USBASP_FUNC_WRITEFLASH
  | MemBackend.eeprom => USBASP_FUNC_WRITEEEPROM
  | MemBackend.tpi => USBASP_FUNC_TPI_WRITEBLOCK

/-- Function id of the read command of a memory backend. -/
def MemBackend.readFn : MemBackend → Nat
  | MemBackend.flash => USBASP_FUNC_READFLASH
  | MemBackend.eeprom => USBASP_FUNC_READEEPROM
  | MemBackend.tpi => USBASP_FUNC_TPI_READBLOCK

/-- The packet sizes of a read of `n` bytes: packets of 8 bytes, the last one
`n mod 8` if that is not zero. -/
def readSizes (n : Nat) : List Nat :=
  List.replicate (n / 8) 8 ++ (if n % 8 = 0 then [] else [n % 8])

/-- The 8-byte command record with report id `r0`, function id `fn`, 16-bit
little-endian address field `addr`, bytes 4 and 5 `b4`, `b5`, and 16-bit
little-endian length field `len`. -/
def command (r0 fn addr b4 b5 len : Nat) : List Nat :=
  [r0, fn, addr % 256, addr / 256, b4, b5, len % 256, len / 256]

/-! ## Streams of paged flash blocks -/

/-- Invariant of a paged flash write with page size `P`, `K` bytes after the
block that carried FIRST: the page counter is `P - K mod P`, and `K / P` page
flushes have been issued on top of the `F` issued before. -/
def PagedInv (P F K fl : Nat) (s : State) : Prop :=
  s.prog_pagesize = P ∧ s.prog_pagecounter = P - K % P
    ∧ (flushCalls s.trace).length = F + K / P ∧ s.prog_blockflags = fl

/-- State at the end of a block of a paged flash write, `K` bytes after the
block that carried FIRST: as `PagedInv`, the mode is Idle, and one more page
flush has been issued if the block carried LAST and a page was left
unfinished. -/
def PagedEnd (P F K fl : Nat) (s : State) : Prop :=
  s.prog_pagesize = P ∧ s.prog_pagecounter = P - K % P
    ∧ (flushCalls s.trace).length
        = F + K / P + (if fl &&& PROG_BLOCKFLAG_LAST ≠ 0 ∧ K % P ≠ 0 then 1 else 0)
    ∧ s.prog_blockflags = fl ∧ s.prog_state = PROG_STATE_IDLE

instance PagedInv.instDecidable (P F K fl : Nat) (s : State) : Decidable (PagedInv P F K fl s) := by
  unfold PagedInv; infer_instance

instance PagedEnd.instDecidable (P F K fl : Nat) (s : State) : Decidable (PagedEnd P F K fl s) := by
  unfold PagedEnd; infer_instance

/-- Block flags of a block of a stream: FIRST on the first block, LAST on the
final block. -/
def blockFlagsOf (first last : Bool) : Nat :=
  (if first then PROG_BLOCKFLAG_FIRST else 0) + (if last then PROG_BLOCKFLAG_LAST else 0)

/-- Streaming a payload as write-memory-A (function 6) blocks with page size
`P`: each block, given by its address field and its packets, is armed by
`usbFunctionSetup` with its length and its flags (FIRST on the first block,
LAST on the final one) and its packets are handed to `usbFunctionWrite`. -/
def writeBlocks (env : Env) (P : Nat) : Bool → List (Nat × List (List Nat)) → State → State
  | _, [], s => s
  | first, blk :: rest, s =>
    writeBlocks env P false rest
      (writePackets blk.2
        (usbFunctionSetup env
          (command 0 USBASP_FUNC_WRITEFLASH blk.1 (P % 256)
            (16 * (P / 256) + blockFlagsOf first rest.isEmpty) (totalLen blk.2)) s).st).2

/-- Number of payload bytes of a stream of blocks. -/
def streamLen (blocks : List (Nat × List (List Nat))) : Nat :=
  (blocks.map fun blk => totalLen blk.2).sum

/-! ## The dispatcher's function ids -/

/-- The function ids that have a branch in `usbFunctionSetup`, in the order of
the branches.  `USBASP_FUNC_UART_RX_FREE` (67) is defined in `usbasp.h` but has
no branch. -/
def handledFunctions : List Nat :=
  [USBASP_FUNC_CONNECT, USBASP_FUNC_DISCONNECT, USBASP_FUNC_TRANSMIT, USBASP_FUNC_READFLASH,
   USBASP_FUNC_READEEPROM, USBASP_FUNC_ENABLEPROG, USBASP_FUNC_WRITEFLASH,
   USBASP_FUNC_WRITEEEPROM, USBASP_FUNC_SETLONGADDRESS, USBASP_FUNC_SETISPSCK,
   USBASP_FUNC_TPI_CONNECT, USBASP_FUNC_TPI_DISCONNECT, USBASP_FUNC_TPI_RAWREAD,
   USBASP_FUNC_TPI_RAWWRITE, USBASP_FUNC_TPI_READBLOCK, USBASP_FUNC_TPI_WRITEBLOCK,
   USBASP_FUNC_PDI_CONNECT, USBASP_FUNC_PDI_DISCONNECT, USBASP_FUNC_PDI_SEND,
   USBASP_FUNC_PDI_READ, USBASP_FUNC_UART_CONFIG, USBASP_FUNC_UART_FLUSHTX,
   USBASP_FUNC_UART_FLUSHRX, USBASP_FUNC_UART_DISABLE, USBASP_FUNC_UART_TX,
   USBASP_FUNC_UART_RX, USBASP_FUNC_UART_TX_FREE, USBASP_FUNC_GETCAPABILITIES]

/-- The arming commands that test `prog_address_newmode`. -/
def ispArmingFunctions : List Nat :=
  [USBASP_FUNC_READFLASH, USBASP_FUNC_WRITEFLASH, USBASP_FUNC_READEEPROM,
   USBASP_FUNC_WRITEEEPROM]

/-- The arming commands of the two-pin block transfers. -/
def tpiArmingFunctions : List Nat :=
  [USBASP_FUNC_TPI_READBLOCK, USBASP_FUNC_TPI_WRITEBLOCK]

/-! ## The clock option at link connect -/

/-- The environment `Env.fixed` with every pin of port C reading low, so the
speed-override pin PC2 is tied to ground. -/
def Env.pinLow : Env :=
  { Env.fixed with PINC := fun _ => 0 }

/-- The arguments of the `ispSetSCKOption` calls of a trace, in order. -/
def sckOptionCalls (tr : List Event) : List Nat :=
  tr.filterMap (fun e => match e with
    | Event.ispSetSCKOption o => some o
    | _ => none)

/-! ## Byte writes of the ISP branch of `usbFunctionWrite` -/

/-- The `(address, byte)` arguments of the `ispWriteFlash` calls of a trace, in
order. -/
def flashWriteCalls (tr : List Event) : List (Nat × Nat) :=
  tr.filterMap (fun e => match e with
    | Event.ispWriteFlash a d _ => some (a, d)
    | _ => none)

/-- The `(address, byte)` arguments of the `ispWriteEEPROM` calls of a trace,
in order. -/
def eepromWriteCalls (tr : List Event) : List (Nat × Nat) :=
  tr.filterMap (fun e => match e with
    | Event.ispWriteEEPROM a d => some (a, d)
    | _ => none)

/-- The bytes of a chunk paired with consecutive addresses from `a` on, as
`prog_address++` produces them (32-bit arithmetic). -/
def atConsecutive : Nat → List Nat → List (Nat × Nat)
  | _, [] => []
  | a, d :: ds => (a, d) :: atConsecutive (u32 (a + 1)) ds

/-! ## Sequences of calls of the three entry points -/

/-- One call of an entry point by the transport: `usbFunctionSetup` with a
command record, `usbFunctionRead` for a number of bytes, or `usbFunctionWrite`
with a chunk. -/
inductive Call where
  | setup (data : List Nat)
  | read (len : Nat)
  | write (data : List Nat)

/-- The state after one call. -/
def applyCall (env : Env) (s : State) : Call → State
  | Call.setup data => (usbFunctionSetup env data s).st
  | Call.read len => (usbFunctionRead env len s).st
  | Call.write data => (usbFunctionWrite data s).st

/-- The state after a finite sequence of calls, first to last. -/
def runCalls (env : Env) (calls : List Call) (s : State) : State :=
  calls.foldl (applyCall env) s

/-- A call that keeps the paged-write discipline in state `s`: a
write-memory-A command (function 6) with the FIRST flag clear carries the
page size that is in force; every other call qualifies. -/
def keepsPageSize (s : State) : Call → Bool
  | Call.setup data =>
    if byte data 1 = USBASP_FUNC_WRITEFLASH ∧ byte data 5 % 2 = 0 then
      decide (byte data 4 + 256 * (byte data 5 >>> 4) = s.prog_pagesize)
    else true
  | _ => true

/-- Every call of the sequence, run from `s`, keeps the paged-write
discipline in the state it is issued in. -/
def pagedDiscipline (env : Env) : State → List Call → Bool
  | _, [] => true
  | s, c :: cs => keepsPageSize s c && pagedDiscipline env (applyCall env s c) cs

/-- The page counter as the running paged write keeps it: an 8-bit value that,
for a page size in 1..255, lies in 1..pageSize. -/
def PageCounterInv (s : State) : Prop :=
  s.prog_pagecounter < 256
  ∧ (0 < s.prog_pagesize → s.prog_pagesize < 256 →
      1 ≤ s.prog_pagecounter ∧ s.prog_pagecounter ≤ s.prog_pagesize)

/-! ## Copies into the scratch buffer -/

/-- The copies `memmove(&prog_buf[prog_buf_pos], data, len)` made while the
chunks are handed to `usbFunctionWrite` one after the other: for each call in
accumulate-then-commit mode the pair of `prog_buf_pos` at the time of the copy
and the chunk length. -/
def scratchCopies : List (List Nat) → State → List (Nat × Nat)
  | [], _ => []
  | c :: cs, s =>
    (if s.prog_state = PROG_STATE_PDI_SEND then [(s.prog_buf_pos, c.length)] else [])
      ++ scratchCopies cs (usbFunctionWrite c s).st

/-- The length arguments of the `pdiSendBytes` calls of a trace, in order. -/
def sendLengths (tr : List Event) : List Nat :=
  tr.filterMap (fun e => match e with
    | Event.pdiSendBytes _ n => some n
    | _ => none)

/-- The capacity of `prog_buf`. -/
def PROG_BUF_SIZE : Nat := 128

/-- The copy made by the call `usbFunctionWrite(data, len)` in state `s` stays
inside `prog_buf`: in accumulate-then-commit mode the chunk ends at or before
index 128.  In the other modes nothing is copied. -/
def scratchCopyInBounds (s : State) (data : List Nat) : Prop :=
  s.prog_state = PROG_STATE_PDI_SEND → s.prog_buf_pos + data.length ≤ PROG_BUF_SIZE

instance scratchCopyInBounds.instDecidable (s : State) (data : List Nat) :
    Decidable (scratchCopyInBounds s data) := by
  unfold scratchCopyInBounds; infer_instance

/-- The consumer `usbFunctionWrite` where the behaviour of the source is
defined: `none` for a call whose copy would pass the end of `prog_buf`. -/
def usbFunctionWriteChecked (data : List Nat) (s : State) : Option WriteResult :=
  if scratchCopyInBounds s data then some (usbFunctionWrite data s) else none

/-- A call that stays inside the scratch buffer in state `s`: a
`usbFunctionWrite` call whose copy stays inside `prog_buf`; every other call
qualifies. -/
def keepsScratchBound (s : State) : Call → Bool
  | Call.write data => decide (scratchCopyInBounds s data)
  | _ => true

/-- Every call of the sequence, run from `s`, stays inside the scratch buffer
in the state it is issued in. -/
def scratchDiscipline (env : Env) : State → List Call → Bool
  | _, [] => true
  | s, c :: cs => keepsScratchBound s c && scratchDiscipline env (applyCall env s c) cs

/-! ## Theorems -/

set_option maxRecDepth 100000

/-! ### Basic facts about the loops -/

theorem u32_add_u32 (a b : Nat) : u32 (u32 a + b) = u32 (a + b) := by
  unfold u32; omega

theorem ispReadLoop_prog_state (env : Env) (n : Nat) (s : State) :
    (ispReadLoop env n s).2.prog_state = s.prog_state := by
  induction n generalizing s with
  | zero => rfl
  | succ n ih =>
    simp only [ispReadLoop]
    rw [ih]
    split <;> rfl

theorem ispReadLoop_prog_nbytes (env : Env) (n : Nat) (s : State) :
    (ispReadLoop env n s).2.prog_nbytes = s.prog_nbytes := by
  induction n generalizing s with
  | zero => rfl
  | succ n ih =>
    simp only [ispReadLoop]
    rw [ih]
    split <;> rfl

theorem uartRxLoop_prog_state (len n rd : Nat) (s : State) :
    (uartRxLoop len n rd s).2.2.prog_state = s.prog_state := by
  induction n generalizing rd s with
  | zero => rfl
  | succ n ih =>
    unfold uartRxLoop uart_getc
    cases h : s.uart_rx with
    | nil => simp [emit]
    | cons b rest => simp [ih, emit]

theorem uartRxLoop_prog_nbytes (len n rd : Nat) (s : State) :
    (uartRxLoop len n rd s).2.2.prog_nbytes = s.prog_nbytes := by
  induction n generalizing rd s with
  | zero => rfl
  | succ n ih =>
    unfold uartRxLoop uart_getc
    cases h : s.uart_rx with
    | nil => simp [emit]
    | cons b rest => simp [ih, emit]

theorem uartRxLoop_ret (len n rd : Nat) (s : State) :
    (uartRxLoop len n rd s).1 = if n ≤ s.uart_rx.length then len else rd + s.uart_rx.length := by
  induction n generalizing rd s with
  | zero => simp [uartRxLoop]
  | succ n ih =>
    unfold uartRxLoop uart_getc
    cases h : s.uart_rx with
    | nil => simp
    | cons b rest =>
      simp only [ih]
      simp [emit]
      split <;> omega

theorem uartRxLoop_data (len n rd : Nat) (s : State) :
    (uartRxLoop len n rd s).2.1 = s.uart_rx.take n := by
  induction n generalizing rd s with
  | zero => simp [uartRxLoop]
  | succ n ih =>
    unfold uartRxLoop uart_getc
    cases h : s.uart_rx with
    | nil => simp
    | cons b rest =>
      simp only [ih]
      simp [emit]

/-! ### C4: short reads -/

/-- C4 (as stated, refuted): a two-pin block read of 3 bytes and an
accumulate-then-read of 3 bytes each produce fewer than 8 bytes, yet the mode
afterwards is not Idle. -/
theorem C4_counterexample :
    ((usbFunctionRead Env.fixed 3 (State.inMode PROG_STATE_TPI_READ)).ret < 8
      ∧ (usbFunctionRead Env.fixed 3 (State.inMode PROG_STATE_TPI_READ)).st.prog_state
          ≠ PROG_STATE_IDLE)
    ∧ ((usbFunctionRead Env.fixed 3 (State.inMode PROG_STATE_PDI_READ)).ret < 8
      ∧ (usbFunctionRead Env.fixed 3 (State.inMode PROG_STATE_PDI_READ)).st.prog_state
          ≠ PROG_STATE_IDLE) := by
  decide

/-- C4 (amended): a `usbFunctionRead` call that produces fewer than 8 bytes
leaves the mode Idle in flash read, EEPROM read and serial RX mode; in two-pin
block read and accumulate-then-read mode it leaves the mode unchanged. -/
theorem C4_short_read (env : Env) (len : Nat) (s : State)
    (hshort : (usbFunctionRead env len s).ret < 8) :
    ((s.prog_state = PROG_STATE_READFLASH ∨ s.prog_state = PROG_STATE_READEEPROM
        ∨ s.prog_state = PROG_STATE_UART_RX) →
      (usbFunctionRead env len s).st.prog_state = PROG_STATE_IDLE)
    ∧ ((s.prog_state = PROG_STATE_TPI_READ ∨ s.prog_state = PROG_STATE_PDI_READ) →
      (usbFunctionRead env len s).st.prog_state = s.prog_state) := by
  constructor
  · rintro (h | h | h)
    · simp [usbFunctionRead, h, PROG_STATE_READFLASH, PROG_STATE_TPI_READ, PROG_STATE_UART_RX,
        PROG_STATE_PDI_READ] at hshort ⊢
      simp [hshort]
    · simp [usbFunctionRead, h, PROG_STATE_READEEPROM, PROG_STATE_TPI_READ, PROG_STATE_UART_RX,
        PROG_STATE_PDI_READ] at hshort ⊢
      simp [hshort]
    · simp [usbFunctionRead, h, PROG_STATE_TPI_READ, PROG_STATE_UART_RX] at hshort ⊢
      simp [hshort, emit]
  · rintro (h | h)
    · simp [usbFunctionRead, h, emit]
    · simp only [usbFunctionRead, h, PROG_STATE_PDI_READ, PROG_STATE_TPI_READ, PROG_STATE_UART_RX]
      simp
      split <;> split <;> simp [emit, pdiWaitNVM, h, PROG_STATE_PDI_READ]

/-- C4 (amended), at a flash read of 3 bytes: fewer than 8 bytes are produced
and the mode afterwards is Idle. -/
theorem C4_short_read_witness :
    (usbFunctionRead Env.fixed 3 (State.inMode PROG_STATE_READFLASH)).ret < 8
    ∧ (usbFunctionRead Env.fixed 3 (State.inMode PROG_STATE_READFLASH)).st.prog_state
        = PROG_STATE_IDLE :=
  ⟨by decide,
   (C4_short_read Env.fixed 3 (State.inMode PROG_STATE_READFLASH) (by decide)).1 (Or.inl rfl)⟩

/-! ### C5: full reads -/

/-- C5 (as stated, refuted): a flash read of 8 bytes with `remaining` 16
produces 8 bytes and leaves `remaining` at 16, not at 16 - 8. -/
theorem C5_counterexample :
    (usbFunctionRead Env.fixed 8
        { State.inMode PROG_STATE_READFLASH with prog_nbytes := 16 }).ret = 8
    ∧ (usbFunctionRead Env.fixed 8
        { State.inMode PROG_STATE_READFLASH with prog_nbytes := 16 }).st.prog_nbytes = 16
    ∧ (usbFunctionRead Env.fixed 8
        { State.inMode PROG_STATE_READFLASH with prog_nbytes := 16 }).st.prog_nbytes
        ≠ 16 - 8 := by
  decide

/-- C5 (amended): in every read mode, a `usbFunctionRead` call that produces
exactly 8 bytes leaves the mode as it was and leaves `remaining`
(`prog_nbytes`) unchanged. -/
theorem C5_full_read (env : Env) (len : Nat) (s : State)
    (hmode : isReadMode s.prog_state)
    (hfull : (usbFunctionRead env len s).ret = 8) :
    (usbFunctionRead env len s).st.prog_state = s.prog_state
    ∧ (usbFunctionRead env len s).st.prog_nbytes = s.prog_nbytes := by
  rcases hmode with h | h | h | h | h
  · simp [usbFunctionRead, h, PROG_STATE_READFLASH, PROG_STATE_TPI_READ, PROG_STATE_UART_RX,
      PROG_STATE_PDI_READ] at hfull ⊢
    simp [hfull, ispReadLoop_prog_state, ispReadLoop_prog_nbytes, h, PROG_STATE_READFLASH]
  · simp [usbFunctionRead, h, PROG_STATE_READEEPROM, PROG_STATE_TPI_READ, PROG_STATE_UART_RX,
      PROG_STATE_PDI_READ] at hfull ⊢
    simp [hfull, ispReadLoop_prog_state, ispReadLoop_prog_nbytes, h, PROG_STATE_READEEPROM]
  · simp [usbFunctionRead, h, emit]
  · simp only [usbFunctionRead, h, PROG_STATE_PDI_READ, PROG_STATE_TPI_READ, PROG_STATE_UART_RX]
    simp
    split <;> split <;> simp [emit, pdiWaitNVM, h, PROG_STATE_PDI_READ]
  · simp [usbFunctionRead, h, PROG_STATE_TPI_READ, PROG_STATE_UART_RX] at hfull ⊢
    simp [hfull, emit, uartRxLoop_prog_state, uartRxLoop_prog_nbytes, h, PROG_STATE_UART_RX]

/-- C5 (amended), at an EEPROM read of 8 bytes with `remaining` 16. -/
theorem C5_full_read_witness :
    isReadMode PROG_STATE_READEEPROM
    ∧ (usbFunctionRead Env.fixed 8
        { State.inMode PROG_STATE_READEEPROM with prog_nbytes := 16 }).ret = 8
    ∧ (usbFunctionRead Env.fixed 8
        { State.inMode PROG_STATE_READEEPROM with prog_nbytes := 16 }).st.prog_state
        = PROG_STATE_READEEPROM
    ∧ (usbFunctionRead Env.fixed 8
        { State.inMode PROG_STATE_READEEPROM with prog_nbytes := 16 }).st.prog_nbytes = 16 :=
  ⟨by decide, by decide,
   C5_full_read Env.fixed 8 { State.inMode PROG_STATE_READEEPROM with prog_nbytes := 16 }
     (by decide) (by decide)⟩

/-! ### C6: serial RX -/

/-- C6: in serial RX mode, for every requested size `len` (in particular
`0 <= len <= 8`) and every receive FIFO, `usbFunctionRead` returns
`min len k` for a FIFO of `k` bytes, the bytes produced are the first
`min len k` bytes of the FIFO in order, and the mode afterwards is Idle
exactly when the returned length is below 8; otherwise it stays serial RX. -/
theorem C6_serial_rx (env : Env) (len : Nat) (s : State)
    (hmode : s.prog_state = PROG_STATE_UART_RX) :
    (usbFunctionRead env len s).ret = min len s.uart_rx.length
    ∧ (usbFunctionRead env len s).data = s.uart_rx.take (min len s.uart_rx.length)
    ∧ ((usbFunctionRead env len s).st.prog_state = PROG_STATE_IDLE
        ↔ (usbFunctionRead env len s).ret < 8)
    ∧ (¬ (usbFunctionRead env len s).ret < 8 →
        (usbFunctionRead env len s).st.prog_state = PROG_STATE_UART_RX) := by
  have hret : (usbFunctionRead env len s).ret = min len s.uart_rx.length := by
    simp [usbFunctionRead, hmode, PROG_STATE_UART_RX, PROG_STATE_TPI_READ, uartRxLoop_ret]
    split <;> omega
  have hst : (usbFunctionRead env len s).st.prog_state
      = if (usbFunctionRead env len s).ret < 8 then PROG_STATE_IDLE else PROG_STATE_UART_RX := by
    simp [usbFunctionRead, hmode, PROG_STATE_UART_RX, PROG_STATE_TPI_READ, emit]
    split
    · simp [PROG_STATE_IDLE]
    · simp [uartRxLoop_prog_state, hmode, PROG_STATE_UART_RX]
  refine ⟨hret, ?_, ?_, ?_⟩
  · simp [usbFunctionRead, hmode, PROG_STATE_UART_RX, PROG_STATE_TPI_READ, uartRxLoop_data]
  · rw [hst]
    split <;> simp_all [PROG_STATE_IDLE, PROG_STATE_UART_RX]
  · intro h
    rw [hst]
    simp [h]

/-- C6, at the scenario of the specification: 8 bytes requested with 3 bytes
buffered returns 3, the 3 buffered bytes in order, and the mode is Idle. -/
theorem C6_serial_rx_witness :
    (usbFunctionRead Env.fixed 8
        { State.inMode PROG_STATE_UART_RX with uart_rx := [0x11, 0x22, 0x33] }).ret = 3
    ∧ (usbFunctionRead Env.fixed 8
        { State.inMode PROG_STATE_UART_RX with uart_rx := [0x11, 0x22, 0x33] }).data
        = [0x11, 0x22, 0x33]
    ∧ (usbFunctionRead Env.fixed 8
        { State.inMode PROG_STATE_UART_RX with uart_rx := [0x11, 0x22, 0x33] }).st.prog_state
        = PROG_STATE_IDLE := by
  have h := C6_serial_rx Env.fixed 8
    { State.inMode PROG_STATE_UART_RX with uart_rx := [0x11, 0x22, 0x33] } rfl
  exact ⟨h.1, h.2.1, h.2.2.1.mpr (by decide)⟩

/-! ### C9: protocol misuse -/

/-- C9: in every mode that is not a read mode `usbFunctionRead` returns 0xFF,
and in every mode that is not a write mode `usbFunctionWrite` returns 0xFF; in
both cases the whole state, the record of collaborator calls included, is
unchanged (nothing is stored into the buffer either); and 0xFF is none of the
lengths 0..8 and neither 0 nor 1. -/
theorem C9_misuse_sentinel (env : Env) (len : Nat) (data : List Nat) (s : State) :
    (¬ isReadMode s.prog_state → usbFunctionRead env len s = ⟨0xFF, [], s⟩)
    ∧ (¬ isWriteMode s.prog_state → usbFunctionWrite data s = ⟨0xFF, s⟩)
    ∧ (∀ n : Nat, n ≤ 8 → (0xFF : Nat) ≠ n) := by
  refine ⟨?_, ?_, ?_⟩
  · intro h
    simp only [isReadMode, not_or] at h
    obtain ⟨h1, h2, h3, h4, h5⟩ := h
    simp [usbFunctionRead, h1, h2, h3, h4, h5]
  · intro h
    simp only [isWriteMode, not_or] at h
    obtain ⟨h1, h2, h3, h4, h5⟩ := h
    simp [usbFunctionWrite, h1, h2, h3, h4, h5]
  · intro n hn; omega

/-- C9, at concrete states: a read in Idle and in flash write mode, a write in
Idle and in flash read mode. -/
theorem C9_misuse_sentinel_witness :
    usbFunctionRead Env.fixed 8 State.init = ⟨0xFF, [], State.init⟩
    ∧ usbFunctionRead Env.fixed 8 (State.inMode PROG_STATE_WRITEFLASH)
        = ⟨0xFF, [], State.inMode PROG_STATE_WRITEFLASH⟩
    ∧ usbFunctionWrite [1, 2, 3] State.init = ⟨0xFF, State.init⟩
    ∧ usbFunctionWrite [1, 2, 3] (State.inMode PROG_STATE_READFLASH)
        = ⟨0xFF, State.inMode PROG_STATE_READFLASH⟩ :=
  ⟨(C9_misuse_sentinel Env.fixed 8 [] State.init).1 (by decide),
   (C9_misuse_sentinel Env.fixed 8 [] (State.inMode PROG_STATE_WRITEFLASH)).1 (by decide),
   (C9_misuse_sentinel Env.fixed 8 [1, 2, 3] State.init).2.1 (by decide),
   (C9_misuse_sentinel Env.fixed 8 [1, 2, 3] (State.inMode PROG_STATE_READFLASH)).2.1
     (by decide)⟩

/-! ### C10: accumulate-then-read -/

/-- C10: in accumulate-then-read mode, for every chunk size and address, one
`usbFunctionRead` call issues: clock disabled, idle frame, the wait only if
the busy flag is set, then the block read, then clock enabled, each once and
in this order.  If the block read reports a status other than
`PDI_STATUS_OK` the call returns 0 and leaves mode, address and remaining
unchanged; if it reports `PDI_STATUS_OK` the call returns the requested
length and the 32-bit address is advanced by that length. -/
theorem C10_pdi_read (env : Env) (len : Nat) (s : State)
    (hmode : s.prog_state = PROG_STATE_PDI_READ) :
    (usbFunctionRead env len s).st.trace
        = s.trace ++ pdiIdleWaitCalls s.pdi_nvmbusy
            ++ [Event.pdiReadBlock s.prog_address len, Event.pdiEnableTimerClock]
    ∧ (u8 (env.pdiReadBlock (s.trace ++ pdiIdleWaitCalls s.pdi_nvmbusy) s.prog_address len)
          ≠ env.PDI_STATUS_OK →
        (usbFunctionRead env len s).ret = 0
        ∧ (usbFunctionRead env len s).st.prog_state = s.prog_state
        ∧ (usbFunctionRead env len s).st.prog_address = s.prog_address
        ∧ (usbFunctionRead env len s).st.prog_nbytes = s.prog_nbytes)
    ∧ (u8 (env.pdiReadBlock (s.trace ++ pdiIdleWaitCalls s.pdi_nvmbusy) s.prog_address len)
          = env.PDI_STATUS_OK →
        (usbFunctionRead env len s).ret = len
        ∧ (usbFunctionRead env len s).st.prog_address = u32 (s.prog_address + len)) := by
  by_cases hb : s.pdi_nvmbusy = 0
  · simp only [usbFunctionRead, hmode, PROG_STATE_PDI_READ, PROG_STATE_TPI_READ,
      PROG_STATE_UART_RX, pdiIdleWaitCalls]
    simp [emit, hb]
    refine ⟨?_, ?_, ?_⟩
    · split <;> simp
    · intro h; simp [h]; exact hmode
    · intro h; simp [h]
  · simp only [usbFunctionRead, hmode, PROG_STATE_PDI_READ, PROG_STATE_TPI_READ,
      PROG_STATE_UART_RX, pdiIdleWaitCalls]
    simp [emit, hb, pdiWaitNVM]
    refine ⟨?_, ?_, ?_⟩
    · split <;> simp
    · intro h; simp [h]; exact hmode
    · intro h; simp [h]

/-- C10, at a failing block read of 8 bytes at address 0x1000 with the busy
flag set: the wait runs, 0 is returned, mode and address are unchanged. -/
theorem C10_pdi_read_witness :
    (usbFunctionRead Env.pdiFailing 8
        { State.inMode PROG_STATE_PDI_READ with prog_address := 0x1000, pdi_nvmbusy := 1 }).st.trace
      = [Event.pdiDisableTimerClock, Event.pdiSendIdle, Event.pdiWaitNVM,
         Event.pdiReadBlock 0x1000 8, Event.pdiEnableTimerClock]
    ∧ (usbFunctionRead Env.pdiFailing 8
        { State.inMode PROG_STATE_PDI_READ with prog_address := 0x1000, pdi_nvmbusy := 1 }).ret = 0
    ∧ (usbFunctionRead Env.pdiFailing 8
        { State.inMode PROG_STATE_PDI_READ with prog_address := 0x1000,
                                                pdi_nvmbusy := 1 }).st.prog_state
      = PROG_STATE_PDI_READ
    ∧ (usbFunctionRead Env.pdiFailing 8
        { State.inMode PROG_STATE_PDI_READ with prog_address := 0x1000,
                                                pdi_nvmbusy := 1 }).st.prog_address
      = 0x1000 := by
  have h := C10_pdi_read Env.pdiFailing 8
    { State.inMode PROG_STATE_PDI_READ with prog_address := 0x1000, pdi_nvmbusy := 1 } rfl
  have h2 := h.2.1 (by decide)
  exact ⟨h.1, h2.1, h2.2.1, h2.2.2.1⟩

/-! ### C7: two-pin block write -/

theorem tpi_write_last (c : List Nat) (s : State)
    (hmode : s.prog_state = PROG_STATE_TPI_WRITE)
    (hn : s.prog_nbytes = c.length) (hlt : c.length < 65536) :
    usbFunctionWrite c s
      = ⟨1, { s with trace := s.trace ++ [Event.tpi_write_block s.prog_address c c.length],
                     prog_address := u32 (s.prog_address + c.length),
                     prog_nbytes := 0,
                     prog_state := PROG_STATE_IDLE }⟩ := by
  have hu : u16 c.length = c.length := by unfold u16; omega
  have hz : u16 (c.length + (65536 - c.length)) = 0 := by unfold u16; omega
  simp [usbFunctionWrite, hmode, hn, hu, hz, emit]

theorem tpi_write_more (c : List Nat) (s : State) (m : Nat)
    (hmode : s.prog_state = PROG_STATE_TPI_WRITE)
    (hn : s.prog_nbytes = c.length + m) (hm : 0 < m) (hlt : c.length + m < 65536) :
    usbFunctionWrite c s
      = ⟨0, { s with trace := s.trace ++ [Event.tpi_write_block s.prog_address c c.length],
                     prog_address := u32 (s.prog_address + c.length),
                     prog_nbytes := m }⟩ := by
  have hu : u16 c.length = c.length := by unfold u16; omega
  have hz : u16 (c.length + m + (65536 - c.length)) = m := by unfold u16; omega
  have hm0 : m ≠ 0 := by omega
  simp [usbFunctionWrite, hmode, hn, hu, hz, hm0, emit]

theorem totalLen_pos_of_getLast (chunks : List (List Nat)) (hne : chunks ≠ [])
    (hlast : chunks.getLast hne ≠ []) : 0 < totalLen chunks := by
  have hmem := List.getLast_mem hne
  have hpos : 0 < (chunks.getLast hne).length := List.length_pos.mpr hlast
  have hle : (chunks.getLast hne).length ≤ totalLen chunks := by
    unfold totalLen
    exact List.single_le_sum (by simp) _ (List.mem_map_of_mem _ hmem)
  omega

theorem tpi_write_run (A : Nat) (chunks : List (List Nat)) :
    ∀ (off : Nat) (s : State),
      s.prog_state = PROG_STATE_TPI_WRITE →
      s.prog_address = u32 (A + off) →
      s.prog_nbytes = totalLen chunks →
      totalLen chunks < 65536 →
      ∀ hne : chunks ≠ [], chunks.getLast hne ≠ [] →
      (writePackets chunks s).1 = List.replicate (chunks.length - 1) 0 ++ [1]
      ∧ (writePackets chunks s).2.trace = s.trace ++ tpiWriteCalls A off chunks
      ∧ (writePackets chunks s).2.prog_state = PROG_STATE_IDLE
      ∧ (writePackets chunks s).2.prog_nbytes = 0
      ∧ (writePackets chunks s).2.prog_address = u32 (A + off + totalLen chunks)
      ∧ (∀ k, k < chunks.length →
          (writePackets (chunks.take k) s).2.prog_state = PROG_STATE_TPI_WRITE) := by
  induction chunks with
  | nil => intro off s _ _ _ _ h; exact absurd rfl h
  | cons c cs ih =>
    intro off s hmode haddr hn hlt _ hlast
    cases cs with
    | nil =>
      have ht : totalLen [c] = c.length := by simp [totalLen]
      have hstep := tpi_write_last c s hmode (by omega) (by omega)
      refine ⟨?_, ?_, ?_, ?_, ?_, ?_⟩
      · simp [writePackets, hstep]
      · simp [writePackets, hstep, tpiWriteCalls, haddr]
      · simp [writePackets, hstep]
      · simp [writePackets, hstep]
      · simp [writePackets, hstep, haddr, u32_add_u32, ht]
      · intro k hk
        have : k = 0 := by simpa using hk
        subst this
        simpa [writePackets] using hmode
    | cons c2 cs2 =>
      have hlast2 : (c2 :: cs2).getLast (by simp) ≠ [] := by simpa using hlast
      have hrest : 0 < totalLen (c2 :: cs2) := totalLen_pos_of_getLast _ (by simp) hlast2
      have hc : totalLen (c :: c2 :: cs2) = c.length + totalLen (c2 :: cs2) := by
        simp [totalLen]
      have hstep := tpi_write_more c s (totalLen (c2 :: cs2)) hmode (by omega) hrest (by omega)
      have ih2 := ih (off + c.length)
        { s with trace := s.trace ++ [Event.tpi_write_block s.prog_address c c.length],
                 prog_address := u32 (s.prog_address + c.length),
                 prog_nbytes := totalLen (c2 :: cs2) }
        hmode (by simp [haddr, u32_add_u32, Nat.add_assoc]) rfl (by omega) (by simp) hlast2
      obtain ⟨i1, i2, i3, i4, i5, i6⟩ := ih2
      refine ⟨?_, ?_, ?_, ?_, ?_, ?_⟩
      · rw [writePackets, hstep]
        simp only [i1]
        simp [List.replicate_succ]
      · rw [writePackets, hstep]
        simp only [i2]
        simp [tpiWriteCalls, haddr]
      · rw [writePackets, hstep]; exact i3
      · rw [writePackets, hstep]; exact i4
      · rw [writePackets, hstep]
        simp only [i5]
        congr 1
        omega
      · intro k hk
        cases k with
        | zero => simpa [writePackets] using hmode
        | succ k =>
          rw [List.take_succ_cons, writePackets, hstep]
          exact i6 k (by simpa using hk)

theorem word16_lt (data : List Nat) (hi lo : Nat) : word16 data hi lo < 65536 := by
  unfold word16 u16; omega

theorem setup_tpi_writeblock (env : Env) (data : List Nat) (s : State)
    (hfn : byte data 1 = USBASP_FUNC_TPI_WRITEBLOCK) :
    (usbFunctionSetup env data s).st
      = { s with prog_address := intToULong (word16 data 3 2),
                 prog_nbytes := word16 data 7 6,
                 prog_state := PROG_STATE_TPI_WRITE,
                 usbMsgPtr_replyBuffer := true } := by
  simp [usbFunctionSetup, hfn, USBASP_FUNC_TPI_WRITEBLOCK, USBASP_FUNC_CONNECT,
    USBASP_FUNC_DISCONNECT, USBASP_FUNC_TRANSMIT, USBASP_FUNC_READFLASH,
    USBASP_FUNC_ENABLEPROG, USBASP_FUNC_WRITEFLASH, USBASP_FUNC_READEEPROM,
    USBASP_FUNC_WRITEEEPROM, USBASP_FUNC_SETLONGADDRESS, USBASP_FUNC_SETISPSCK,
    USBASP_FUNC_TPI_CONNECT, USBASP_FUNC_TPI_DISCONNECT, USBASP_FUNC_TPI_RAWREAD,
    USBASP_FUNC_TPI_RAWWRITE, USBASP_FUNC_TPI_READBLOCK]

/-- C7 (as stated, refuted): a two-pin block write armed with length 1 and
delivered as the packets `[5]`, `[]` (lengths 1 and 0, summing to 1): the call
before the last returns 1, not 0, and the last call returns 0xFF, not 1. -/
theorem C7_counterexample :
    totalLen [[5], []] = 1
    ∧ (usbFunctionSetup Env.fixed [0, 16, 0, 0, 0, 0, 1, 0] State.init).st.prog_nbytes = 1
    ∧ (writePackets [[5], []]
        (usbFunctionSetup Env.fixed [0, 16, 0, 0, 0, 0, 1, 0] State.init).st).1 = [1, 0xFF] := by
  decide

/-- C7 (amended): for a two-pin block write armed by function 16 at address `A`
(the address stored by the command) with length `N`, and every sequence of
packets, each of at most 8 bytes and the last one not empty, whose lengths sum
to `N`: each `usbFunctionWrite` call issues exactly one block write carrying
the packet verbatim at `A` plus the total length of the earlier packets
(32-bit arithmetic); every call before the last returns 0 with the mode still
two-pin block write; the last call returns 1 and leaves the mode Idle,
remaining 0 and the address `A + N`. -/
theorem C7_tpi_block_write (env : Env) (data : List Nat) (s : State)
    (chunks : List (List Nat))
    (hfn : byte data 1 = USBASP_FUNC_TPI_WRITEBLOCK)
    (_hsize : ∀ c ∈ chunks, c.length ≤ 8)
    (hsum : totalLen chunks = word16 data 7 6)
    (hne : chunks ≠ [])
    (hlast : chunks.getLast hne ≠ []) :
    (usbFunctionSetup env data s).st.prog_state = PROG_STATE_TPI_WRITE
    ∧ (usbFunctionSetup env data s).st.prog_nbytes = totalLen chunks
    ∧ (writePackets chunks (usbFunctionSetup env data s).st).1
        = List.replicate (chunks.length - 1) 0 ++ [1]
    ∧ (writePackets chunks (usbFunctionSetup env data s).st).2.trace
        = s.trace ++ tpiWriteCalls (usbFunctionSetup env data s).st.prog_address 0 chunks
    ∧ (∀ k, k < chunks.length →
        (writePackets (chunks.take k) (usbFunctionSetup env data s).st).2.prog_state
          = PROG_STATE_TPI_WRITE)
    ∧ (writePackets chunks (usbFunctionSetup env data s).st).2.prog_state = PROG_STATE_IDLE
    ∧ (writePackets chunks (usbFunctionSetup env data s).st).2.prog_nbytes = 0
    ∧ (writePackets chunks (usbFunctionSetup env data s).st).2.prog_address
        = u32 ((usbFunctionSetup env data s).st.prog_address + totalLen chunks) := by
  have hs := setup_tpi_writeblock env data s hfn
  have hlt : totalLen chunks < 65536 := by rw [hsum]; exact word16_lt data 7 6
  have hA : (usbFunctionSetup env data s).st.prog_address < 4294967296 := by
    rw [hs]; simp only [intToULong, u16]; split <;> omega
  obtain ⟨r1, r2, r3, r4, r5, r6⟩ :=
    tpi_write_run (usbFunctionSetup env data s).st.prog_address chunks 0
      (usbFunctionSetup env data s).st (by rw [hs]) (by unfold u32; omega)
      (by rw [hs]; exact hsum.symm) hlt hne hlast
  refine ⟨by rw [hs], by rw [hs]; exact hsum.symm, r1, ?_, r6, r3, r4, ?_⟩
  · rw [r2]; rw [hs]
  · rw [r5]; simp

/-- C7 (amended), at the command `{_, 16, addr 0x1234, len 3}` delivered as
the packets `[1, 2]`, `[3]`. -/
theorem C7_tpi_block_write_witness :
    (writePackets [[1, 2], [3]]
        (usbFunctionSetup Env.fixed [0, 16, 0x34, 0x12, 0, 0, 3, 0] State.init).st).1 = [0, 1]
    ∧ (writePackets [[1, 2], [3]]
        (usbFunctionSetup Env.fixed [0, 16, 0x34, 0x12, 0, 0, 3, 0] State.init).st).2.trace
        = [Event.tpi_write_block 0x1234 [1, 2] 2, Event.tpi_write_block 0x1236 [3] 1]
    ∧ (writePackets [[1, 2], [3]]
        (usbFunctionSetup Env.fixed [0, 16, 0x34, 0x12, 0, 0, 3, 0] State.init).st).2.prog_state
        = PROG_STATE_IDLE
    ∧ (writePackets [[1, 2], [3]]
        (usbFunctionSetup Env.fixed [0, 16, 0x34, 0x12, 0, 0, 3, 0] State.init).st).2.prog_address
        = 0x1237 := by
  have h := C7_tpi_block_write Env.fixed [0, 16, 0x34, 0x12, 0, 0, 3, 0] State.init
    [[1, 2], [3]] (by decide) (by decide) (by decide) (by decide) (by decide)
  exact ⟨h.2.2.1, h.2.2.2.1, h.2.2.2.2.2.1, h.2.2.2.2.2.2.2⟩

/-! ### C8: accumulate-then-commit send -/

theorem bufBytes_memmove_at (buf : Nat → Nat) (pos : Nat) (c : List Nat) :
    bufBytes (memmove_at buf pos c) (pos + c.length) = bufBytes buf pos ++ c := by
  unfold bufBytes
  rw [List.range_add, List.map_append]
  congr 1
  · apply List.map_congr_left
    intro j hj
    have : j < pos := List.mem_range.mp hj
    simp [memmove_at]
    intro h; omega
  · apply List.ext_getElem
    · simp
    · intro i h1 h2
      simp [memmove_at]
      simp at h1
      simp [h1, List.getD_eq_getElem?_getD]

theorem pdi_send_more (c : List Nat) (s : State) (m : Nat)
    (hmode : s.prog_state = PROG_STATE_PDI_SEND)
    (hn : s.prog_nbytes = c.length + m) (hm : 0 < m) (hlt : c.length + m < 65536) :
    usbFunctionWrite c s
      = ⟨0, { s with prog_buf := memmove_at s.prog_buf s.prog_buf_pos c,
                     prog_buf_pos := u8 (s.prog_buf_pos + c.length),
                     prog_nbytes := m }⟩ := by
  have hu : u16 c.length = c.length := by unfold u16; omega
  have hz : u16 (c.length + m + (65536 - c.length)) = m := by unfold u16; omega
  have hm0 : m ≠ 0 := by omega
  simp [usbFunctionWrite, hmode, hn, hu, hz, hm0, PROG_STATE_PDI_SEND, PROG_STATE_TPI_WRITE,
    PROG_STATE_UART_TX]

theorem pdi_send_last (c : List Nat) (s : State)
    (hmode : s.prog_state = PROG_STATE_PDI_SEND)
    (hn : s.prog_nbytes = c.length) (hlt : c.length < 65536) :
    (usbFunctionWrite c s).ret = 1
    ∧ (usbFunctionWrite c s).st.prog_state = PROG_STATE_IDLE
    ∧ (usbFunctionWrite c s).st.pdi_nvmbusy = pdiBusyAfter s.prog_blockflags s.pdi_nvmbusy
    ∧ (usbFunctionWrite c s).st.trace
        = s.trace ++ pdiSendCalls s.prog_blockflags s.pdi_nvmbusy
            (bufBytes (memmove_at s.prog_buf s.prog_buf_pos c) (u8 (s.prog_buf_pos + c.length)))
            (u8 (s.prog_buf_pos + c.length)) := by
  have hu : u16 c.length = c.length := by unfold u16; omega
  have hz : u16 (c.length + (65536 - c.length)) = 0 := by unfold u16; omega
  simp only [usbFunctionWrite, hmode, PROG_STATE_PDI_SEND, PROG_STATE_TPI_WRITE,
    PROG_STATE_UART_TX, hn, hu, hz, pdiBusyAfter, pdiSendCalls]
  by_cases hw : s.prog_blockflags &&& USBASP_PDI_WAIT_BUSY ≠ 0 ∧ s.pdi_nvmbusy ≠ 0
  · by_cases hmk : s.prog_blockflags &&& USBASP_PDI_MARK_BUSY ≠ 0
    · simp [emit, pdiWaitNVM, hw, hmk, PROG_STATE_IDLE]
    · simp [emit, pdiWaitNVM, hw, hmk, PROG_STATE_IDLE]
  · by_cases hmk : s.prog_blockflags &&& USBASP_PDI_MARK_BUSY ≠ 0
    · simp [emit, pdiWaitNVM, hw, hmk, PROG_STATE_IDLE]
    · simp [emit, pdiWaitNVM, hw, hmk, PROG_STATE_IDLE]

theorem pdi_send_run (chunks : List (List Nat)) :
    ∀ (acc : List Nat) (s : State),
      s.prog_state = PROG_STATE_PDI_SEND →
      s.prog_buf_pos = acc.length →
      bufBytes s.prog_buf acc.length = acc →
      s.prog_nbytes = totalLen chunks →
      acc.length + totalLen chunks ≤ 128 →
      ∀ hne : chunks ≠ [], chunks.getLast hne ≠ [] →
      (writePackets chunks s).1 = List.replicate (chunks.length - 1) 0 ++ [1]
      ∧ (writePackets chunks s).2.trace
          = s.trace ++ pdiSendCalls s.prog_blockflags s.pdi_nvmbusy (acc ++ chunks.flatten)
              (acc.length + totalLen chunks)
      ∧ (writePackets chunks s).2.prog_state = PROG_STATE_IDLE
      ∧ (writePackets chunks s).2.pdi_nvmbusy = pdiBusyAfter s.prog_blockflags s.pdi_nvmbusy
      ∧ (∀ k, k < chunks.length →
          (writePackets (chunks.take k) s).2.trace = s.trace
          ∧ (writePackets (chunks.take k) s).2.prog_state = PROG_STATE_PDI_SEND) := by
  induction chunks with
  | nil => intro acc s _ _ _ _ _ h; exact absurd rfl h
  | cons c cs ih =>
    intro acc s hmode hpos hbuf hn hcap _ hlast
    cases cs with
    | nil =>
      have ht : totalLen [c] = c.length := by simp [totalLen]
      obtain ⟨l1, l2, l3, l4⟩ := pdi_send_last c s hmode (by omega) (by omega)
      have hu8 : u8 (acc.length + c.length) = acc.length + c.length := by unfold u8; omega
      refine ⟨?_, ?_, ?_, ?_, ?_⟩
      · simp [writePackets, l1]
      · simp only [writePackets, l4, hpos, hu8, bufBytes_memmove_at, hbuf, ht]
        simp
      · simp [writePackets, l2]
      · simp [writePackets, l3]
      · intro k hk
        have : k = 0 := by simpa using hk
        subst this
        simpa [writePackets] using hmode
    | cons c2 cs2 =>
      have hlast2 : (c2 :: cs2).getLast (by simp) ≠ [] := by simpa using hlast
      have hrest : 0 < totalLen (c2 :: cs2) := totalLen_pos_of_getLast _ (by simp) hlast2
      have hc : totalLen (c :: c2 :: cs2) = c.length + totalLen (c2 :: cs2) := by
        simp [totalLen]
      have hstep := pdi_send_more c s (totalLen (c2 :: cs2)) hmode (by omega) hrest (by omega)
      have hu8 : u8 (acc.length + c.length) = acc.length + c.length := by unfold u8; omega
      have ih2 := ih (acc ++ c)
        { s with prog_buf := memmove_at s.prog_buf s.prog_buf_pos c,
                 prog_buf_pos := u8 (s.prog_buf_pos + c.length),
                 prog_nbytes := totalLen (c2 :: cs2) }
        hmode (by simp [hpos, hu8])
        (by simp only [List.length_append, hpos, bufBytes_memmove_at, hbuf])
        rfl (by simp only [List.length_append]; omega) (by simp) hlast2
      obtain ⟨i1, i2, i3, i4, i5⟩ := ih2
      refine ⟨?_, ?_, ?_, ?_, ?_⟩
      · rw [writePackets, hstep]
        simp only [i1]
        simp [List.replicate_succ]
      · rw [writePackets, hstep]
        simp only [i2, hc]
        simp [Nat.add_assoc]
      · rw [writePackets, hstep]; exact i3
      · rw [writePackets, hstep]; exact i4
      · intro k hk
        cases k with
        | zero => simpa [writePackets] using hmode
        | succ k =>
          rw [List.take_succ_cons, writePackets, hstep]
          exact i5 k (by simpa using hk)

theorem setup_pdi_send (env : Env) (data : List Nat) (s : State)
    (hfn : byte data 1 = USBASP_FUNC_PDI_SEND) :
    (usbFunctionSetup env data s).st
      = { s with prog_nbytes := word16 data 7 6,
                 prog_blockflags := byte data 2,
                 prog_state := PROG_STATE_PDI_SEND,
                 prog_buf_pos := 0,
                 usbMsgPtr_replyBuffer := true } := by
  simp [usbFunctionSetup, hfn, USBASP_FUNC_PDI_SEND, USBASP_FUNC_CONNECT,
    USBASP_FUNC_DISCONNECT, USBASP_FUNC_TRANSMIT, USBASP_FUNC_READFLASH,
    USBASP_FUNC_ENABLEPROG, USBASP_FUNC_WRITEFLASH, USBASP_FUNC_READEEPROM,
    USBASP_FUNC_WRITEEEPROM, USBASP_FUNC_SETLONGADDRESS, USBASP_FUNC_SETISPSCK,
    USBASP_FUNC_TPI_CONNECT, USBASP_FUNC_TPI_DISCONNECT, USBASP_FUNC_TPI_RAWREAD,
    USBASP_FUNC_TPI_RAWWRITE, USBASP_FUNC_TPI_READBLOCK, USBASP_FUNC_TPI_WRITEBLOCK,
    USBASP_FUNC_PDI_CONNECT, USBASP_FUNC_PDI_DISCONNECT]

/-- C8 (as stated, refuted), twice.  First: a one-byte send armed with the
WAIT_BUSY bit only (command byte 2 is 1) while the busy flag is 1: MARK_BUSY
is clear, yet the flag is 0 afterwards, not unchanged.  Second: a one-byte
send delivered as the packets `[5]`, `[]`: the call before the last issues
the send and returns 1, and the last call returns 0xFF. -/
theorem C8_counterexample :
    ((1 : Nat) &&& USBASP_PDI_MARK_BUSY = 0
      ∧ (writePackets [[5]]
          (usbFunctionSetup Env.fixed [0, 20, 1, 0, 0, 0, 1, 0]
            { State.init with pdi_nvmbusy := 1 }).st).2.pdi_nvmbusy = 0)
    ∧ (totalLen [[5], []] = 1
      ∧ (writePackets [[5], []]
          (usbFunctionSetup Env.fixed [0, 20, 0, 0, 0, 0, 1, 0] State.init).st).1 = [1, 0xFF]
      ∧ (writePackets [[5]]
          (usbFunctionSetup Env.fixed [0, 20, 0, 0, 0, 0, 1, 0] State.init).st).2.trace
          = [Event.pdiDisableTimerClock, Event.pdiSendIdle, Event.pdiSendBytes [5] 1,
             Event.pdiEnableTimerClock]) := by
  decide

/-- C8 (amended): for a send armed by function 20 with length `N`,
`1 <= N <= 128`, and every sequence of packets, each of at most 8 bytes and
the last one not empty, whose lengths sum to `N`: every call before the last
issues no collaborator call and returns 0 (the mode stays accumulate-send); the
last call runs the idle/wait sequence, invokes `pdiSendBytes` exactly once with
the concatenation of all packets in arrival order and length `N`, re-enables
the clock, makes the mode Idle and returns 1.  The busy flag afterwards is 1 if
the MARK_BUSY bit (value 2) of command byte 2 is set; otherwise it is 0 if the
wait ran (WAIT_BUSY bit set and flag set) and unchanged if the wait did not
run. -/
theorem C8_pdi_send (env : Env) (data : List Nat) (s : State)
    (chunks : List (List Nat))
    (hfn : byte data 1 = USBASP_FUNC_PDI_SEND)
    (_hN1 : 1 ≤ word16 data 7 6) (hN : word16 data 7 6 ≤ 128)
    (_hsize : ∀ c ∈ chunks, c.length ≤ 8)
    (hsum : totalLen chunks = word16 data 7 6)
    (hne : chunks ≠ [])
    (hlast : chunks.getLast hne ≠ []) :
    (writePackets chunks (usbFunctionSetup env data s).st).1
        = List.replicate (chunks.length - 1) 0 ++ [1]
    ∧ (∀ k, k < chunks.length →
        (writePackets (chunks.take k) (usbFunctionSetup env data s).st).2.trace = s.trace
        ∧ (writePackets (chunks.take k) (usbFunctionSetup env data s).st).2.prog_state
            = PROG_STATE_PDI_SEND)
    ∧ (writePackets chunks (usbFunctionSetup env data s).st).2.trace
        = s.trace ++ pdiSendCalls (byte data 2) s.pdi_nvmbusy chunks.flatten (word16 data 7 6)
    ∧ (writePackets chunks (usbFunctionSetup env data s).st).2.pdi_nvmbusy
        = pdiBusyAfter (byte data 2) s.pdi_nvmbusy
    ∧ (writePackets chunks (usbFunctionSetup env data s).st).2.prog_state = PROG_STATE_IDLE := by
  have hs := setup_pdi_send env data s hfn
  obtain ⟨r1, r2, r3, r4, r5⟩ :=
    pdi_send_run chunks [] (usbFunctionSetup env data s).st (by rw [hs]) (by rw [hs]; rfl)
      (by simp [bufBytes]) (by rw [hs]; exact hsum.symm) (by simp only [List.length_nil]; omega)
      hne hlast
  refine ⟨r1, ?_, ?_, ?_, r3⟩
  · intro k hk
    have := r5 k hk
    rw [hs] at this ⊢
    exact this
  · rw [r2, hs]
    simp [hsum]
  · rw [r4, hs]

/-- C8 (amended), at the command `{_, 20, flags 3, len 3}` delivered as the
packets `[1, 2]`, `[3]` while the busy flag is set. -/
theorem C8_pdi_send_witness :
    (writePackets [[1, 2], [3]]
        (usbFunctionSetup Env.fixed [0, 20, 3, 0, 0, 0, 3, 0]
          { State.init with pdi_nvmbusy := 1 }).st).1 = [0, 1]
    ∧ (writePackets [[1, 2], [3]]
        (usbFunctionSetup Env.fixed [0, 20, 3, 0, 0, 0, 3, 0]
          { State.init with pdi_nvmbusy := 1 }).st).2.trace
        = [Event.pdiDisableTimerClock, Event.pdiSendIdle, Event.pdiWaitNVM,
           Event.pdiSendBytes [1, 2, 3] 3, Event.pdiEnableTimerClock]
    ∧ (writePackets [[1, 2], [3]]
        (usbFunctionSetup Env.fixed [0, 20, 3, 0, 0, 0, 3, 0]
          { State.init with pdi_nvmbusy := 1 }).st).2.pdi_nvmbusy = 1 := by
  have h := C8_pdi_send Env.fixed [0, 20, 3, 0, 0, 0, 3, 0] { State.init with pdi_nvmbusy := 1 }
    [[1, 2], [3]] (by decide) (by decide) (by decide) (by decide) (by decide) (by decide)
    (by decide)
  exact ⟨h.1, h.2.2.1, h.2.2.2.1⟩

/-! ### C1, C2: paged flash writes -/

theorem flushCalls_append (a b : List Event) :
    flushCalls (a ++ b) = flushCalls a ++ flushCalls b := by
  simp [flushCalls, List.filterMap_append]

/-- One byte of a paged flash write that neither completes the page nor the
block: a single unflushed write. -/
theorem ispWriteStep_paged_plain (s : State) (rv d : Nat)
    (hmode : s.prog_state = PROG_STATE_WRITEFLASH) (hps : s.prog_pagesize ≠ 0)
    (hc : 1 < s.prog_pagecounter) (hc2 : s.prog_pagecounter < 256)
    (hn : 1 < s.prog_nbytes) (hn2 : s.prog_nbytes < 65536) :
    ispWriteStep (s, rv) d
      = ({ s with trace := s.trace ++ [Event.ispWriteFlash s.prog_address d 0],
                  prog_pagecounter := s.prog_pagecounter - 1,
                  prog_nbytes := s.prog_nbytes - 1,
                  prog_address := u32 (s.prog_address + 1) }, rv) := by
  have h1 : u8 (s.prog_pagecounter + 255) = s.prog_pagecounter - 1 := by unfold u8; omega
  have h2 : u16 (s.prog_nbytes + 65535) = s.prog_nbytes - 1 := by unfold u16; omega
  have h3 : s.prog_pagecounter - 1 ≠ 0 := by omega
  have h4 : s.prog_nbytes - 1 ≠ 0 := by omega
  simp [ispWriteStep, hmode, hps, emit, h1, h2, h3, h4]

/-- A run of bytes of a paged flash write that stays inside the page and inside
the block issues no page flush. -/
theorem ispWrite_fold_plain (data : List Nat) :
    ∀ (s : State) (rv : Nat),
      s.prog_state = PROG_STATE_WRITEFLASH → s.prog_pagesize ≠ 0 →
      data.length < s.prog_pagecounter → s.prog_pagecounter < 256 →
      data.length < s.prog_nbytes → s.prog_nbytes < 65536 →
      s.prog_address < 4294967296 →
      ∃ tr, flushCalls tr = []
        ∧ data.foldl ispWriteStep (s, rv)
          = ({ s with trace := s.trace ++ tr,
                      prog_pagecounter := s.prog_pagecounter - data.length,
                      prog_nbytes := s.prog_nbytes - data.length,
                      prog_address := u32 (s.prog_address + data.length) }, rv) := by
  induction data with
  | nil =>
    intro s rv _ _ _ _ _ _ ha
    refine ⟨[], rfl, ?_⟩
    have hu : u32 s.prog_address = s.prog_address := by unfold u32; omega
    simp [hu]
  | cons d ds ih =>
    intro s rv hmode hps hc hc2 hn hn2 _
    simp only [List.length_cons] at hc hn
    rw [List.foldl_cons, ispWriteStep_paged_plain s rv d hmode hps (by omega) hc2 (by omega) hn2]
    obtain ⟨tr, htr, hfold⟩ := ih
      { s with trace := s.trace ++ [Event.ispWriteFlash s.prog_address d 0],
               prog_pagecounter := s.prog_pagecounter - 1,
               prog_nbytes := s.prog_nbytes - 1,
               prog_address := u32 (s.prog_address + 1) } rv
      hmode hps (by simp only; omega) (by simp only; omega) (by simp only; omega)
      (by simp only; omega) (by simp only [u32]; omega)
    refine ⟨Event.ispWriteFlash s.prog_address d 0 :: tr, ?_, ?_⟩
    · simpa [flushCalls] using htr
    · rw [hfold]
      simp [u32_add_u32, Nat.add_assoc, Nat.sub_sub, Nat.add_comm 1]

/-- The byte of a paged flash write that completes both the page and the block
while the LAST flag is clear: an unflushed write, one page flush at the
address of that byte, and the mode becomes Idle. -/
theorem ispWriteStep_paged_final (s : State) (rv d : Nat)
    (hmode : s.prog_state = PROG_STATE_WRITEFLASH) (hps : s.prog_pagesize ≠ 0)
    (hc : s.prog_pagecounter = 1) (hn : s.prog_nbytes = 1)
    (hfl : s.prog_blockflags &&& PROG_BLOCKFLAG_LAST = 0) :
    ispWriteStep (s, rv) d
      = ({ s with trace := s.trace ++ [Event.ispWriteFlash s.prog_address d 0,
                                       Event.ispFlushPage s.prog_address d],
                  prog_pagecounter := u8 s.prog_pagesize,
                  prog_nbytes := 0,
                  prog_state := PROG_STATE_IDLE,
                  prog_address := u32 (s.prog_address + 1) }, 1) := by
  have h1 : u8 (1 + 255) = 0 := by decide
  have h2 : u16 (1 + 65535) = 0 := by decide
  simp [ispWriteStep, hmode, hps, emit, hc, hn, h1, h2, hfl]

/-- A packet of a paged flash write that stays inside the page and inside the
block: `usbFunctionWrite` returns 0 and issues no page flush. -/
theorem usbFunctionWrite_paged_plain (c : List Nat) (s : State)
    (hmode : s.prog_state = PROG_STATE_WRITEFLASH) (hps : s.prog_pagesize ≠ 0)
    (hc : c.length < s.prog_pagecounter) (hc2 : s.prog_pagecounter < 256)
    (hn : c.length < s.prog_nbytes) (hn2 : s.prog_nbytes < 65536)
    (ha : s.prog_address < 4294967296) :
    ∃ tr, flushCalls tr = []
      ∧ usbFunctionWrite c s
        = ⟨0, { s with trace := s.trace ++ tr,
                       prog_pagecounter := s.prog_pagecounter - c.length,
                       prog_nbytes := s.prog_nbytes - c.length,
                       prog_address := u32 (s.prog_address + c.length) }⟩ := by
  obtain ⟨tr, htr, hfold⟩ := ispWrite_fold_plain c s 0 hmode hps hc hc2 hn hn2 ha
  refine ⟨tr, htr, ?_⟩
  simp [usbFunctionWrite, hmode, hfold, PROG_STATE_WRITEFLASH, PROG_STATE_TPI_WRITE,
    PROG_STATE_UART_TX, PROG_STATE_PDI_SEND]

/-- The packet of a paged flash write whose last byte completes both the page
and the block while the LAST flag is clear: `usbFunctionWrite` returns 1,
issues exactly one page flush, at the address of the last byte and with that
byte as poll value, and leaves the mode Idle. -/
theorem usbFunctionWrite_paged_final (c : List Nat) (d : Nat) (s : State)
    (hmode : s.prog_state = PROG_STATE_WRITEFLASH) (hps : s.prog_pagesize ≠ 0)
    (hc : s.prog_pagecounter = c.length + 1) (hc2 : s.prog_pagecounter < 256)
    (hn : s.prog_nbytes = c.length + 1)
    (ha : s.prog_address < 4294967296)
    (hfl : s.prog_blockflags &&& PROG_BLOCKFLAG_LAST = 0) :
    (usbFunctionWrite (c ++ [d]) s).ret = 1
    ∧ (usbFunctionWrite (c ++ [d]) s).st.prog_state = PROG_STATE_IDLE
    ∧ flushCalls (usbFunctionWrite (c ++ [d]) s).st.trace
        = flushCalls s.trace ++ [(u32 (s.prog_address + c.length), d)] := by
  obtain ⟨tr, htr, hfold⟩ := ispWrite_fold_plain c s 0 hmode hps (by omega) hc2 (by omega)
    (by omega) ha
  have hfin := ispWriteStep_paged_final
    { s with trace := s.trace ++ tr,
             prog_pagecounter := s.prog_pagecounter - c.length,
             prog_nbytes := s.prog_nbytes - c.length,
             prog_address := u32 (s.prog_address + c.length) } 0 d
    hmode hps (by simp only; omega) (by simp only; omega) hfl
  have hw : usbFunctionWrite (c ++ [d]) s
      = ⟨(ispWriteStep (c.foldl ispWriteStep (s, 0)) d).2,
         (ispWriteStep (c.foldl ispWriteStep (s, 0)) d).1⟩ := by
    simp [usbFunctionWrite, hmode, PROG_STATE_WRITEFLASH, PROG_STATE_TPI_WRITE,
      PROG_STATE_UART_TX, PROG_STATE_PDI_SEND, List.foldl_append]
  rw [hw, hfold, hfin]
  refine ⟨rfl, rfl, ?_⟩
  simp [flushCalls_append, htr]
  simp [flushCalls]

theorem writePackets_append (a b : List (List Nat)) (s : State) :
    writePackets (a ++ b) s
      = ((writePackets a s).1 ++ (writePackets b (writePackets a s).2).1,
         (writePackets b (writePackets a s).2).2) := by
  induction a generalizing s with
  | nil => simp [writePackets]
  | cons c cs ih => simp [writePackets, ih]

theorem totalLen_cons (c : List Nat) (cs : List (List Nat)) :
    totalLen (c :: cs) = c.length + totalLen cs := by
  simp [totalLen]

theorem totalLen_of_forall_length (n : Nat) (chunks : List (List Nat))
    (h : ∀ c ∈ chunks, c.length = n) : totalLen chunks = chunks.length * n := by
  induction chunks with
  | nil => simp [totalLen]
  | cons c cs ih =>
    rw [totalLen_cons, ih (fun x hx => h x (List.mem_cons_of_mem _ hx)),
      h c (List.mem_cons_self _ _), List.length_cons]
    ring

/-- Packets of a paged flash write that together stay inside the page and
inside the block: every call returns 0 and no page flush is issued. -/
theorem writePackets_paged_plain (chunks : List (List Nat)) :
    ∀ (s : State),
      s.prog_state = PROG_STATE_WRITEFLASH → s.prog_pagesize ≠ 0 →
      totalLen chunks < s.prog_pagecounter → s.prog_pagecounter < 256 →
      totalLen chunks < s.prog_nbytes → s.prog_nbytes < 65536 →
      s.prog_address < 4294967296 →
      ∃ tr, flushCalls tr = []
        ∧ writePackets chunks s
          = (List.replicate chunks.length 0,
             { s with trace := s.trace ++ tr,
                      prog_pagecounter := s.prog_pagecounter - totalLen chunks,
                      prog_nbytes := s.prog_nbytes - totalLen chunks,
                      prog_address := u32 (s.prog_address + totalLen chunks) }) := by
  induction chunks with
  | nil =>
    intro s _ _ _ _ _ _ ha
    refine ⟨[], rfl, ?_⟩
    have hu : u32 s.prog_address = s.prog_address := by unfold u32; omega
    simp [writePackets, totalLen, hu]
  | cons c cs ih =>
    intro s hmode hps hc hc2 hn hn2 ha
    rw [totalLen_cons] at hc hn
    obtain ⟨tr1, htr1, hw⟩ := usbFunctionWrite_paged_plain c s hmode hps (by omega) hc2
      (by omega) hn2 ha
    obtain ⟨tr2, htr2, hrest⟩ := ih
      { s with trace := s.trace ++ tr1,
               prog_pagecounter := s.prog_pagecounter - c.length,
               prog_nbytes := s.prog_nbytes - c.length,
               prog_address := u32 (s.prog_address + c.length) }
      hmode hps (by simp only; omega) (by simp only; omega) (by simp only; omega)
      (by simp only; omega) (by simp only [u32]; omega)
    refine ⟨tr1 ++ tr2, by simp [flushCalls_append, htr1, htr2], ?_⟩
    rw [writePackets, hw, hrest]
    simp [List.replicate_succ, totalLen_cons, u32_add_u32, Nat.add_assoc, Nat.sub_sub]

theorem setup_C2_command (env : Env) (s : State) (r0 : Nat)
    (hnew : s.prog_address_newmode = 0) :
    (usbFunctionSetup env [r0, 6, 0x10, 0x00, 0x40, 0x01, 0x40, 0x00] s).st
      = { s with prog_address := 0x10, prog_pagesize := 0x40, prog_blockflags := 1,
                 prog_pagecounter := 0x40, prog_nbytes := 0x40,
                 prog_state := PROG_STATE_WRITEFLASH, usbMsgPtr_replyBuffer := true } := by
  simp [usbFunctionSetup, byte, u8, u16, word16, intToULong, hnew, USBASP_FUNC_CONNECT,
    USBASP_FUNC_DISCONNECT, USBASP_FUNC_TRANSMIT, USBASP_FUNC_READFLASH,
    USBASP_FUNC_ENABLEPROG, USBASP_FUNC_WRITEFLASH, USBASP_FUNC_READEEPROM,
    PROG_BLOCKFLAG_FIRST]

/-- C2 (as stated, refuted): in the scenario (payload 64 zero bytes, from
power-up) the one page flush is issued with address 0x4F, not 0x50. -/
theorem C2_counterexample :
    flushCalls (writePackets (List.replicate 8 (List.replicate 8 0))
        (usbFunctionSetup Env.fixed [0, 6, 0x10, 0x00, 0x40, 0x01, 0x40, 0x00]
          State.init).st).2.trace = [(0x4F, 0)]
    ∧ ¬ ∃ v, flushCalls (writePackets (List.replicate 8 (List.replicate 8 0))
        (usbFunctionSetup Env.fixed [0, 6, 0x10, 0x00, 0x40, 0x01, 0x40, 0x00]
          State.init).st).2.trace = [(0x50, v)] := by
  have h : flushCalls (writePackets (List.replicate 8 (List.replicate 8 0))
        (usbFunctionSetup Env.fixed [0, 6, 0x10, 0x00, 0x40, 0x01, 0x40, 0x00]
          State.init).st).2.trace = [(0x4F, 0)] := by decide
  refine ⟨h, ?_⟩
  rintro ⟨v, hv⟩
  rw [h] at hv
  simp at hv

/-- C2 (amended): dispatching `{_, 6, addr 0x0010, page-size low 0x40,
flags 0x01 (FIRST), len 0x0040}` from the idle state with long-address mode
off, and then consuming any 64 payload bytes as 8 `usbFunctionWrite` calls of 8
bytes each, issues exactly one page flush, whose address argument is 0x004F
(the address of the last byte) and whose poll value is the last payload byte;
only the eighth call returns 1, and the mode is Idle afterwards. -/
theorem C2_paged_write_scenario (env : Env) (s : State) (r0 : Nat)
    (chunks : List (List Nat))
    (_hidle : s.prog_state = PROG_STATE_IDLE)
    (hnew : s.prog_address_newmode = 0)
    (hcount : chunks.length = 8)
    (hsize : ∀ c ∈ chunks, c.length = 8) :
    (writePackets chunks
        (usbFunctionSetup env [r0, 6, 0x10, 0x00, 0x40, 0x01, 0x40, 0x00] s).st).1
      = [0, 0, 0, 0, 0, 0, 0, 1]
    ∧ (∃ v, chunks.flatten.getLast? = some v
        ∧ flushCalls (writePackets chunks
            (usbFunctionSetup env [r0, 6, 0x10, 0x00, 0x40, 0x01, 0x40, 0x00] s).st).2.trace
          = flushCalls s.trace ++ [(0x4F, v)])
    ∧ (writePackets chunks
        (usbFunctionSetup env [r0, 6, 0x10, 0x00, 0x40, 0x01, 0x40, 0x00] s).st).2.prog_state
      = PROG_STATE_IDLE := by
  rw [setup_C2_command env s r0 hnew]
  have hne : chunks ≠ [] := by
    intro h; rw [h] at hcount; simp at hcount
  obtain ⟨front, last, rfl⟩ : ∃ front last, chunks = front ++ [last] :=
    ⟨chunks.dropLast, chunks.getLast hne, (List.dropLast_append_getLast hne).symm⟩
  have hfront : front.length = 7 := by simpa using hcount
  have hlastlen : last.length = 8 := hsize last (by simp)
  have hfl : totalLen front = 56 := by
    rw [totalLen_of_forall_length 8 front (fun c hc => hsize c (by simp [hc])), hfront]
  have hlne : last ≠ [] := by
    intro h; rw [h] at hlastlen; simp at hlastlen
  obtain ⟨body, d, rfl⟩ : ∃ body d, last = body ++ [d] :=
    ⟨last.dropLast, last.getLast hlne, (List.dropLast_append_getLast hlne).symm⟩
  have hbody : body.length = 7 := by simpa using hlastlen
  obtain ⟨tr, htr, hplain⟩ := writePackets_paged_plain front
    { s with prog_address := 0x10, prog_pagesize := 0x40, prog_blockflags := 1,
             prog_pagecounter := 0x40, prog_nbytes := 0x40,
             prog_state := PROG_STATE_WRITEFLASH, usbMsgPtr_replyBuffer := true }
    rfl (by simp) (by simp only; omega) (by simp) (by simp only; omega) (by simp) (by simp)
  obtain ⟨f1, f2, f3⟩ := usbFunctionWrite_paged_final body d
    { s with prog_address := u32 (0x10 + totalLen front), prog_pagesize := 0x40,
             prog_blockflags := 1,
             prog_pagecounter := 0x40 - totalLen front, prog_nbytes := 0x40 - totalLen front,
             prog_state := PROG_STATE_WRITEFLASH, usbMsgPtr_replyBuffer := true,
             trace := s.trace ++ tr }
    rfl (by simp) (by simp only; omega) (by simp only; omega) (by simp only; omega)
    (by simp only [u32]; omega) (by simp only [PROG_BLOCKFLAG_LAST]; decide)
  rw [writePackets_append, hplain]
  simp only [writePackets]
  refine ⟨?_, ⟨d, ?_, ?_⟩, ?_⟩
  · rw [f1, hfront]; rfl
  · simp
  · rw [f3]
    simp [flushCalls_append, htr, hfl, hbody, u32]
  · exact f2

/-- C2 (amended), at the payload of 64 bytes 0xAB from power-up. -/
theorem C2_paged_write_scenario_witness :
    (writePackets (List.replicate 8 (List.replicate 8 0xAB))
        (usbFunctionSetup Env.fixed [0, 6, 0x10, 0x00, 0x40, 0x01, 0x40, 0x00]
          State.init).st).1 = [0, 0, 0, 0, 0, 0, 0, 1]
    ∧ (writePackets (List.replicate 8 (List.replicate 8 0xAB))
        (usbFunctionSetup Env.fixed [0, 6, 0x10, 0x00, 0x40, 0x01, 0x40, 0x00]
          State.init).st).2.prog_state = PROG_STATE_IDLE := by
  have h := C2_paged_write_scenario Env.fixed State.init 0
    (List.replicate 8 (List.replicate 8 0xAB)) rfl rfl (by decide) (by decide)
  exact ⟨h.1, h.2.2⟩

/-! ### C3: write, then read back -/

theorem memmove_at_nil (m : Nat → Nat) (a : Nat) : memmove_at m a [] = m := by
  funext j; simp [memmove_at]

theorem memmove_at_append (m : Nat → Nat) (a : Nat) (c r : List Nat) :
    memmove_at (memmove_at m a c) (a + c.length) r = memmove_at m a (c ++ r) := by
  funext j
  simp only [memmove_at, List.length_append]
  by_cases h1 : a + c.length ≤ j ∧ j < a + c.length + r.length
  · have h2 : a ≤ j ∧ j < a + (c.length + r.length) := by omega
    rw [if_pos h1, if_pos h2]
    have h3 : j - a = c.length + (j - (a + c.length)) := by omega
    rw [h3, List.getD_eq_getElem?_getD, List.getD_eq_getElem?_getD,
      List.getElem?_append_right (by omega)]
    simp
  · rw [if_neg h1]
    by_cases h2 : a ≤ j ∧ j < a + c.length
    · have h3 : a ≤ j ∧ j < a + (c.length + r.length) := by omega
      rw [if_pos h2, if_pos h3, List.getD_eq_getElem?_getD, List.getD_eq_getElem?_getD,
        List.getElem?_append_left (by omega)]
    · have h3 : ¬ (a ≤ j ∧ j < a + (c.length + r.length)) := by omega
      rw [if_neg h2, if_neg h3]

theorem store_eq_memmove_at (m : Nat → Nat) (a d : Nat) : store m a d = memmove_at m a [d] := by
  funext j
  simp only [store, memmove_at, List.length_singleton]
  by_cases h : j = a
  · subst h; simp
  · have : ¬ (a ≤ j ∧ j < a + 1) := by omega
    rw [if_neg h, if_neg this]

theorem flatten_eq_nil_of_totalLen (chunks : List (List Nat)) (h : totalLen chunks = 0) :
    chunks.flatten = [] := by
  induction chunks with
  | nil => rfl
  | cons c cs ih =>
    rw [totalLen_cons] at h
    have hc : c = [] := List.length_eq_zero.mp (by omega)
    rw [List.flatten_cons, hc, ih (by omega)]
    rfl

theorem length_flatten_eq_totalLen (chunks : List (List Nat)) :
    chunks.flatten.length = totalLen chunks := by
  induction chunks with
  | nil => rfl
  | cons c cs ih => rw [List.flatten_cons, List.length_append, ih, totalLen_cons]

theorem writePackets_idle (chunks : List (List Nat)) (s : State)
    (h : s.prog_state = PROG_STATE_IDLE) : (writePackets chunks s).2 = s := by
  induction chunks with
  | nil => rfl
  | cons c cs ih =>
    have hw : usbFunctionWrite c s = ⟨0xFF, s⟩ := by
      simp [usbFunctionWrite, h, PROG_STATE_IDLE, PROG_STATE_TPI_WRITE, PROG_STATE_UART_TX,
        PROG_STATE_PDI_SEND, PROG_STATE_WRITEFLASH, PROG_STATE_WRITEEEPROM]
    simp only [writePackets, hw]
    exact ih

/-- A write transfer delivered in packets, for any mode whose packets have the
effect of a block store on a mocked memory: after the packets the memory
holds the payload from the start address on, and the mode is Idle. -/
theorem write_run_generic (step : (Nat → Nat) → Event → (Nat → Nat)) (P : State → Prop)
    (hP : ∀ (s : State) (tr : List Event) (n a : Nat),
      P s → P { s with trace := tr, prog_nbytes := n, prog_address := a })
    (hplain : ∀ (c : List Nat) (s : State), P s → c.length < s.prog_nbytes →
      s.prog_nbytes < 65536 → s.prog_address + c.length < 4294967296 →
      ∃ tr, (∀ m, tr.foldl step m = memmove_at m s.prog_address c)
        ∧ usbFunctionWrite c s
          = ⟨0, { s with trace := s.trace ++ tr,
                         prog_nbytes := s.prog_nbytes - c.length,
                         prog_address := s.prog_address + c.length }⟩)
    (hfinal : ∀ (c : List Nat) (s : State), P s → c ≠ [] → s.prog_nbytes = c.length →
      c.length < 65536 → s.prog_address + c.length ≤ 4294967296 →
      ∃ tr, (∀ m, tr.foldl step m = memmove_at m s.prog_address c)
        ∧ usbFunctionWrite c s
          = ⟨1, { s with trace := s.trace ++ tr,
                         prog_nbytes := 0,
                         prog_state := PROG_STATE_IDLE,
                         prog_address := u32 (s.prog_address + c.length) }⟩)
    (chunks : List (List Nat)) :
    ∀ (s : State), P s → s.prog_nbytes = totalLen chunks → 0 < totalLen chunks →
      totalLen chunks < 65536 → s.prog_address + totalLen chunks ≤ 4294967296 →
      ∃ tr, (∀ m, tr.foldl step m = memmove_at m s.prog_address chunks.flatten)
        ∧ (writePackets chunks s).2
          = { s with trace := s.trace ++ tr,
                     prog_nbytes := 0,
                     prog_state := PROG_STATE_IDLE,
                     prog_address := u32 (s.prog_address + totalLen chunks) } := by
  induction chunks with
  | nil => intro s _ _ h; simp [totalLen] at h
  | cons c cs ih =>
    intro s hPs hn hpos hlt ha
    rw [totalLen_cons] at hn hpos hlt ha
    by_cases hz : totalLen cs = 0
    · have hcne : c ≠ [] := by
        intro h; rw [h] at hpos; simp at hpos; omega
      obtain ⟨tr, htr, hw⟩ := hfinal c s hPs hcne (by omega) (by omega) (by omega)
      refine ⟨tr, ?_, ?_⟩
      · rw [List.flatten_cons, flatten_eq_nil_of_totalLen cs hz, List.append_nil]
        exact htr
      · rw [writePackets, hw]
        simp only
        rw [writePackets_idle cs _ rfl, totalLen_cons, hz, Nat.add_zero]
    · obtain ⟨tr1, htr1, hw⟩ := hplain c s hPs (by omega) (by omega) (by omega)
      obtain ⟨tr2, htr2, hrest⟩ := ih
        { s with trace := s.trace ++ tr1,
                 prog_nbytes := s.prog_nbytes - c.length,
                 prog_address := s.prog_address + c.length }
        (hP s _ _ _ hPs) (by simp only; omega) (by omega) (by omega) (by simp only; omega)
      refine ⟨tr1 ++ tr2, ?_, ?_⟩
      · intro m
        rw [List.foldl_append, htr1, htr2, List.flatten_cons]
        exact memmove_at_append m s.prog_address c cs.flatten
      · rw [writePackets, hw]
        simp only
        rw [hrest, totalLen_cons]
        simp [Nat.add_assoc]

theorem byte_lt (data : List Nat) (i : Nat) : byte data i < 256 := by
  unfold byte u8; omega

theorem word16_eq (data : List Nat) (hi lo : Nat) :
    word16 data hi lo = 256 * byte data hi + byte data lo := by
  have h1 := byte_lt data hi
  have h2 := byte_lt data lo
  have h3 : byte data hi <<< 8 ||| byte data lo = 2 ^ 8 * byte data hi + byte data lo := by
    rw [Nat.shiftLeft_eq, Nat.mul_comm]
    exact (Nat.mul_add_lt_is_or (by simpa using h2) _).symm
  unfold word16 u16
  rw [h3]
  omega

/-! #### Flash without paging -/

theorem ispWriteStep_unpaged_plain (s : State) (rv d : Nat)
    (hmode : s.prog_state = PROG_STATE_WRITEFLASH) (hps : s.prog_pagesize = 0)
    (hn : 1 < s.prog_nbytes) (hn2 : s.prog_nbytes < 65536)
    (ha : s.prog_address + 1 < 4294967296) :
    ispWriteStep (s, rv) d
      = ({ s with trace := s.trace ++ [Event.ispWriteFlash s.prog_address d 1],
                  prog_nbytes := s.prog_nbytes - 1,
                  prog_address := s.prog_address + 1 }, rv) := by
  have h2 : u16 (s.prog_nbytes + 65535) = s.prog_nbytes - 1 := by unfold u16; omega
  have h3 : u32 (s.prog_address + 1) = s.prog_address + 1 := by unfold u32; omega
  have h4 : s.prog_nbytes - 1 ≠ 0 := by omega
  simp [ispWriteStep, hmode, hps, emit, h2, h3, h4]

theorem ispWriteStep_unpaged_final (s : State) (rv d : Nat)
    (hmode : s.prog_state = PROG_STATE_WRITEFLASH) (hps : s.prog_pagesize = 0)
    (hn : s.prog_nbytes = 1) :
    ∃ tr, (∀ m, tr.foldl mockFlashStep m = store m s.prog_address d)
      ∧ ispWriteStep (s, rv) d
        = ({ s with trace := s.trace ++ tr,
                    prog_nbytes := 0,
                    prog_state := PROG_STATE_IDLE,
                    prog_address := u32 (s.prog_address + 1) }, 1) := by
  have h2 : u16 (1 + 65535) = 0 := by decide
  have h3 : u16 65536 = 0 := by decide
  by_cases hf : s.prog_blockflags &&& PROG_BLOCKFLAG_LAST = 0
  · refine ⟨[Event.ispWriteFlash s.prog_address d 1], fun m => rfl, ?_⟩
    simp [ispWriteStep, hmode, hps, emit, hn, h2, h3, hf]
  · by_cases hc : s.prog_pagecounter = 0
    · refine ⟨[Event.ispWriteFlash s.prog_address d 1], fun m => rfl, ?_⟩
      simp [ispWriteStep, hmode, hps, emit, hn, h2, h3, hf, hc]
    · refine ⟨[Event.ispWriteFlash s.prog_address d 1, Event.ispFlushPage s.prog_address d],
        fun m => rfl, ?_⟩
      simp [ispWriteStep, hmode, hps, emit, hn, h2, h3, hf, hc]

theorem ispWrite_fold_unpaged (data : List Nat) :
    ∀ (s : State) (rv : Nat),
      s.prog_state = PROG_STATE_WRITEFLASH → s.prog_pagesize = 0 →
      data.length < s.prog_nbytes → s.prog_nbytes < 65536 →
      s.prog_address + data.length < 4294967296 →
      ∃ tr, (∀ m, tr.foldl mockFlashStep m = memmove_at m s.prog_address data)
        ∧ data.foldl ispWriteStep (s, rv)
          = ({ s with trace := s.trace ++ tr,
                      prog_nbytes := s.prog_nbytes - data.length,
                      prog_address := s.prog_address + data.length }, rv) := by
  induction data with
  | nil =>
    intro s rv _ _ _ _ _
    exact ⟨[], fun m => (memmove_at_nil m _).symm, by simp⟩
  | cons d ds ih =>
    intro s rv hmode hps hn hn2 ha
    simp only [List.length_cons] at hn ha
    rw [List.foldl_cons, ispWriteStep_unpaged_plain s rv d hmode hps (by omega) hn2 (by omega)]
    obtain ⟨tr, htr, hfold⟩ := ih
      { s with trace := s.trace ++ [Event.ispWriteFlash s.prog_address d 1],
               prog_nbytes := s.prog_nbytes - 1,
               prog_address := s.prog_address + 1 } rv
      hmode hps (by simp only; omega) (by simp only; omega) (by simp only; omega)
    refine ⟨Event.ispWriteFlash s.prog_address d 1 :: tr, ?_, ?_⟩
    · intro m
      rw [List.foldl_cons, htr]
      simp only [mockFlashStep]
      rw [store_eq_memmove_at]
      exact memmove_at_append m s.prog_address [d] ds
    · rw [hfold]
      simp [Nat.add_assoc, Nat.sub_sub, Nat.add_comm 1]

theorem flash_unpaged_plain (c : List Nat) (s : State)
    (hP : s.prog_state = PROG_STATE_WRITEFLASH ∧ s.prog_pagesize = 0)
    (hn : c.length < s.prog_nbytes) (hn2 : s.prog_nbytes < 65536)
    (ha : s.prog_address + c.length < 4294967296) :
    ∃ tr, (∀ m, tr.foldl mockFlashStep m = memmove_at m s.prog_address c)
      ∧ usbFunctionWrite c s
        = ⟨0, { s with trace := s.trace ++ tr,
                       prog_nbytes := s.prog_nbytes - c.length,
                       prog_address := s.prog_address + c.length }⟩ := by
  obtain ⟨tr, htr, hfold⟩ := ispWrite_fold_unpaged c s 0 hP.1 hP.2 hn hn2 ha
  refine ⟨tr, htr, ?_⟩
  simp [usbFunctionWrite, hP.1, hfold, PROG_STATE_WRITEFLASH, PROG_STATE_TPI_WRITE,
    PROG_STATE_UART_TX, PROG_STATE_PDI_SEND]

theorem flash_unpaged_final (c : List Nat) (s : State)
    (hP : s.prog_state = PROG_STATE_WRITEFLASH ∧ s.prog_pagesize = 0)
    (hne : c ≠ []) (hn : s.prog_nbytes = c.length) (hlt : c.length < 65536)
    (ha : s.prog_address + c.length ≤ 4294967296) :
    ∃ tr, (∀ m, tr.foldl mockFlashStep m = memmove_at m s.prog_address c)
      ∧ usbFunctionWrite c s
        = ⟨1, { s with trace := s.trace ++ tr,
                       prog_nbytes := 0,
                       prog_state := PROG_STATE_IDLE,
                       prog_address := u32 (s.prog_address + c.length) }⟩ := by
  obtain ⟨body, d, rfl⟩ : ∃ body d, c = body ++ [d] :=
    ⟨c.dropLast, c.getLast hne, (List.dropLast_append_getLast hne).symm⟩
  simp only [List.length_append, List.length_singleton] at hn hlt ha
  obtain ⟨tr1, htr1, hfold⟩ := ispWrite_fold_unpaged body s 0 hP.1 hP.2 (by omega) (by omega)
    (by omega)
  obtain ⟨tr2, htr2, hfin⟩ := ispWriteStep_unpaged_final
    { s with trace := s.trace ++ tr1,
             prog_nbytes := s.prog_nbytes - body.length,
             prog_address := s.prog_address + body.length } 0 d
    hP.1 hP.2 (by simp only; omega)
  refine ⟨tr1 ++ tr2, ?_, ?_⟩
  · intro m
    rw [List.foldl_append, htr1, htr2]
    simp only
    rw [store_eq_memmove_at]
    exact memmove_at_append m s.prog_address body [d]
  · have hw : usbFunctionWrite (body ++ [d]) s
        = ⟨(ispWriteStep (body.foldl ispWriteStep (s, 0)) d).2,
           (ispWriteStep (body.foldl ispWriteStep (s, 0)) d).1⟩ := by
      simp [usbFunctionWrite, hP.1, PROG_STATE_WRITEFLASH, PROG_STATE_TPI_WRITE,
        PROG_STATE_UART_TX, PROG_STATE_PDI_SEND, List.foldl_append]
    rw [hw, hfold, hfin]
    simp [u32_add_u32, Nat.add_assoc]

/-! #### EEPROM -/

theorem ispWriteStep_eeprom_plain (s : State) (rv d : Nat)
    (hmode : s.prog_state = PROG_STATE_WRITEEEPROM)
    (hn : 1 < s.prog_nbytes) (hn2 : s.prog_nbytes < 65536)
    (ha : s.prog_address + 1 < 4294967296) :
    ispWriteStep (s, rv) d
      = ({ s with trace := s.trace ++ [Event.ispWriteEEPROM s.prog_address d],
                  prog_nbytes := s.prog_nbytes - 1,
                  prog_address := s.prog_address + 1 }, rv) := by
  have h2 : u16 (s.prog_nbytes + 65535) = s.prog_nbytes - 1 := by unfold u16; omega
  have h3 : u32 (s.prog_address + 1) = s.prog_address + 1 := by unfold u32; omega
  have h4 : s.prog_nbytes - 1 ≠ 0 := by omega
  simp [ispWriteStep, hmode, emit, h2, h3, h4, PROG_STATE_WRITEEEPROM, PROG_STATE_WRITEFLASH]

theorem ispWriteStep_eeprom_final (s : State) (rv d : Nat)
    (hmode : s.prog_state = PROG_STATE_WRITEEEPROM)
    (hn : s.prog_nbytes = 1) :
    ∃ tr, (∀ m, tr.foldl mockEEPROMStep m = store m s.prog_address d)
      ∧ ispWriteStep (s, rv) d
        = ({ s with trace := s.trace ++ tr,
                    prog_nbytes := 0,
                    prog_state := PROG_STATE_IDLE,
                    prog_address := u32 (s.prog_address + 1) }, 1) := by
  have h2 : u16 (1 + 65535) = 0 := by decide
  have h3 : u16 65536 = 0 := by decide
  by_cases hf : s.prog_blockflags &&& PROG_BLOCKFLAG_LAST = 0
  · refine ⟨[Event.ispWriteEEPROM s.prog_address d], fun m => rfl, ?_⟩
    simp [ispWriteStep, hmode, emit, hn, h2, h3, hf, PROG_STATE_WRITEEEPROM,
      PROG_STATE_WRITEFLASH]
  · by_cases hc : s.prog_pagecounter = s.prog_pagesize
    · refine ⟨[Event.ispWriteEEPROM s.prog_address d], fun m => rfl, ?_⟩
      simp [ispWriteStep, hmode, emit, hn, h2, h3, hf, hc, PROG_STATE_WRITEEEPROM,
        PROG_STATE_WRITEFLASH]
    · refine ⟨[Event.ispWriteEEPROM s.prog_address d, Event.ispFlushPage s.prog_address d],
        fun m => rfl, ?_⟩
      simp [ispWriteStep, hmode, emit, hn, h2, h3, hf, hc, PROG_STATE_WRITEEEPROM,
        PROG_STATE_WRITEFLASH]

theorem ispWrite_fold_eeprom (data : List Nat) :
    ∀ (s : State) (rv : Nat),
      s.prog_state = PROG_STATE_WRITEEEPROM →
      data.length < s.prog_nbytes → s.prog_nbytes < 65536 →
      s.prog_address + data.length < 4294967296 →
      ∃ tr, (∀ m, tr.foldl mockEEPROMStep m = memmove_at m s.prog_address data)
        ∧ data.foldl ispWriteStep (s, rv)
          = ({ s with trace := s.trace ++ tr,
                      prog_nbytes := s.prog_nbytes - data.length,
                      prog_address := s.prog_address + data.length }, rv) := by
  induction data with
  | nil =>
    intro s rv _ _ _ _
    exact ⟨[], fun m => (memmove_at_nil m _).symm, by simp⟩
  | cons d ds ih =>
    intro s rv hmode hn hn2 ha
    simp only [List.length_cons] at hn ha
    rw [List.foldl_cons, ispWriteStep_eeprom_plain s rv d hmode (by omega) hn2 (by omega)]
    obtain ⟨tr, htr, hfold⟩ := ih
      { s with trace := s.trace ++ [Event.ispWriteEEPROM s.prog_address d],
               prog_nbytes := s.prog_nbytes - 1,
               prog_address := s.prog_address + 1 } rv
      hmode (by simp only; omega) (by simp only; omega) (by simp only; omega)
    refine ⟨Event.ispWriteEEPROM s.prog_address d :: tr, ?_, ?_⟩
    · intro m
      rw [List.foldl_cons, htr]
      simp only [mockEEPROMStep]
      rw [store_eq_memmove_at]
      exact memmove_at_append m s.prog_address [d] ds
    · rw [hfold]
      simp [Nat.add_assoc, Nat.sub_sub, Nat.add_comm 1]

theorem eeprom_plain (c : List Nat) (s : State)
    (hP : s.prog_state = PROG_STATE_WRITEEEPROM)
    (hn : c.length < s.prog_nbytes) (hn2 : s.prog_nbytes < 65536)
    (ha : s.prog_address + c.length < 4294967296) :
    ∃ tr, (∀ m, tr.foldl mockEEPROMStep m = memmove_at m s.prog_address c)
      ∧ usbFunctionWrite c s
        = ⟨0, { s with trace := s.trace ++ tr,
                       prog_nbytes := s.prog_nbytes - c.length,
                       prog_address := s.prog_address + c.length }⟩ := by
  obtain ⟨tr, htr, hfold⟩ := ispWrite_fold_eeprom c s 0 hP hn hn2 ha
  refine ⟨tr, htr, ?_⟩
  simp [usbFunctionWrite, hP, hfold, PROG_STATE_WRITEEEPROM, PROG_STATE_TPI_WRITE,
    PROG_STATE_UART_TX, PROG_STATE_PDI_SEND]

theorem eeprom_final (c : List Nat) (s : State)
    (hP : s.prog_state = PROG_STATE_WRITEEEPROM)
    (hne : c ≠ []) (hn : s.prog_nbytes = c.length) (hlt : c.length < 65536)
    (ha : s.prog_address + c.length ≤ 4294967296) :
    ∃ tr, (∀ m, tr.foldl mockEEPROMStep m = memmove_at m s.prog_address c)
      ∧ usbFunctionWrite c s
        = ⟨1, { s with trace := s.trace ++ tr,
                       prog_nbytes := 0,
                       prog_state := PROG_STATE_IDLE,
                       prog_address := u32 (s.prog_address + c.length) }⟩ := by
  obtain ⟨body, d, rfl⟩ : ∃ body d, c = body ++ [d] :=
    ⟨c.dropLast, c.getLast hne, (List.dropLast_append_getLast hne).symm⟩
  simp only [List.length_append, List.length_singleton] at hn hlt ha
  obtain ⟨tr1, htr1, hfold⟩ := ispWrite_fold_eeprom body s 0 hP (by omega) (by omega)
    (by omega)
  obtain ⟨tr2, htr2, hfin⟩ := ispWriteStep_eeprom_final
    { s with trace := s.trace ++ tr1,
             prog_nbytes := s.prog_nbytes - body.length,
             prog_address := s.prog_address + body.length } 0 d
    hP (by simp only; omega)
  refine ⟨tr1 ++ tr2, ?_, ?_⟩
  · intro m
    rw [List.foldl_append, htr1, htr2]
    simp only
    rw [store_eq_memmove_at]
    exact memmove_at_append m s.prog_address body [d]
  · have hw : usbFunctionWrite (body ++ [d]) s
        = ⟨(ispWriteStep (body.foldl ispWriteStep (s, 0)) d).2,
           (ispWriteStep (body.foldl ispWriteStep (s, 0)) d).1⟩ := by
      simp [usbFunctionWrite, hP, PROG_STATE_WRITEEEPROM, PROG_STATE_TPI_WRITE,
        PROG_STATE_UART_TX, PROG_STATE_PDI_SEND, List.foldl_append]
    rw [hw, hfold, hfin]
    simp [u32_add_u32, Nat.add_assoc]

/-! #### Two-pin block memory -/

theorem tpi_plain (c : List Nat) (s : State)
    (hP : s.prog_state = PROG_STATE_TPI_WRITE)
    (hn : c.length < s.prog_nbytes) (hn2 : s.prog_nbytes < 65536)
    (ha : s.prog_address + c.length < 4294967296) :
    ∃ tr, (∀ m, tr.foldl mockTpiStep m = memmove_at m s.prog_address c)
      ∧ usbFunctionWrite c s
        = ⟨0, { s with trace := s.trace ++ tr,
                       prog_nbytes := s.prog_nbytes - c.length,
                       prog_address := s.prog_address + c.length }⟩ := by
  refine ⟨[Event.tpi_write_block s.prog_address c c.length], fun m => rfl, ?_⟩
  rw [tpi_write_more c s (s.prog_nbytes - c.length) hP (by omega) (by omega) (by omega)]
  have h3 : u32 (s.prog_address + c.length) = s.prog_address + c.length := by unfold u32; omega
  rw [h3]

theorem tpi_final (c : List Nat) (s : State)
    (hP : s.prog_state = PROG_STATE_TPI_WRITE)
    (_hne : c ≠ []) (hn : s.prog_nbytes = c.length) (hlt : c.length < 65536)
    (_ha : s.prog_address + c.length ≤ 4294967296) :
    ∃ tr, (∀ m, tr.foldl mockTpiStep m = memmove_at m s.prog_address c)
      ∧ usbFunctionWrite c s
        = ⟨1, { s with trace := s.trace ++ tr,
                       prog_nbytes := 0,
                       prog_state := PROG_STATE_IDLE,
                       prog_address := u32 (s.prog_address + c.length) }⟩ := by
  refine ⟨[Event.tpi_write_block s.prog_address c c.length], fun m => rfl, ?_⟩
  rw [tpi_write_last c s hP hn hlt]

/-! #### Reading back -/

/-- Reading `8 * k + r` bytes as `k` packets of 8 bytes and a last packet of `r`
bytes (none if `r = 0`), in any mode whose reads return the contents `M` of a
mocked memory: the bytes produced are the contents of `M` from the start
address on. -/
theorem read_run_generic (Q : State → Prop) (mem : List Event → Nat → Nat) (f : Nat → Nat)
    (M : Nat → Nat)
    (hread : ∀ (len : Nat) (s : State), Q s → mem s.trace = M →
      s.prog_address + len ≤ 4294967296 →
      (usbFunctionRead Env.mock len s).ret = len
      ∧ (usbFunctionRead Env.mock len s).data
          = (List.range len).map (fun i => f (M (s.prog_address + i)))
      ∧ (len = 8 → Q (usbFunctionRead Env.mock len s).st
          ∧ mem (usbFunctionRead Env.mock len s).st.trace = M
          ∧ (usbFunctionRead Env.mock len s).st.prog_address = u32 (s.prog_address + 8))) :
    ∀ (k : Nat) (s : State) (r : Nat), Q s → mem s.trace = M →
      s.prog_address + (8 * k + r) ≤ 4294967296 →
      (readPackets Env.mock (List.replicate k 8 ++ (if r = 0 then [] else [r])) s).2.1
        = (List.range (8 * k + r)).map (fun i => f (M (s.prog_address + i))) := by
  intro k
  induction k with
  | zero =>
    intro s r hQ hM ha
    by_cases hr : r = 0
    · subst hr; simp [readPackets]
    · obtain ⟨h1, h2, _⟩ := hread r s hQ hM (by omega)
      simp only [List.replicate_zero, List.nil_append, if_neg hr, readPackets, h1, h2,
        List.append_nil, Nat.mul_zero, Nat.zero_add]
      rw [List.take_of_length_le (by simp)]
  | succ k ih =>
    intro s r hQ hM ha
    obtain ⟨h1, h2, h3⟩ := hread 8 s hQ hM (by omega)
    obtain ⟨q1, q2, q3⟩ := h3 rfl
    have hrest := ih (usbFunctionRead Env.mock 8 s).st r q1 q2
      (by rw [q3]; unfold u32; omega)
    rw [List.replicate_succ, List.cons_append, readPackets]
    simp only [h1, h2, hrest, q3]
    rw [List.take_of_length_le (by simp)]
    have hsplit : 8 * (k + 1) + r = 8 + (8 * k + r) := by ring
    rw [hsplit, List.range_add 8 (8 * k + r), List.map_append, List.map_map]
    congr 1
    apply List.map_congr_left
    intro i hi
    have hi2 : i < 8 * k + r := List.mem_range.mp hi
    have hu : u32 (s.prog_address + 8) = s.prog_address + 8 := by unfold u32; omega
    simp [hu, Nat.add_assoc]

theorem mockFlash_append (h tr : List Event) :
    mockFlash (h ++ tr) = tr.foldl mockFlashStep (mockFlash h) := by
  simp [mockFlash, List.foldl_append]

theorem mockEEPROM_append (h tr : List Event) :
    mockEEPROM (h ++ tr) = tr.foldl mockEEPROMStep (mockEEPROM h) := by
  simp [mockEEPROM, List.foldl_append]

theorem mockTpi_append (h tr : List Event) :
    mockTpi (h ++ tr) = tr.foldl mockTpiStep (mockTpi h) := by
  simp [mockTpi, List.foldl_append]

theorem ispReadLoop_succ_flash (n : Nat) (s : State)
    (hmode : s.prog_state = PROG_STATE_READFLASH) :
    ispReadLoop Env.mock (n + 1) s
      = (u8 (mockFlash s.trace s.prog_address)
          :: (ispReadLoop Env.mock n
                { s with trace := s.trace ++ [Event.ispReadFlash s.prog_address],
                         prog_address := u32 (s.prog_address + 1) }).1,
         (ispReadLoop Env.mock n
                { s with trace := s.trace ++ [Event.ispReadFlash s.prog_address],
                         prog_address := u32 (s.prog_address + 1) }).2) := by
  simp [ispReadLoop, hmode, emit, Env.mock]

theorem ispReadLoop_succ_eeprom (n : Nat) (s : State)
    (hmode : s.prog_state = PROG_STATE_READEEPROM) :
    ispReadLoop Env.mock (n + 1) s
      = (u8 (mockEEPROM s.trace s.prog_address)
          :: (ispReadLoop Env.mock n
                { s with trace := s.trace ++ [Event.ispReadEEPROM s.prog_address],
                         prog_address := u32 (s.prog_address + 1) }).1,
         (ispReadLoop Env.mock n
                { s with trace := s.trace ++ [Event.ispReadEEPROM s.prog_address],
                         prog_address := u32 (s.prog_address + 1) }).2) := by
  simp [ispReadLoop, hmode, emit, Env.mock, PROG_STATE_READEEPROM, PROG_STATE_READFLASH]

theorem ispReadLoop_flash (n : Nat) :
    ∀ (s : State), s.prog_state = PROG_STATE_READFLASH → s.prog_address < 4294967296 →
      s.prog_address + n ≤ 4294967296 →
      (ispReadLoop Env.mock n s).1
          = (List.range n).map (fun i => u8 (mockFlash s.trace (s.prog_address + i)))
      ∧ mockFlash (ispReadLoop Env.mock n s).2.trace = mockFlash s.trace
      ∧ (ispReadLoop Env.mock n s).2.prog_address = u32 (s.prog_address + n) := by
  induction n with
  | zero =>
    intro s _ hlt _
    have : u32 s.prog_address = s.prog_address := by unfold u32; omega
    simp [ispReadLoop, this]
  | succ n ih =>
    intro s hmode hlt ha
    obtain ⟨i1, i2, i3⟩ := ih
      { s with trace := s.trace ++ [Event.ispReadFlash s.prog_address],
               prog_address := u32 (s.prog_address + 1) }
      hmode (by simp only [u32]; omega) (by simp only [u32]; omega)
    have hm : mockFlash (s.trace ++ [Event.ispReadFlash s.prog_address]) = mockFlash s.trace := by
      rw [mockFlash_append]; rfl
    rw [ispReadLoop_succ_flash n s hmode]
    refine ⟨?_, ?_, ?_⟩
    · simp only [i1, hm]
      rw [List.range_succ_eq_map, List.map_cons, List.map_map]
      simp only [Nat.add_zero]
      congr 1
      apply List.map_congr_left
      intro i hi
      have hi2 : i < n := List.mem_range.mp hi
      have hu : u32 (s.prog_address + 1) = s.prog_address + 1 := by unfold u32; omega
      simp [hu, Nat.add_assoc, Nat.add_comm 1]
    · simp only [i2, hm]
    · simp only [i3, u32_add_u32, Nat.add_assoc, Nat.add_comm 1]

theorem ispReadLoop_eeprom (n : Nat) :
    ∀ (s : State), s.prog_state = PROG_STATE_READEEPROM → s.prog_address < 4294967296 →
      s.prog_address + n ≤ 4294967296 →
      (ispReadLoop Env.mock n s).1
          = (List.range n).map (fun i => u8 (mockEEPROM s.trace (s.prog_address + i)))
      ∧ mockEEPROM (ispReadLoop Env.mock n s).2.trace = mockEEPROM s.trace
      ∧ (ispReadLoop Env.mock n s).2.prog_address = u32 (s.prog_address + n) := by
  induction n with
  | zero =>
    intro s _ hlt _
    have : u32 s.prog_address = s.prog_address := by unfold u32; omega
    simp [ispReadLoop, this]
  | succ n ih =>
    intro s hmode hlt ha
    obtain ⟨i1, i2, i3⟩ := ih
      { s with trace := s.trace ++ [Event.ispReadEEPROM s.prog_address],
               prog_address := u32 (s.prog_address + 1) }
      hmode (by simp only [u32]; omega) (by simp only [u32]; omega)
    have hm : mockEEPROM (s.trace ++ [Event.ispReadEEPROM s.prog_address])
        = mockEEPROM s.trace := by
      rw [mockEEPROM_append]; rfl
    rw [ispReadLoop_succ_eeprom n s hmode]
    refine ⟨?_, ?_, ?_⟩
    · simp only [i1, hm]
      rw [List.range_succ_eq_map, List.map_cons, List.map_map]
      simp only [Nat.add_zero]
      congr 1
      apply List.map_congr_left
      intro i hi
      have hi2 : i < n := List.mem_range.mp hi
      have hu : u32 (s.prog_address + 1) = s.prog_address + 1 := by unfold u32; omega
      simp [hu, Nat.add_assoc, Nat.add_comm 1]
    · simp only [i2, hm]
    · simp only [i3, u32_add_u32, Nat.add_assoc, Nat.add_comm 1]

theorem read_flash_packet (M : Nat → Nat) (len : Nat) (s : State)
    (hQ : s.prog_state = PROG_STATE_READFLASH ∧ s.prog_address < 4294967296)
    (hM : mockFlash s.trace = M) (ha : s.prog_address + len ≤ 4294967296) :
    (usbFunctionRead Env.mock len s).ret = len
    ∧ (usbFunctionRead Env.mock len s).data
        = (List.range len).map (fun i => u8 (M (s.prog_address + i)))
    ∧ (len = 8 →
        ((usbFunctionRead Env.mock len s).st.prog_state = PROG_STATE_READFLASH
          ∧ (usbFunctionRead Env.mock len s).st.prog_address < 4294967296)
        ∧ mockFlash (usbFunctionRead Env.mock len s).st.trace = M
        ∧ (usbFunctionRead Env.mock len s).st.prog_address = u32 (s.prog_address + 8)) := by
  obtain ⟨l1, l2, l3⟩ := ispReadLoop_flash len s hQ.1 hQ.2 ha
  have hr : usbFunctionRead Env.mock len s
      = ⟨len, (ispReadLoop Env.mock len s).1,
          if len < 8 then { (ispReadLoop Env.mock len s).2 with prog_state := PROG_STATE_IDLE }
          else (ispReadLoop Env.mock len s).2⟩ := by
    simp [usbFunctionRead, hQ.1, PROG_STATE_READFLASH, PROG_STATE_TPI_READ, PROG_STATE_UART_RX,
      PROG_STATE_PDI_READ]
  rw [hr]
  refine ⟨rfl, by rw [← hM]; exact l1, ?_⟩
  intro h8
  subst h8
  simp only [Nat.lt_irrefl, if_false]
  refine ⟨⟨by rw [ispReadLoop_prog_state]; exact hQ.1, by rw [l3]; unfold u32; omega⟩, ?_, l3⟩
  rw [l2, hM]

theorem read_eeprom_packet (M : Nat → Nat) (len : Nat) (s : State)
    (hQ : s.prog_state = PROG_STATE_READEEPROM ∧ s.prog_address < 4294967296)
    (hM : mockEEPROM s.trace = M) (ha : s.prog_address + len ≤ 4294967296) :
    (usbFunctionRead Env.mock len s).ret = len
    ∧ (usbFunctionRead Env.mock len s).data
        = (List.range len).map (fun i => u8 (M (s.prog_address + i)))
    ∧ (len = 8 →
        ((usbFunctionRead Env.mock len s).st.prog_state = PROG_STATE_READEEPROM
          ∧ (usbFunctionRead Env.mock len s).st.prog_address < 4294967296)
        ∧ mockEEPROM (usbFunctionRead Env.mock len s).st.trace = M
        ∧ (usbFunctionRead Env.mock len s).st.prog_address = u32 (s.prog_address + 8)) := by
  obtain ⟨l1, l2, l3⟩ := ispReadLoop_eeprom len s hQ.1 hQ.2 ha
  have hr : usbFunctionRead Env.mock len s
      = ⟨len, (ispReadLoop Env.mock len s).1,
          if len < 8 then { (ispReadLoop Env.mock len s).2 with prog_state := PROG_STATE_IDLE }
          else (ispReadLoop Env.mock len s).2⟩ := by
    simp [usbFunctionRead, hQ.1, PROG_STATE_READEEPROM, PROG_STATE_TPI_READ, PROG_STATE_UART_RX,
      PROG_STATE_PDI_READ]
  rw [hr]
  refine ⟨rfl, by rw [← hM]; exact l1, ?_⟩
  intro h8
  subst h8
  simp only [Nat.lt_irrefl, if_false]
  refine ⟨⟨by rw [ispReadLoop_prog_state]; exact hQ.1, by rw [l3]; unfold u32; omega⟩, ?_, l3⟩
  rw [l2, hM]

theorem read_tpi_packet (M : Nat → Nat) (len : Nat) (s : State)
    (hQ : s.prog_state = PROG_STATE_TPI_READ)
    (hM : mockTpi s.trace = M) (_ha : s.prog_address + len ≤ 4294967296) :
    (usbFunctionRead Env.mock len s).ret = len
    ∧ (usbFunctionRead Env.mock len s).data
        = (List.range len).map (fun i => id (M (s.prog_address + i)))
    ∧ (len = 8 →
        (usbFunctionRead Env.mock len s).st.prog_state = PROG_STATE_TPI_READ
        ∧ mockTpi (usbFunctionRead Env.mock len s).st.trace = M
        ∧ (usbFunctionRead Env.mock len s).st.prog_address = u32 (s.prog_address + 8)) := by
  have hr : usbFunctionRead Env.mock len s
      = ⟨len, bufBytes (fun i => mockTpi s.trace (s.prog_address + i)) len,
          { s with trace := s.trace ++ [Event.tpi_read_block s.prog_address len],
                   prog_address := u32 (s.prog_address + len) }⟩ := by
    simp [usbFunctionRead, hQ, emit, Env.mock]
  rw [hr]
  refine ⟨rfl, by simp [bufBytes, hM], ?_⟩
  intro h8
  subst h8
  refine ⟨hQ, ?_, rfl⟩
  simp only
  rw [mockTpi_append, hM]
  rfl

theorem readSizes_total (n : Nat) : 8 * (n / 8) + n % 8 = n := Nat.div_add_mod n 8

theorem range_map_memmove_at (f : Nat → Nat) (M : Nat → Nat) (a : Nat) (b : List Nat)
    (hf : ∀ x ∈ b, f x = x) :
    (List.range b.length).map (fun i => f (memmove_at M a b (a + i))) = b := by
  apply List.ext_getElem
  · simp
  · intro i h1 h2
    have hi : i < b.length := h2
    simp only [List.getElem_map, List.getElem_range, memmove_at]
    rw [if_pos (by omega)]
    have : a + i - a = i := by omega
    rw [this, List.getD_eq_getElem?_getD, List.getElem?_eq_getElem hi]
    exact hf _ (List.getElem_mem hi)

theorem intToULong_word_bound (v n : Nat) (hv : v + n ≤ 65536) (hn : 1 ≤ n) :
    intToULong v < 4294967296 ∧ intToULong v + n ≤ 4294967296 := by
  have hu : u16 v = v := by unfold u16; omega
  unfold intToULong
  rw [hu]
  split <;> omega

theorem command_byte1 (r0 fn addr b4 b5 len : Nat) (h : fn < 256) :
    byte (command r0 fn addr b4 b5 len) 1 = fn := by
  simp [command, byte, u8]; omega

theorem command_word_addr (r0 fn addr b4 b5 len : Nat) (h : addr < 65536) :
    word16 (command r0 fn addr b4 b5 len) 3 2 = addr := by
  rw [word16_eq]
  simp [command, byte, u8]; omega

theorem command_word_len (r0 fn addr b4 b5 len : Nat) (h : len < 65536) :
    word16 (command r0 fn addr b4 b5 len) 7 6 = len := by
  rw [word16_eq]
  simp [command, byte, u8]; omega

theorem and_F0_of_lt_16 : ∀ x : Nat, x < 16 → x &&& 0xF0 = 0 := by decide

theorem setup_writeflash_unpaged (env : Env) (data : List Nat) (s : State)
    (hfn : byte data 1 = USBASP_FUNC_WRITEFLASH) (hnew : s.prog_address_newmode = 0)
    (h4 : byte data 4 = 0) (h5 : byte data 5 < 16) :
    ∃ fl pc, (usbFunctionSetup env data s).st
      = { s with prog_address := intToULong (word16 data 3 2),
                 prog_pagesize := 0,
                 prog_blockflags := fl,
                 prog_pagecounter := pc,
                 prog_nbytes := word16 data 7 6,
                 prog_state := PROG_STATE_WRITEFLASH,
                 usbMsgPtr_replyBuffer := true } := by
  have hz : u16 0 = 0 := by decide
  have hz8 : u8 0 = 0 := by decide
  by_cases hf : (byte data 5 &&& 0x0F) &&& PROG_BLOCKFLAG_FIRST = 0
  · refine ⟨byte data 5 &&& 0x0F, s.prog_pagecounter, ?_⟩
    simp [usbFunctionSetup, hfn, hnew, h4, and_F0_of_lt_16 _ h5, hz, hf, USBASP_FUNC_CONNECT,
      USBASP_FUNC_DISCONNECT, USBASP_FUNC_TRANSMIT, USBASP_FUNC_READFLASH,
      USBASP_FUNC_ENABLEPROG, USBASP_FUNC_WRITEFLASH, USBASP_FUNC_READEEPROM]
  · refine ⟨byte data 5 &&& 0x0F, 0, ?_⟩
    simp [usbFunctionSetup, hfn, hnew, h4, and_F0_of_lt_16 _ h5, hz, hz8, hf, USBASP_FUNC_CONNECT,
      USBASP_FUNC_DISCONNECT, USBASP_FUNC_TRANSMIT, USBASP_FUNC_READFLASH,
      USBASP_FUNC_ENABLEPROG, USBASP_FUNC_WRITEFLASH, USBASP_FUNC_READEEPROM]

theorem setup_readflash (env : Env) (data : List Nat) (s : State)
    (hfn : byte data 1 = USBASP_FUNC_READFLASH) (hnew : s.prog_address_newmode = 0) :
    (usbFunctionSetup env data s).st
      = { s with prog_address := intToULong (word16 data 3 2),
                 prog_nbytes := word16 data 7 6,
                 prog_state := PROG_STATE_READFLASH,
                 usbMsgPtr_replyBuffer := true } := by
  simp [usbFunctionSetup, hfn, hnew, USBASP_FUNC_CONNECT,
    USBASP_FUNC_DISCONNECT, USBASP_FUNC_TRANSMIT, USBASP_FUNC_READFLASH]

theorem setup_writeeeprom (env : Env) (data : List Nat) (s : State)
    (hfn : byte data 1 = USBASP_FUNC_WRITEEEPROM) (hnew : s.prog_address_newmode = 0) :
    (usbFunctionSetup env data s).st
      = { s with prog_address := intToULong (word16 data 3 2),
                 prog_pagesize := 0,
                 prog_blockflags := 0,
                 prog_nbytes := word16 data 7 6,
                 prog_state := PROG_STATE_WRITEEEPROM,
                 usbMsgPtr_replyBuffer := true } := by
  simp [usbFunctionSetup, hfn, hnew, USBASP_FUNC_CONNECT,
    USBASP_FUNC_DISCONNECT, USBASP_FUNC_TRANSMIT, USBASP_FUNC_READFLASH,
    USBASP_FUNC_ENABLEPROG, USBASP_FUNC_WRITEFLASH, USBASP_FUNC_READEEPROM,
    USBASP_FUNC_WRITEEEPROM]

theorem setup_readeeprom (env : Env) (data : List Nat) (s : State)
    (hfn : byte data 1 = USBASP_FUNC_READEEPROM) (hnew : s.prog_address_newmode = 0) :
    (usbFunctionSetup env data s).st
      = { s with prog_address := intToULong (word16 data 3 2),
                 prog_nbytes := word16 data 7 6,
                 prog_state := PROG_STATE_READEEPROM,
                 usbMsgPtr_replyBuffer := true } := by
  simp [usbFunctionSetup, hfn, hnew, USBASP_FUNC_CONNECT,
    USBASP_FUNC_DISCONNECT, USBASP_FUNC_TRANSMIT, USBASP_FUNC_READFLASH,
    USBASP_FUNC_READEEPROM]

theorem setup_tpi_readblock (env : Env) (data : List Nat) (s : State)
    (hfn : byte data 1 = USBASP_FUNC_TPI_READBLOCK) :
    (usbFunctionSetup env data s).st
      = { s with prog_address := intToULong (word16 data 3 2),
                 prog_nbytes := word16 data 7 6,
                 prog_state := PROG_STATE_TPI_READ,
                 usbMsgPtr_replyBuffer := true } := by
  simp [usbFunctionSetup, hfn, USBASP_FUNC_TPI_READBLOCK, USBASP_FUNC_CONNECT,
    USBASP_FUNC_DISCONNECT, USBASP_FUNC_TRANSMIT, USBASP_FUNC_READFLASH,
    USBASP_FUNC_ENABLEPROG, USBASP_FUNC_WRITEFLASH, USBASP_FUNC_READEEPROM,
    USBASP_FUNC_WRITEEEPROM, USBASP_FUNC_SETLONGADDRESS, USBASP_FUNC_SETISPSCK,
    USBASP_FUNC_TPI_CONNECT, USBASP_FUNC_TPI_DISCONNECT, USBASP_FUNC_TPI_RAWREAD,
    USBASP_FUNC_TPI_RAWWRITE]

theorem u8_of_lt (x : Nat) (h : x < 256) : u8 x = x := by
  unfold u8; omega

theorem round_trip_flash (s : State) (A : Nat) (b : List Nat) (chunks : List (List Nat))
    (r0 r1 w4 w5 q4 q5 : Nat)
    (hnew : s.prog_address_newmode = 0)
    (hps : w4 % 256 = 0 ∧ w5 % 256 < 16)
    (hb : ∀ x ∈ b, x < 256) (hN1 : 1 ≤ b.length) (hN : b.length < 65536)
    (hA : A + b.length ≤ 65536) (hchunks : chunks.flatten = b) :
    (readPackets Env.mock (readSizes b.length)
      (usbFunctionSetup Env.mock (command r1 USBASP_FUNC_READFLASH A q4 q5 b.length)
        (writePackets chunks
          (usbFunctionSetup Env.mock (command r0 USBASP_FUNC_WRITEFLASH A w4 w5 b.length)
            s).st).2).st).2.1 = b := by
  have htot : totalLen chunks = b.length := by rw [← length_flatten_eq_totalLen, hchunks]
  obtain ⟨hA1, hA2⟩ := intToULong_word_bound A b.length hA hN1
  obtain ⟨fl, pc, hs1⟩ := setup_writeflash_unpaged Env.mock
    (command r0 USBASP_FUNC_WRITEFLASH A w4 w5 b.length) s
    (command_byte1 _ _ _ _ _ _ (by decide)) hnew
    (by simp [command, byte, u8, hps.1]) (by simp [command, byte, u8, hps.2])
  rw [command_word_addr _ _ _ _ _ _ (by omega), command_word_len _ _ _ _ _ _ hN] at hs1
  obtain ⟨tr, htr, hrun⟩ := write_run_generic mockFlashStep
    (fun t => t.prog_state = PROG_STATE_WRITEFLASH ∧ t.prog_pagesize = 0)
    (fun _ _ _ _ h => h) flash_unpaged_plain flash_unpaged_final chunks
    (usbFunctionSetup Env.mock (command r0 USBASP_FUNC_WRITEFLASH A w4 w5 b.length) s).st
    (by rw [hs1]; exact ⟨rfl, rfl⟩) (by rw [hs1, htot]) (by omega) (by omega)
    (by rw [hs1, htot]; exact hA2)
  rw [hs1] at htr hrun
  simp only at htr hrun
  rw [hs1, hrun]
  have hs3 := setup_readflash Env.mock (command r1 USBASP_FUNC_READFLASH A q4 q5 b.length)
    { s with prog_address := u32 (intToULong A + totalLen chunks), prog_pagesize := 0,
             prog_blockflags := fl, prog_pagecounter := pc, prog_nbytes := 0,
             prog_state := PROG_STATE_IDLE, usbMsgPtr_replyBuffer := true,
             trace := s.trace ++ tr }
    (command_byte1 _ _ _ _ _ _ (by decide)) hnew
  rw [command_word_addr _ _ _ _ _ _ (by omega), command_word_len _ _ _ _ _ _ hN] at hs3
  rw [hs3]
  have hrd := read_run_generic
    (fun t => t.prog_state = PROG_STATE_READFLASH ∧ t.prog_address < 4294967296)
    mockFlash u8 (memmove_at (mockFlash s.trace) (intToULong A) b)
    (fun len t hQ hM ha => read_flash_packet _ len t hQ hM ha)
    (b.length / 8)
    { s with prog_address := intToULong A, prog_pagesize := 0, prog_blockflags := fl,
             prog_pagecounter := pc, prog_nbytes := b.length,
             prog_state := PROG_STATE_READFLASH, usbMsgPtr_replyBuffer := true,
             trace := s.trace ++ tr }
    (b.length % 8) ⟨rfl, hA1⟩
    (by simp only; rw [mockFlash_append, htr, hchunks])
    (by simp only; rw [readSizes_total]; exact hA2)
  rw [readSizes_total] at hrd
  unfold readSizes
  rw [hrd]
  exact range_map_memmove_at u8 _ _ b (fun x hx => u8_of_lt x (hb x hx))

theorem round_trip_eeprom (s : State) (A : Nat) (b : List Nat) (chunks : List (List Nat))
    (r0 r1 w4 w5 q4 q5 : Nat)
    (hnew : s.prog_address_newmode = 0)
    (hb : ∀ x ∈ b, x < 256) (hN1 : 1 ≤ b.length) (hN : b.length < 65536)
    (hA : A + b.length ≤ 65536) (hchunks : chunks.flatten = b) :
    (readPackets Env.mock (readSizes b.length)
      (usbFunctionSetup Env.mock (command r1 USBASP_FUNC_READEEPROM A q4 q5 b.length)
        (writePackets chunks
          (usbFunctionSetup Env.mock (command r0 USBASP_FUNC_WRITEEEPROM A w4 w5 b.length)
            s).st).2).st).2.1 = b := by
  have htot : totalLen chunks = b.length := by rw [← length_flatten_eq_totalLen, hchunks]
  obtain ⟨hA1, hA2⟩ := intToULong_word_bound A b.length hA hN1
  have hs1 := setup_writeeeprom Env.mock
    (command r0 USBASP_FUNC_WRITEEEPROM A w4 w5 b.length) s
    (command_byte1 _ _ _ _ _ _ (by decide)) hnew
  rw [command_word_addr _ _ _ _ _ _ (by omega), command_word_len _ _ _ _ _ _ hN] at hs1
  obtain ⟨tr, htr, hrun⟩ := write_run_generic mockEEPROMStep
    (fun t => t.prog_state = PROG_STATE_WRITEEEPROM)
    (fun _ _ _ _ h => h) eeprom_plain eeprom_final chunks
    (usbFunctionSetup Env.mock (command r0 USBASP_FUNC_WRITEEEPROM A w4 w5 b.length) s).st
    (by rw [hs1]) (by rw [hs1, htot]) (by omega) (by omega)
    (by rw [hs1, htot]; exact hA2)
  rw [hs1] at htr hrun
  simp only at htr hrun
  rw [hs1, hrun]
  have hs3 := setup_readeeprom Env.mock (command r1 USBASP_FUNC_READEEPROM A q4 q5 b.length)
    { s with prog_address := u32 (intToULong A + totalLen chunks), prog_pagesize := 0,
             prog_blockflags := 0, prog_nbytes := 0,
             prog_state := PROG_STATE_IDLE, usbMsgPtr_replyBuffer := true,
             trace := s.trace ++ tr }
    (command_byte1 _ _ _ _ _ _ (by decide)) hnew
  rw [command_word_addr _ _ _ _ _ _ (by omega), command_word_len _ _ _ _ _ _ hN] at hs3
  rw [hs3]
  have hrd := read_run_generic
    (fun t => t.prog_state = PROG_STATE_READEEPROM ∧ t.prog_address < 4294967296)
    mockEEPROM u8 (memmove_at (mockEEPROM s.trace) (intToULong A) b)
    (fun len t hQ hM ha => read_eeprom_packet _ len t hQ hM ha)
    (b.length / 8)
    { s with prog_address := intToULong A, prog_pagesize := 0, prog_blockflags := 0,
             prog_nbytes := b.length,
             prog_state := PROG_STATE_READEEPROM, usbMsgPtr_replyBuffer := true,
             trace := s.trace ++ tr }
    (b.length % 8) ⟨rfl, hA1⟩
    (by simp only; rw [mockEEPROM_append, htr, hchunks])
    (by simp only; rw [readSizes_total]; exact hA2)
  rw [readSizes_total] at hrd
  unfold readSizes
  rw [hrd]
  exact range_map_memmove_at u8 _ _ b (fun x hx => u8_of_lt x (hb x hx))

theorem round_trip_tpi (s : State) (A : Nat) (b : List Nat) (chunks : List (List Nat))
    (r0 r1 w4 w5 q4 q5 : Nat)
    (hN1 : 1 ≤ b.length) (hN : b.length < 65536)
    (hA : A + b.length ≤ 65536) (hchunks : chunks.flatten = b) :
    (readPackets Env.mock (readSizes b.length)
      (usbFunctionSetup Env.mock (command r1 USBASP_FUNC_TPI_READBLOCK A q4 q5 b.length)
        (writePackets chunks
          (usbFunctionSetup Env.mock (command r0 USBASP_FUNC_TPI_WRITEBLOCK A w4 w5 b.length)
            s).st).2).st).2.1 = b := by
  have htot : totalLen chunks = b.length := by rw [← length_flatten_eq_totalLen, hchunks]
  obtain ⟨_, hA2⟩ := intToULong_word_bound A b.length hA hN1
  have hs1 := setup_tpi_writeblock Env.mock
    (command r0 USBASP_FUNC_TPI_WRITEBLOCK A w4 w5 b.length) s
    (command_byte1 _ _ _ _ _ _ (by decide))
  rw [command_word_addr _ _ _ _ _ _ (by omega), command_word_len _ _ _ _ _ _ hN] at hs1
  obtain ⟨tr, htr, hrun⟩ := write_run_generic mockTpiStep
    (fun t => t.prog_state = PROG_STATE_TPI_WRITE)
    (fun _ _ _ _ h => h) tpi_plain tpi_final chunks
    (usbFunctionSetup Env.mock (command r0 USBASP_FUNC_TPI_WRITEBLOCK A w4 w5 b.length) s).st
    (by rw [hs1]) (by rw [hs1, htot]) (by omega) (by omega)
    (by rw [hs1, htot]; exact hA2)
  rw [hs1] at htr hrun
  simp only at htr hrun
  rw [hs1, hrun]
  have hs3 := setup_tpi_readblock Env.mock
    (command r1 USBASP_FUNC_TPI_READBLOCK A q4 q5 b.length)
    { s with prog_address := u32 (intToULong A + totalLen chunks), prog_nbytes := 0,
             prog_state := PROG_STATE_IDLE, usbMsgPtr_replyBuffer := true,
             trace := s.trace ++ tr }
    (command_byte1 _ _ _ _ _ _ (by decide))
  rw [command_word_addr _ _ _ _ _ _ (by omega), command_word_len _ _ _ _ _ _ hN] at hs3
  rw [hs3]
  have hrd := read_run_generic
    (fun t => t.prog_state = PROG_STATE_TPI_READ)
    mockTpi id (memmove_at (mockTpi s.trace) (intToULong A) b)
    (fun len t hQ hM ha => read_tpi_packet _ len t hQ hM ha)
    (b.length / 8)
    { s with prog_address := intToULong A, prog_nbytes := b.length,
             prog_state := PROG_STATE_TPI_READ, usbMsgPtr_replyBuffer := true,
             trace := s.trace ++ tr }
    (b.length % 8) rfl
    (by simp only; rw [mockTpi_append, htr, hchunks])
    (by simp only; rw [readSizes_total]; exact hA2)
  rw [readSizes_total] at hrd
  unfold readSizes
  rw [hrd]
  exact range_map_memmove_at id _ _ b (fun _ _ => rfl)

/-- C3 (as stated, refuted): with long-address mode on (a set-long-address
command has stored 0x100), writing `[1, 2]` to the mocked flash with the write
command `(A, N) = (0, 2)` stores the bytes at 0x100 and 0x101, the address then
being 0x102; the read command `(0, 2)` does not load its address either, so
the bytes are read at 0x102 and 0x103 and the output is `[0xFF, 0xFF]`, not
`[1, 2]`.  The same happens on the mocked EEPROM. -/
theorem C3_counterexample :
    (usbFunctionSetup Env.mock [0, 9, 0x00, 0x01, 0, 0, 0, 0] State.init).st.prog_address_newmode
        = 1
    ∧ (writePackets [[1, 2]]
        (usbFunctionSetup Env.mock (command 0 USBASP_FUNC_WRITEFLASH 0 0 0 2)
          (usbFunctionSetup Env.mock [0, 9, 0x00, 0x01, 0, 0, 0, 0] State.init).st).st).2.trace
        = [Event.ispWriteFlash 0x100 1 1, Event.ispWriteFlash 0x101 2 1]
    ∧ (readPackets Env.mock (readSizes 2)
        (usbFunctionSetup Env.mock (command 0 USBASP_FUNC_READFLASH 0 0 0 2)
          (writePackets [[1, 2]]
            (usbFunctionSetup Env.mock (command 0 USBASP_FUNC_WRITEFLASH 0 0 0 2)
              (usbFunctionSetup Env.mock [0, 9, 0x00, 0x01, 0, 0, 0, 0]
                State.init).st).st).2).st).2.1
        = [0xFF, 0xFF]
    ∧ (readPackets Env.mock (readSizes 2)
        (usbFunctionSetup Env.mock (command 0 USBASP_FUNC_READFLASH 0 0 0 2)
          (writePackets [[1, 2]]
            (usbFunctionSetup Env.mock (command 0 USBASP_FUNC_WRITEFLASH 0 0 0 2)
              (usbFunctionSetup Env.mock [0, 9, 0x00, 0x01, 0, 0, 0, 0]
                State.init).st).st).2).st).2.2.trace
        = [Event.ispWriteFlash 0x100 1 1, Event.ispWriteFlash 0x101 2 1,
           Event.ispReadFlash 0x102, Event.ispReadFlash 0x103]
    ∧ (readPackets Env.mock (readSizes 2)
        (usbFunctionSetup Env.mock (command 0 USBASP_FUNC_READEEPROM 0 0 0 2)
          (writePackets [[1, 2]]
            (usbFunctionSetup Env.mock (command 0 USBASP_FUNC_WRITEEEPROM 0 0 0 2)
              (usbFunctionSetup Env.mock [0, 9, 0x00, 0x01, 0, 0, 0, 0]
                State.init).st).st).2).st).2.1
        = [0xFF, 0xFF] := by
  decide

/-- C3 (amended): round trip over the mocked byte-addressable backend.  For
each memory backend (flash with page size 0, EEPROM, two-pin block), every
16-bit start address `A` and every sequence `b` of `N >= 1` bytes with
`A + N <= 65536` (`N` a value of the 16-bit length field): arming the write
command with `(A, N)`, for flash and EEPROM with long-address mode off (so
that the address of the command is used), consuming `b` through
`usbFunctionWrite` in packets of at most 8 bytes, then arming the matching
read command with `(A, N)` and calling `usbFunctionRead` with packets of 8
bytes (the last one `N mod 8` if not zero) produces exactly `b`, in order. -/
theorem C3_round_trip (bk : MemBackend) (s : State) (A : Nat) (b : List Nat)
    (chunks : List (List Nat)) (r0 r1 w4 w5 q4 q5 : Nat)
    (hnew : bk ≠ MemBackend.tpi → s.prog_address_newmode = 0)
    (hps : bk = MemBackend.flash → w4 % 256 = 0 ∧ w5 % 256 < 16)
    (hb : ∀ x ∈ b, x < 256) (hN1 : 1 ≤ b.length) (hN : b.length < 65536)
    (hA : A + b.length ≤ 65536)
    (hchunks : chunks.flatten = b) (_hsize : ∀ c ∈ chunks, c.length ≤ 8) :
    (readPackets Env.mock (readSizes b.length)
      (usbFunctionSetup Env.mock (command r1 bk.readFn A q4 q5 b.length)
        (writePackets chunks
          (usbFunctionSetup Env.mock (command r0 bk.writeFn A w4 w5 b.length) s).st).2).st).2.1
      = b := by
  cases bk with
  | flash =>
    exact round_trip_flash s A b chunks r0 r1 w4 w5 q4 q5 (hnew (by decide)) (hps rfl) hb hN1 hN
      hA hchunks
  | eeprom =>
    exact round_trip_eeprom s A b chunks r0 r1 w4 w5 q4 q5 (hnew (by decide)) hb hN1 hN hA
      hchunks
  | tpi =>
    exact round_trip_tpi s A b chunks r0 r1 w4 w5 q4 q5 hN1 hN hA hchunks

/-- C3 (amended), at ten bytes written to flash at address 0x7FF0 as packets of 8 and 2
bytes and read back as packets of 8 and 2 bytes. -/
theorem C3_round_trip_witness :
    (readPackets Env.mock (readSizes 10)
      (usbFunctionSetup Env.mock (command 0 USBASP_FUNC_READFLASH 0x7FF0 0 0 10)
        (writePackets [[1, 2, 3, 4, 5, 6, 7, 8], [9, 10]]
          (usbFunctionSetup Env.mock (command 0 USBASP_FUNC_WRITEFLASH 0x7FF0 0 3 10)
            State.init).st).2).st).2.1
      = [1, 2, 3, 4, 5, 6, 7, 8, 9, 10] :=
  C3_round_trip MemBackend.flash State.init 0x7FF0 [1, 2, 3, 4, 5, 6, 7, 8, 9, 10]
    [[1, 2, 3, 4, 5, 6, 7, 8], [9, 10]] 0 0 0 3 0 0 (fun _ => rfl) (fun _ => by decide)
    (by decide) (by decide) (by decide) (by decide) (by decide) (by decide)

/-! ### C1: the page-flush count -/

theorem succ_mod_page (P K : Nat) (hP : 0 < P) :
    (K + 1) % P = if K % P + 1 = P then 0 else K % P + 1 := by
  have hlt := Nat.mod_lt K hP
  by_cases h1 : P = 1
  · subst h1
    simp [Nat.mod_one]
  · have h2 : 1 % P = 1 := Nat.mod_eq_of_lt (by omega)
    rw [Nat.add_mod, h2]
    split
    · rename_i h
      rw [h]; simp
    · rename_i h
      exact Nat.mod_eq_of_lt (by omega)

theorem succ_div_page (P K : Nat) (hP : 0 < P) :
    (K + 1) / P = K / P + if K % P + 1 = P then 1 else 0 := by
  have h1 := Nat.div_add_mod K P
  have h2 := Nat.div_add_mod (K + 1) P
  have h3 := succ_mod_page P K hP
  have hlt := Nat.mod_lt K hP
  split
  · rename_i h
    rw [if_pos h] at h3
    rw [h3] at h2
    have : P * ((K + 1) / P) = P * (K / P + 1) := by
      rw [Nat.mul_add, Nat.mul_one]; omega
    exact Nat.eq_of_mul_eq_mul_left hP this
  · rename_i h
    rw [if_neg h] at h3
    rw [h3] at h2
    have : P * ((K + 1) / P) = P * (K / P) := by omega
    simpa using Nat.eq_of_mul_eq_mul_left hP this

theorem ceil_div_page (P N : Nat) (hP : 0 < P) :
    (N + P - 1) / P = N / P + if N % P = 0 then 0 else 1 := by
  have h1 := Nat.div_add_mod N P
  have hlt := Nat.mod_lt N hP
  split
  · rename_i h
    have : N + P - 1 = P - 1 + P * (N / P) := by omega
    rw [this, Nat.add_mul_div_left _ _ hP, Nat.div_eq_of_lt (by omega)]
    simp
  · rename_i h
    have : N + P - 1 = (N % P - 1) + P * (N / P + 1) := by
      rw [Nat.mul_add]; omega
    rw [this, Nat.add_mul_div_left _ _ hP, Nat.div_eq_of_lt (by omega)]
    simp

theorem ispWriteStep_paged_inv (P F K fl : Nat) (s : State) (rv d : Nat)
    (hP : 0 < P) (hP2 : P < 256) (hinv : PagedInv P F K fl s)
    (hmode : s.prog_state = PROG_STATE_WRITEFLASH)
    (hn : 1 < s.prog_nbytes) (hn2 : s.prog_nbytes < 65536) :
    PagedInv P F (K + 1) fl (ispWriteStep (s, rv) d).1
    ∧ (ispWriteStep (s, rv) d).1.prog_state = PROG_STATE_WRITEFLASH
    ∧ (ispWriteStep (s, rv) d).1.prog_nbytes = s.prog_nbytes - 1
    ∧ (ispWriteStep (s, rv) d).2 = rv := by
  obtain ⟨h1, h2, h3, h4⟩ := hinv
  have hlt := Nat.mod_lt K hP
  have hps : s.prog_pagesize ≠ 0 := by omega
  have hP0 : P ≠ 0 := by omega
  have hnb : u16 (s.prog_nbytes + 65535) = s.prog_nbytes - 1 := by unfold u16; omega
  have hnb0 : s.prog_nbytes - 1 ≠ 0 := by omega
  have hm := succ_mod_page P K hP
  have hd := succ_div_page P K hP
  by_cases hk : K % P + 1 = P
  · rw [if_pos hk] at hm hd
    have hc : s.prog_pagecounter = 1 := by omega
    have hu : u8 (1 + 255) = 0 := by decide
    have hu2 : u8 P = P := by unfold u8; omega
    simp [PagedInv, ispWriteStep, hmode, hps, hP0, emit, hc, hu, hnb, hnb0, h1, hu2, hm, hd,
      flushCalls_append, h3, h4]
    simp [flushCalls, Nat.add_assoc]
  · rw [if_neg hk] at hm hd
    have hu : u8 (s.prog_pagecounter + 255) = s.prog_pagecounter - 1 := by unfold u8; omega
    have hu0 : s.prog_pagecounter - 1 ≠ 0 := by omega
    simp [PagedInv, ispWriteStep, hmode, hps, hP0, emit, hu, hu0, hnb, hnb0, h1, hm, hd,
      flushCalls_append, h3, h4]
    refine ⟨by omega, ?_⟩
    simp [flushCalls]

theorem ispWriteStep_paged_end (P F K fl : Nat) (s : State) (rv d : Nat)
    (hP : 0 < P) (hP2 : P < 256) (hinv : PagedInv P F K fl s)
    (hmode : s.prog_state = PROG_STATE_WRITEFLASH)
    (hn : s.prog_nbytes = 1) :
    PagedEnd P F (K + 1) fl (ispWriteStep (s, rv) d).1
    ∧ (ispWriteStep (s, rv) d).2 = 1 := by
  obtain ⟨h1, h2, h3, h4⟩ := hinv
  have hlt := Nat.mod_lt K hP
  have hps : s.prog_pagesize ≠ 0 := by omega
  have hP0 : P ≠ 0 := by omega
  have hnb : u16 (1 + 65535) = 0 := by decide
  have hm := succ_mod_page P K hP
  have hd := succ_div_page P K hP
  by_cases hk : K % P + 1 = P
  · rw [if_pos hk] at hm hd
    have hc : s.prog_pagecounter = 1 := by omega
    have hu : u8 (1 + 255) = 0 := by decide
    have hu2 : u8 P = P := by unfold u8; omega
    simp [PagedEnd, ispWriteStep, hmode, hps, hP0, emit, hc, hu, hn, hnb, h1, hu2, hm, hd,
      flushCalls_append, h3, h4]
    simp [flushCalls, Nat.add_assoc]
  · rw [if_neg hk] at hm hd
    have hu : u8 (s.prog_pagecounter + 255) = s.prog_pagecounter - 1 := by unfold u8; omega
    have hu0 : s.prog_pagecounter - 1 ≠ 0 := by omega
    have hne : s.prog_pagecounter - 1 ≠ P := by omega
    by_cases hl : fl &&& PROG_BLOCKFLAG_LAST = 0
    · simp [PagedEnd, ispWriteStep, hmode, hps, hP0, emit, hu, hu0, hn, hnb, h1, hm, hd,
        flushCalls_append, h3, h4, hl]
      refine ⟨by omega, ?_⟩
      simp [flushCalls]
    · simp [PagedEnd, ispWriteStep, hmode, hps, hP0, emit, hu, hu0, hn, hnb, h1, hm, hd,
        flushCalls_append, h3, h4, hl, hne]
      refine ⟨by omega, ?_⟩
      simp [flushCalls]

theorem ispWrite_fold_paged_inv (P F fl : Nat) (hP : 0 < P) (hP2 : P < 256) (data : List Nat) :
    ∀ (s : State) (rv K : Nat), PagedInv P F K fl s →
      s.prog_state = PROG_STATE_WRITEFLASH →
      data.length < s.prog_nbytes → s.prog_nbytes < 65536 →
      PagedInv P F (K + data.length) fl (data.foldl ispWriteStep (s, rv)).1
      ∧ (data.foldl ispWriteStep (s, rv)).1.prog_state = PROG_STATE_WRITEFLASH
      ∧ (data.foldl ispWriteStep (s, rv)).1.prog_nbytes = s.prog_nbytes - data.length
      ∧ (data.foldl ispWriteStep (s, rv)).2 = rv := by
  induction data with
  | nil => intro s rv K hinv hmode _ _; exact ⟨hinv, hmode, rfl, rfl⟩
  | cons d ds ih =>
    intro s rv K hinv hmode hn hn2
    simp only [List.length_cons] at hn
    obtain ⟨s1, s2, s3, s4⟩ := ispWriteStep_paged_inv P F K fl s rv d hP hP2 hinv hmode
      (by omega) hn2
    obtain ⟨i1, i2, i3, i4⟩ := ih (ispWriteStep (s, rv) d).1 (ispWriteStep (s, rv) d).2 (K + 1)
      s1 s2 (by rw [s3]; omega) (by rw [s3]; omega)
    simp only [Prod.mk.eta] at i1 i2 i3 i4
    rw [List.foldl_cons, List.length_cons]
    refine ⟨?_, i2, ?_, ?_⟩
    · have : K + (ds.length + 1) = K + 1 + ds.length := by omega
      rw [this]; exact i1
    · rw [i3, s3]; omega
    · rw [i4, s4]

theorem usbFunctionWrite_flash_fold (c : List Nat) (s : State)
    (hmode : s.prog_state = PROG_STATE_WRITEFLASH) :
    usbFunctionWrite c s = ⟨(c.foldl ispWriteStep (s, 0)).2, (c.foldl ispWriteStep (s, 0)).1⟩ := by
  simp [usbFunctionWrite, hmode, PROG_STATE_WRITEFLASH, PROG_STATE_TPI_WRITE,
    PROG_STATE_UART_TX, PROG_STATE_PDI_SEND]

theorem writePackets_paged_block (P F fl : Nat) (hP : 0 < P) (hP2 : P < 256)
    (chunks : List (List Nat)) :
    ∀ (s : State) (K : Nat), PagedInv P F K fl s →
      s.prog_state = PROG_STATE_WRITEFLASH →
      s.prog_nbytes = totalLen chunks → 0 < totalLen chunks → totalLen chunks < 65536 →
      PagedEnd P F (K + totalLen chunks) fl (writePackets chunks s).2 := by
  induction chunks with
  | nil => intro s K _ _ _ h; simp [totalLen] at h
  | cons c cs ih =>
    intro s K hinv hmode hn hpos hlt
    rw [totalLen_cons] at hn hpos hlt
    rw [writePackets, usbFunctionWrite_flash_fold c s hmode, totalLen_cons]
    simp only
    by_cases hz : totalLen cs = 0
    · have hcne : c ≠ [] := by
        intro h; rw [h] at hpos; simp at hpos; omega
      obtain ⟨body, d, rfl⟩ : ∃ body d, c = body ++ [d] :=
        ⟨c.dropLast, c.getLast hcne, (List.dropLast_append_getLast hcne).symm⟩
      simp only [List.length_append, List.length_singleton] at hn hlt
      obtain ⟨f1, f2, f3, _⟩ := ispWrite_fold_paged_inv P F fl hP hP2 body s 0 K hinv hmode
        (by omega) (by omega)
      obtain ⟨e1, _⟩ := ispWriteStep_paged_end P F (K + body.length) fl
        (body.foldl ispWriteStep (s, 0)).1 (body.foldl ispWriteStep (s, 0)).2 d hP hP2 f1 f2
        (by rw [f3]; omega)
      simp only [Prod.mk.eta] at e1
      rw [List.foldl_append, List.foldl_cons, List.foldl_nil]
      rw [writePackets_idle cs _ e1.2.2.2.2, hz]
      simp only [List.length_append, List.length_singleton, Nat.add_zero]
      have : K + (body.length + 1) = K + body.length + 1 := by omega
      rw [this]; exact e1
    · obtain ⟨f1, f2, f3, _⟩ := ispWrite_fold_paged_inv P F fl hP hP2 c s 0 K hinv hmode
        (by omega) (by omega)
      have := ih (c.foldl ispWriteStep (s, 0)).1 (K + c.length) f1 f2 (by rw [f3]; omega)
        (by omega) (by omega)
      rw [Nat.add_assoc] at this
      exact this

theorem and_0F_of_lt_16 : ∀ x : Nat, x < 16 → x &&& 0x0F = x := by decide

theorem setup_writeflash_fields (env : Env) (data : List Nat) (s : State)
    (hfn : byte data 1 = USBASP_FUNC_WRITEFLASH) :
    (usbFunctionSetup env data s).st.trace = s.trace
    ∧ (usbFunctionSetup env data s).st.prog_pagesize
        = u16 (byte data 4 + ((byte data 5 &&& 0xF0) <<< 4))
    ∧ (usbFunctionSetup env data s).st.prog_blockflags = byte data 5 &&& 0x0F
    ∧ (usbFunctionSetup env data s).st.prog_pagecounter
        = (if (byte data 5 &&& 0x0F) &&& PROG_BLOCKFLAG_FIRST ≠ 0
           then u8 (u16 (byte data 4 + ((byte data 5 &&& 0xF0) <<< 4)))
           else s.prog_pagecounter)
    ∧ (usbFunctionSetup env data s).st.prog_nbytes = word16 data 7 6
    ∧ (usbFunctionSetup env data s).st.prog_state = PROG_STATE_WRITEFLASH := by
  by_cases hf : (byte data 5 &&& 0x0F) &&& PROG_BLOCKFLAG_FIRST = 0
  · by_cases hnm : s.prog_address_newmode = 0
    · simp [usbFunctionSetup, hfn, hf, hnm, USBASP_FUNC_CONNECT,
        USBASP_FUNC_DISCONNECT, USBASP_FUNC_TRANSMIT, USBASP_FUNC_READFLASH,
        USBASP_FUNC_ENABLEPROG, USBASP_FUNC_WRITEFLASH, USBASP_FUNC_READEEPROM]
    · simp [usbFunctionSetup, hfn, hf, hnm, USBASP_FUNC_CONNECT,
        USBASP_FUNC_DISCONNECT, USBASP_FUNC_TRANSMIT, USBASP_FUNC_READFLASH,
        USBASP_FUNC_ENABLEPROG, USBASP_FUNC_WRITEFLASH, USBASP_FUNC_READEEPROM]
  · by_cases hnm : s.prog_address_newmode = 0
    · simp [usbFunctionSetup, hfn, hf, hnm, USBASP_FUNC_CONNECT,
        USBASP_FUNC_DISCONNECT, USBASP_FUNC_TRANSMIT, USBASP_FUNC_READFLASH,
        USBASP_FUNC_ENABLEPROG, USBASP_FUNC_WRITEFLASH, USBASP_FUNC_READEEPROM]
    · simp [usbFunctionSetup, hfn, hf, hnm, USBASP_FUNC_CONNECT,
        USBASP_FUNC_DISCONNECT, USBASP_FUNC_TRANSMIT, USBASP_FUNC_READFLASH,
        USBASP_FUNC_ENABLEPROG, USBASP_FUNC_WRITEFLASH, USBASP_FUNC_READEEPROM]

theorem setup_writeflash_paged (env : Env) (s : State) (r0 addr P fl len : Nat)
    (hP2 : P < 256) (hfl : fl < 16) (hlen : len < 65536) :
    (usbFunctionSetup env (command r0 USBASP_FUNC_WRITEFLASH addr (P % 256)
        (16 * (P / 256) + fl) len) s).st.trace = s.trace
    ∧ (usbFunctionSetup env (command r0 USBASP_FUNC_WRITEFLASH addr (P % 256)
        (16 * (P / 256) + fl) len) s).st.prog_pagesize = P
    ∧ (usbFunctionSetup env (command r0 USBASP_FUNC_WRITEFLASH addr (P % 256)
        (16 * (P / 256) + fl) len) s).st.prog_blockflags = fl
    ∧ (usbFunctionSetup env (command r0 USBASP_FUNC_WRITEFLASH addr (P % 256)
        (16 * (P / 256) + fl) len) s).st.prog_pagecounter
        = (if fl &&& PROG_BLOCKFLAG_FIRST ≠ 0 then P else s.prog_pagecounter)
    ∧ (usbFunctionSetup env (command r0 USBASP_FUNC_WRITEFLASH addr (P % 256)
        (16 * (P / 256) + fl) len) s).st.prog_nbytes = len
    ∧ (usbFunctionSetup env (command r0 USBASP_FUNC_WRITEFLASH addr (P % 256)
        (16 * (P / 256) + fl) len) s).st.prog_state = PROG_STATE_WRITEFLASH := by
  have hfn := command_byte1 r0 USBASP_FUNC_WRITEFLASH addr (P % 256) (16 * (P / 256) + fl) len
    (by decide)
  have hw := command_word_len r0 USBASP_FUNC_WRITEFLASH addr (P % 256) (16 * (P / 256) + fl) len
    hlen
  have hd : P / 256 = 0 := Nat.div_eq_of_lt hP2
  have h4 : byte (command r0 USBASP_FUNC_WRITEFLASH addr (P % 256) (16 * (P / 256) + fl) len) 4
      = P := by
    simp [command, byte, u8]; omega
  have h5 : byte (command r0 USBASP_FUNC_WRITEFLASH addr (P % 256) (16 * (P / 256) + fl) len) 5
      = fl := by
    simp [command, byte, u8, hd]; omega
  have hu : u16 P = P := by unfold u16; omega
  have hu8 : u8 P = P := by unfold u8; omega
  obtain ⟨t1, t2, t3, t4, t5, t6⟩ := setup_writeflash_fields env
    (command r0 USBASP_FUNC_WRITEFLASH addr (P % 256) (16 * (P / 256) + fl) len) s hfn
  simp only [h4, h5, and_F0_of_lt_16 _ hfl, and_0F_of_lt_16 _ hfl, Nat.zero_shiftLeft,
    Nat.add_zero, hu, hu8] at t2 t3 t4
  exact ⟨t1, t2, t3, t4, by rw [t5, hw], t6⟩

theorem blockFlagsOf_lt (first last : Bool) : blockFlagsOf first last < 16 := by
  cases first <;> cases last <;> decide

theorem writeBlocks_flush_count (env : Env) (P : Nat) (hP : 0 < P) (hP2 : P < 256)
    (blocks : List (Nat × List (List Nat))) :
    ∀ (first : Bool) (s : State) (F K : Nat),
      (∀ blk ∈ blocks, 0 < totalLen blk.2 ∧ totalLen blk.2 < 65536) →
      blocks ≠ [] →
      (first = true → K = 0) →
      (first = false → s.prog_pagecounter = P - K % P) →
      (flushCalls s.trace).length = F + K / P →
      (flushCalls (writeBlocks env P first blocks s).trace).length
          = F + (K + streamLen blocks + P - 1) / P
      ∧ (writeBlocks env P first blocks s).prog_state = PROG_STATE_IDLE := by
  induction blocks with
  | nil => intro _ _ _ _ _ h; exact absurd rfl h
  | cons blk rest ih =>
    intro first s F K hlen _ hfirst hrestc hcount
    obtain ⟨hb1, hb2⟩ := hlen blk (List.mem_cons_self _ _)
    obtain ⟨t1, t2, t3, t4, t5, t6⟩ := setup_writeflash_paged env s 0 blk.1 P
      (blockFlagsOf first rest.isEmpty) (totalLen blk.2) hP2 (blockFlagsOf_lt _ _) hb2
    have hpc : (usbFunctionSetup env (command 0 USBASP_FUNC_WRITEFLASH blk.1 (P % 256)
        (16 * (P / 256) + blockFlagsOf first rest.isEmpty) (totalLen blk.2)) s).st.prog_pagecounter
        = P - K % P := by
      rw [t4]
      cases first with
      | true =>
        have hK := hfirst rfl
        subst hK
        cases hr : rest.isEmpty <;> simp [blockFlagsOf, PROG_BLOCKFLAG_FIRST, PROG_BLOCKFLAG_LAST]
      | false =>
        cases hr : rest.isEmpty <;>
          simp [blockFlagsOf, PROG_BLOCKFLAG_FIRST, PROG_BLOCKFLAG_LAST, hrestc rfl]
    have hinv : PagedInv P F K (blockFlagsOf first rest.isEmpty)
        (usbFunctionSetup env (command 0 USBASP_FUNC_WRITEFLASH blk.1 (P % 256)
          (16 * (P / 256) + blockFlagsOf first rest.isEmpty) (totalLen blk.2)) s).st :=
      ⟨t2, hpc, by rw [t1]; exact hcount, t3⟩
    obtain ⟨e1, e2, e3, e4, e5⟩ := writePackets_paged_block P F
      (blockFlagsOf first rest.isEmpty) hP hP2 blk.2 _ K hinv t6 t5 hb1 hb2
    rw [writeBlocks]
    cases rest with
    | nil =>
      simp only [writeBlocks, List.isEmpty_nil] at e3 e5 ⊢
      refine ⟨?_, e5⟩
      have hl : blockFlagsOf first true &&& PROG_BLOCKFLAG_LAST ≠ 0 := by
        cases first <;> decide
      rw [e3, ceil_div_page P _ hP]
      simp only [streamLen, List.map_cons, List.map_nil, List.sum_cons, List.sum_nil,
        Nat.add_zero]
      by_cases hm : (K + totalLen blk.2) % P = 0
      · simp [hm]
      · simp [hm, hl, Nat.add_assoc]
    | cons b2 rest2 =>
      simp only [List.isEmpty_cons] at e1 e2 e3 e4 e5 ⊢
      have hl : blockFlagsOf first false &&& PROG_BLOCKFLAG_LAST = 0 := by
        cases first <;> decide
      have hc2 : (flushCalls (writePackets blk.2
          (usbFunctionSetup env (command 0 USBASP_FUNC_WRITEFLASH blk.1 (P % 256)
            (16 * (P / 256) + blockFlagsOf first false) (totalLen blk.2)) s).st).2.trace).length
          = F + (K + totalLen blk.2) / P := by
        rw [e3]; simp [hl]
      obtain ⟨r1, r2⟩ := ih false _ F (K + totalLen blk.2)
        (fun b hb => hlen b (List.mem_cons_of_mem _ hb)) (by simp) (by simp)
        (fun _ => e2) hc2
      refine ⟨?_, r2⟩
      rw [r1]
      simp only [streamLen, List.map_cons, List.sum_cons]
      congr 2
      omega

/-- With a page size `P` in 1..255, streaming `N` payload bytes as one or more
non-empty write-memory-A blocks (FIRST on the first, LAST on the final one),
each delivered in packets of any sizes, issues exactly `ceil(N / P)` page
flushes and leaves the mode Idle. -/
theorem paged_flush_count (env : Env) (P : Nat) (hP : 0 < P) (hP2 : P < 256)
    (blocks : List (Nat × List (List Nat))) (s : State)
    (hlen : ∀ blk ∈ blocks, 0 < totalLen blk.2 ∧ totalLen blk.2 < 65536)
    (hne : blocks ≠ []) :
    (flushCalls (writeBlocks env P true blocks s).trace).length
        = (flushCalls s.trace).length + (streamLen blocks + P - 1) / P
    ∧ (writeBlocks env P true blocks s).prog_state = PROG_STATE_IDLE := by
  have h := writeBlocks_flush_count env P hP hP2 blocks true s (flushCalls s.trace).length 0
    hlen hne (fun _ => rfl) (by simp) (by simp)
  simpa using h

/-- C1 (the code at the failing inputs).  Page size 256 (low byte 0x00, high
nibble 1), one block of `N = 256` bytes with FIRST|LAST, delivered as 32
packets of 8 bytes: the page counter is armed with 0, two page flushes are
issued, where `ceil(256 / 256) = 1`, and the mode is Idle.  Page size 257,
one block of `N = 1` byte with FIRST|LAST: two page flushes are issued, where
`ceil(1 / 257) = 1`.  The 8-bit `prog_pagecounter` holds the page size
modulo 256. -/
theorem C1_failing_input :
    ((usbFunctionSetup Env.fixed [0, 6, 0, 0, 0x00, 0x13, 0x00, 0x01] State.init).st.prog_pagesize
        = 256
      ∧ (usbFunctionSetup Env.fixed [0, 6, 0, 0, 0x00, 0x13, 0x00, 0x01]
          State.init).st.prog_pagecounter = 0
      ∧ streamLen [(0, List.replicate 32 (List.replicate 8 0xAB))] = 256
      ∧ flushCalls (writeBlocks Env.fixed 256 true
          [(0, List.replicate 32 (List.replicate 8 0xAB))] State.init).trace
          = [(0xFF, 0xAB), (0xFF, 0xAB)]
      ∧ (writeBlocks Env.fixed 256 true
          [(0, List.replicate 32 (List.replicate 8 0xAB))] State.init).prog_state
          = PROG_STATE_IDLE
      ∧ (256 + 256 - 1) / 256 = 1)
    ∧ (streamLen [(0, [[0xAB]])] = 1
      ∧ (writeBlocks Env.fixed 257 true [(0, [[0xAB]])] State.init).prog_pagesize = 257
      ∧ flushCalls (writeBlocks Env.fixed 257 true [(0, [[0xAB]])] State.init).trace
          = [(0, 0xAB), (0, 0xAB)]
      ∧ (1 + 257 - 1) / 257 = 1) := by
  decide

/-! ## C11: unrecognised function ids -/

/-- C11: for every command record whose function id (byte 1) has no branch in
the dispatcher, and every prior state, `usbFunctionSetup` returns reply length
0, calls no collaborator (the trace is unchanged), and leaves the mode, the
address, the long-address flag, the remaining count, the page size, the page
counter, the block flags, the scratch position and the clock preference
unchanged: the state afterwards is the state before, with only the reply
pointer set. -/
theorem C11_unhandled_function (env : Env) (data : List Nat) (s : State)
    (hfn : byte data 1 ∉ handledFunctions) :
    (usbFunctionSetup env data s).len = 0
    ∧ (usbFunctionSetup env data s).st.trace = s.trace
    ∧ (usbFunctionSetup env data s).st.prog_state = s.prog_state
    ∧ (usbFunctionSetup env data s).st.prog_address = s.prog_address
    ∧ (usbFunctionSetup env data s).st.prog_address_newmode = s.prog_address_newmode
    ∧ (usbFunctionSetup env data s).st.prog_nbytes = s.prog_nbytes
    ∧ (usbFunctionSetup env data s).st.prog_pagesize = s.prog_pagesize
    ∧ (usbFunctionSetup env data s).st.prog_pagecounter = s.prog_pagecounter
    ∧ (usbFunctionSetup env data s).st.prog_blockflags = s.prog_blockflags
    ∧ (usbFunctionSetup env data s).st.prog_buf_pos = s.prog_buf_pos
    ∧ (usbFunctionSetup env data s).st.prog_sck = s.prog_sck
    ∧ (usbFunctionSetup env data s).st = { s with usbMsgPtr_replyBuffer := true } := by
  simp only [handledFunctions, List.mem_cons, List.mem_singleton, not_or, List.not_mem_nil,
    not_false_eq_true, and_true] at hfn
  obtain ⟨h1, h2, h3, h4, h5, h6, h7, h8, h9, h10, h11, h12, h13, h14, h15, h16, h17, h18, h19,
    h20, h21, h22, h23, h24, h25, h26, h27, h28⟩ := hfn
  simp [usbFunctionSetup, h1, h2, h3, h4, h5, h6, h7, h8, h9, h10, h11, h12, h13, h14, h15, h16,
    h17, h18, h19, h20, h21, h22, h23, h24, h25, h26, h27, h28]

/-- C11 at function id 99, from the power-up state. -/
theorem C11_unhandled_function_witness :
    (usbFunctionSetup Env.fixed [0, 99, 1, 2, 3, 4, 5, 6] State.init).len = 0
    ∧ (usbFunctionSetup Env.fixed [0, 99, 1, 2, 3, 4, 5, 6] State.init).st.trace
        = State.init.trace
    ∧ (usbFunctionSetup Env.fixed [0, 99, 1, 2, 3, 4, 5, 6] State.init).st.prog_sck
        = State.init.prog_sck :=
  have h := C11_unhandled_function Env.fixed [0, 99, 1, 2, 3, 4, 5, 6] State.init (by decide)
  ⟨h.1, h.2.1, h.2.2.2.2.2.2.2.2.2.2.1⟩

/-! ## C12: set-long-address -/

theorem ulongAt2_eq (data : List Nat) :
    ulongAt2 data
      = byte data 2 + 2 ^ 8 * byte data 3 + 2 ^ 16 * byte data 4 + 2 ^ 24 * byte data 5 := by
  simp only [ulongAt2, Nat.shiftLeft_eq]
  ring

theorem ulongAt2_lt (data : List Nat) : ulongAt2 data < 4294967296 := by
  have h2 := byte_lt data 2
  have h3 := byte_lt data 3
  have h4 := byte_lt data 4
  have h5 := byte_lt data 5
  rw [ulongAt2_eq]
  omega

/-- C12: for every command record with function id 9 and every prior state,
afterwards the address is byte2 + 2^8*byte3 + 2^16*byte4 + 2^24*byte5 (a 32-bit
value), the long-address flag is set, the reply length is 0, no collaborator
is called, and the mode, the remaining count, the page size, the page counter,
the block flags, the scratch position and the clock preference are unchanged;
the same command applied a second time yields the state of the first
application again. -/
theorem C12_set_long_address (env : Env) (data : List Nat) (s : State)
    (hfn : byte data 1 = USBASP_FUNC_SETLONGADDRESS) :
    (usbFunctionSetup env data s).len = 0
    ∧ (usbFunctionSetup env data s).st.prog_address
        = byte data 2 + 2 ^ 8 * byte data 3 + 2 ^ 16 * byte data 4 + 2 ^ 24 * byte data 5
    ∧ (usbFunctionSetup env data s).st.prog_address < 2 ^ 32
    ∧ (usbFunctionSetup env data s).st.prog_address_newmode = 1
    ∧ (usbFunctionSetup env data s).st.trace = s.trace
    ∧ (usbFunctionSetup env data s).st.prog_state = s.prog_state
    ∧ (usbFunctionSetup env data s).st.prog_nbytes = s.prog_nbytes
    ∧ (usbFunctionSetup env data s).st.prog_pagesize = s.prog_pagesize
    ∧ (usbFunctionSetup env data s).st.prog_pagecounter = s.prog_pagecounter
    ∧ (usbFunctionSetup env data s).st.prog_blockflags = s.prog_blockflags
    ∧ (usbFunctionSetup env data s).st.prog_buf_pos = s.prog_buf_pos
    ∧ (usbFunctionSetup env data s).st.prog_sck = s.prog_sck
    ∧ (usbFunctionSetup env data s).st
        = { s with prog_address_newmode := 1, prog_address := ulongAt2 data,
                   usbMsgPtr_replyBuffer := true }
    ∧ (usbFunctionSetup env data (usbFunctionSetup env data s).st).len = 0
    ∧ (usbFunctionSetup env data (usbFunctionSetup env data s).st).st
        = (usbFunctionSetup env data s).st := by
  have hlt := ulongAt2_lt data
  have heq := ulongAt2_eq data
  have hst : ∀ t : State, usbFunctionSetup env data t
      = ⟨0, { t with prog_address_newmode := 1, prog_address := ulongAt2 data,
                     usbMsgPtr_replyBuffer := true }⟩ := by
    intro t
    simp [usbFunctionSetup, hfn, USBASP_FUNC_SETLONGADDRESS, USBASP_FUNC_CONNECT,
      USBASP_FUNC_DISCONNECT, USBASP_FUNC_TRANSMIT, USBASP_FUNC_READFLASH,
      USBASP_FUNC_READEEPROM, USBASP_FUNC_ENABLEPROG, USBASP_FUNC_WRITEFLASH,
      USBASP_FUNC_WRITEEEPROM]
  rw [hst s, hst]
  refine ⟨rfl, heq, ?_, rfl, rfl, rfl, rfl, rfl, rfl, rfl, rfl, rfl, rfl, rfl, rfl⟩
  exact hlt

/-- C12 at the command with bytes 2..5 = 0x45, 0x23, 0x01, 0x00, from the
power-up state. -/
theorem C12_set_long_address_witness :
    byte [0, 9, 0x45, 0x23, 0x01, 0x00, 0, 0] 1 = USBASP_FUNC_SETLONGADDRESS
    ∧ (usbFunctionSetup Env.fixed [0, 9, 0x45, 0x23, 0x01, 0x00, 0, 0] State.init).st.prog_address
        = 0x12345
    ∧ (usbFunctionSetup Env.fixed [0, 9, 0x45, 0x23, 0x01, 0x00, 0, 0] State.init).st.prog_address_newmode
        = 1 :=
  have h := C12_set_long_address Env.fixed [0, 9, 0x45, 0x23, 0x01, 0x00, 0, 0] State.init
    (by decide)
  ⟨by decide, h.2.1.trans (by decide), h.2.2.2.1⟩

/-! ## C13: long-address mode -/

theorem ispReadLoop_newmode (env : Env) (n : Nat) (s : State) :
    (ispReadLoop env n s).2.prog_address_newmode = s.prog_address_newmode := by
  induction n generalizing s with
  | zero => rfl
  | succ n ih =>
    simp only [ispReadLoop]
    rw [ih]
    split <;> rfl

theorem uartRxLoop_newmode (len n rd : Nat) (s : State) :
    (uartRxLoop len n rd s).2.2.prog_address_newmode = s.prog_address_newmode := by
  induction n generalizing rd s with
  | zero => rfl
  | succ n ih =>
    simp only [uartRxLoop, uart_getc]
    cases h : s.uart_rx with
    | nil => simp [emit]
    | cons b rest => simp [ih, emit]

theorem usbFunctionRead_newmode (env : Env) (len : Nat) (s : State) :
    (usbFunctionRead env len s).st.prog_address_newmode = s.prog_address_newmode := by
  unfold usbFunctionRead
  simp only []
  split_ifs <;> simp [emit, pdiWaitNVM, ispReadLoop_newmode, uartRxLoop_newmode]

theorem ispWriteStep_newmode (acc : State × Nat) (d : Nat) :
    (ispWriteStep acc d).1.prog_address_newmode = acc.1.prog_address_newmode := by
  unfold ispWriteStep
  simp only []
  split_ifs <;> simp [emit]

theorem ispWrite_fold_newmode (data : List Nat) (acc : State × Nat) :
    (data.foldl ispWriteStep acc).1.prog_address_newmode = acc.1.prog_address_newmode := by
  induction data generalizing acc with
  | nil => rfl
  | cons d ds ih => rw [List.foldl_cons, ih, ispWriteStep_newmode]

theorem usbFunctionWrite_newmode (data : List Nat) (s : State)
    (_hin : scratchCopyInBounds s data) :
    (usbFunctionWrite data s).st.prog_address_newmode = s.prog_address_newmode := by
  unfold usbFunctionWrite
  simp only []
  split_ifs <;> simp [emit, pdiWaitNVM, ispWrite_fold_newmode]

theorem setup_newmode_sticky (env : Env) (data : List Nat) (s : State)
    (hfn : byte data 1 ≠ USBASP_FUNC_CONNECT) (hmode : s.prog_address_newmode ≠ 0) :
    (usbFunctionSetup env data s).st.prog_address_newmode ≠ 0 := by
  by_cases h : byte data 1 ∈ handledFunctions
  · simp only [handledFunctions, List.mem_cons, List.mem_singleton, List.not_mem_nil,
      or_false] at h
    rcases h with h | h | h | h | h | h | h | h | h | h | h | h | h | h | h | h | h | h | h | h
      | h | h | h | h | h | h | h | h
    · exact absurd h hfn
    all_goals
      simp [usbFunctionSetup, h, hmode, emit, USBASP_FUNC_CONNECT, USBASP_FUNC_DISCONNECT,
        USBASP_FUNC_TRANSMIT, USBASP_FUNC_READFLASH, USBASP_FUNC_READEEPROM,
        USBASP_FUNC_ENABLEPROG, USBASP_FUNC_WRITEFLASH, USBASP_FUNC_WRITEEEPROM,
        USBASP_FUNC_SETLONGADDRESS, USBASP_FUNC_SETISPSCK, USBASP_FUNC_TPI_CONNECT,
        USBASP_FUNC_TPI_DISCONNECT, USBASP_FUNC_TPI_RAWREAD, USBASP_FUNC_TPI_RAWWRITE,
        USBASP_FUNC_TPI_READBLOCK, USBASP_FUNC_TPI_WRITEBLOCK, USBASP_FUNC_PDI_CONNECT,
        USBASP_FUNC_PDI_DISCONNECT, USBASP_FUNC_PDI_SEND, USBASP_FUNC_PDI_READ,
        USBASP_FUNC_UART_CONFIG, USBASP_FUNC_UART_FLUSHTX, USBASP_FUNC_UART_FLUSHRX,
        USBASP_FUNC_UART_DISABLE, USBASP_FUNC_UART_TX, USBASP_FUNC_UART_RX,
        USBASP_FUNC_UART_TX_FREE, USBASP_FUNC_GETCAPABILITIES]
    all_goals (split_ifs <;> exact hmode)
  · have hst : (usbFunctionSetup env data s).st = { s with usbMsgPtr_replyBuffer := true } := by
      simp only [handledFunctions, List.mem_cons, List.mem_singleton, not_or, List.not_mem_nil,
        not_false_eq_true, and_true] at h
      obtain ⟨h1, h2, h3, h4, h5, h6, h7, h8, h9, h10, h11, h12, h13, h14, h15, h16, h17, h18,
        h19, h20, h21, h22, h23, h24, h25, h26, h27, h28⟩ := h
      simp [usbFunctionSetup, h1, h2, h3, h4, h5, h6, h7, h8, h9, h10, h11, h12, h13, h14, h15,
        h16, h17, h18, h19, h20, h21, h22, h23, h24, h25, h26, h27, h28]
    rw [hst]
    exact hmode


theorem setup_isp_arming_address (env : Env) (data : List Nat) (s : State)
    (hfn : byte data 1 ∈ ispArmingFunctions) :
    (usbFunctionSetup env data s).st.prog_address
        = (if s.prog_address_newmode = 0 then intToULong (word16 data 3 2) else s.prog_address)
    ∧ (usbFunctionSetup env data s).st.prog_address_newmode = s.prog_address_newmode := by
  simp only [ispArmingFunctions, List.mem_cons, List.mem_singleton, List.not_mem_nil,
    or_false] at hfn
  rcases hfn with h | h | h | h
  all_goals
    simp only [usbFunctionSetup, h, USBASP_FUNC_CONNECT, USBASP_FUNC_DISCONNECT,
      USBASP_FUNC_TRANSMIT, USBASP_FUNC_READFLASH, USBASP_FUNC_READEEPROM,
      USBASP_FUNC_ENABLEPROG, USBASP_FUNC_WRITEFLASH, USBASP_FUNC_WRITEEEPROM]
    simp only [reduceCtorEq, Nat.reduceEqDiff, if_false, if_true]
    split_ifs <;> exact ⟨rfl, rfl⟩

theorem setup_tpi_arming_address (env : Env) (data : List Nat) (s : State)
    (hfn : byte data 1 ∈ tpiArmingFunctions) :
    (usbFunctionSetup env data s).st.prog_address = intToULong (word16 data 3 2)
    ∧ (usbFunctionSetup env data s).st.prog_address_newmode = s.prog_address_newmode := by
  simp only [tpiArmingFunctions, List.mem_cons, List.mem_singleton, List.not_mem_nil,
    or_false] at hfn
  rcases hfn with h | h
  all_goals
    simp [usbFunctionSetup, h, USBASP_FUNC_CONNECT, USBASP_FUNC_DISCONNECT,
      USBASP_FUNC_TRANSMIT, USBASP_FUNC_READFLASH, USBASP_FUNC_READEEPROM,
      USBASP_FUNC_ENABLEPROG, USBASP_FUNC_WRITEFLASH, USBASP_FUNC_WRITEEEPROM,
      USBASP_FUNC_SETLONGADDRESS, USBASP_FUNC_SETISPSCK, USBASP_FUNC_TPI_CONNECT,
      USBASP_FUNC_TPI_DISCONNECT, USBASP_FUNC_TPI_RAWREAD, USBASP_FUNC_TPI_RAWWRITE,
      USBASP_FUNC_TPI_READBLOCK, USBASP_FUNC_TPI_WRITEBLOCK]

theorem setup_connect_newmode (env : Env) (data : List Nat) (s : State)
    (hfn : byte data 1 = USBASP_FUNC_CONNECT) :
    (usbFunctionSetup env data s).st.prog_address_newmode = 0 := by
  simp only [usbFunctionSetup, hfn, if_true]
  split_ifs <;> rfl

theorem setup_setlongaddress (env : Env) (data : List Nat) (s : State)
    (hfn : byte data 1 = USBASP_FUNC_SETLONGADDRESS) :
    usbFunctionSetup env data s
      = ⟨0, { s with prog_address_newmode := 1, prog_address := ulongAt2 data,
                     usbMsgPtr_replyBuffer := true }⟩ := by
  simp [usbFunctionSetup, hfn, USBASP_FUNC_SETLONGADDRESS, USBASP_FUNC_CONNECT,
    USBASP_FUNC_DISCONNECT, USBASP_FUNC_TRANSMIT, USBASP_FUNC_READFLASH,
    USBASP_FUNC_READEEPROM, USBASP_FUNC_ENABLEPROG, USBASP_FUNC_WRITEFLASH,
    USBASP_FUNC_WRITEEEPROM]

/-- C13 (as stated, refuted): after set-long-address has stored 0x12345, the
two-pin block-read command (function 15) with bytes 2..3 = 0x10, 0x00 sets the
address to 0x10, and so does the two-pin block-write command (function 16);
the long address is not kept. -/
theorem C13_counterexample :
    (usbFunctionSetup Env.fixed [0, 9, 0x45, 0x23, 0x01, 0x00, 0, 0] State.init).st.prog_address
        = 0x12345
    ∧ (usbFunctionSetup Env.fixed [0, 9, 0x45, 0x23, 0x01, 0x00, 0, 0]
          State.init).st.prog_address_newmode = 1
    ∧ (usbFunctionSetup Env.fixed [0, 15, 0x10, 0x00, 0, 0, 8, 0]
        (usbFunctionSetup Env.fixed [0, 9, 0x45, 0x23, 0x01, 0x00, 0, 0] State.init).st
        ).st.prog_address = 0x10
    ∧ (usbFunctionSetup Env.fixed [0, 16, 0x10, 0x00, 0, 0, 8, 0]
        (usbFunctionSetup Env.fixed [0, 9, 0x45, 0x23, 0x01, 0x00, 0, 0] State.init).st
        ).st.prog_address = 0x10 := by
  decide

/-- C13 (amended): long-address mode is sticky for the commands read-memory-A
(4), write-memory-A (6), read-memory-B (7) and write-memory-B (8).  Issued
right after a set-long-address command that stored `L`, each of them, with any
bytes 2..3, leaves the address equal to `L`; in every state with the
long-address flag set each of them leaves the address and the flag as they
are; the flag stays set across every command other than link connect
(function 1), across every `usbFunctionRead` call, and across every
`usbFunctionWrite` call whose copy stays inside the 128 bytes of the scratch
buffer.
The two-pin commands block-read (15) and block-write (16) do not test the
flag: in every state they take the address from bytes 2..3.  After a link
connect the flag is clear, and all six commands take the address from bytes
2..3 (the 16-bit `int` assembled from them, converted to `unsigned long`). -/
theorem C13_long_address_sticky (env : Env) (ldata data : List Nat) (s : State)
    (hlong : byte ldata 1 = USBASP_FUNC_SETLONGADDRESS) :
    (byte data 1 ∈ ispArmingFunctions →
        (usbFunctionSetup env data (usbFunctionSetup env ldata s).st).st.prog_address
          = ulongAt2 ldata)
    ∧ (∀ t : State, t.prog_address_newmode ≠ 0 → byte data 1 ∈ ispArmingFunctions →
        (usbFunctionSetup env data t).st.prog_address = t.prog_address
        ∧ (usbFunctionSetup env data t).st.prog_address_newmode = t.prog_address_newmode)
    ∧ (∀ t : State, t.prog_address_newmode ≠ 0 → byte data 1 ≠ USBASP_FUNC_CONNECT →
        (usbFunctionSetup env data t).st.prog_address_newmode ≠ 0)
    ∧ (∀ (t : State) (len : Nat),
        (usbFunctionRead env len t).st.prog_address_newmode = t.prog_address_newmode)
    ∧ (∀ (t : State) (chunk : List Nat), scratchCopyInBounds t chunk →
        (usbFunctionWrite chunk t).st.prog_address_newmode = t.prog_address_newmode)
    ∧ (∀ t : State, byte data 1 ∈ tpiArmingFunctions →
        (usbFunctionSetup env data t).st.prog_address = intToULong (word16 data 3 2))
    ∧ (∀ (t : State) (cdata : List Nat), byte cdata 1 = USBASP_FUNC_CONNECT →
        (usbFunctionSetup env cdata t).st.prog_address_newmode = 0
        ∧ (byte data 1 ∈ ispArmingFunctions ++ tpiArmingFunctions →
            (usbFunctionSetup env data (usbFunctionSetup env cdata t).st).st.prog_address
              = intToULong (word16 data 3 2))) := by
  refine ⟨?_, ?_, ?_, ?_, ?_, ?_, ?_⟩
  · intro hfn
    have h := (setup_isp_arming_address env data (usbFunctionSetup env ldata s).st hfn).1
    rw [h, setup_setlongaddress env ldata s hlong]
    simp
  · intro t ht hfn
    have h := setup_isp_arming_address env data t hfn
    rw [if_neg ht] at h
    exact h
  · intro t ht hfn
    exact setup_newmode_sticky env data t hfn ht
  · intro t len
    exact usbFunctionRead_newmode env len t
  · intro t chunk hin
    exact usbFunctionWrite_newmode chunk t hin
  · intro t hfn
    exact (setup_tpi_arming_address env data t hfn).1
  · intro t cdata hc
    have h0 := setup_connect_newmode env cdata t hc
    refine ⟨h0, ?_⟩
    intro hfn
    rw [List.mem_append] at hfn
    rcases hfn with hfn | hfn
    · have h := (setup_isp_arming_address env data (usbFunctionSetup env cdata t).st hfn).1
      rw [if_pos h0] at h
      exact h
    · exact (setup_tpi_arming_address env data (usbFunctionSetup env cdata t).st hfn).1

/-- C13 (amended) at set-long-address 0x12345 followed by read-memory-A with
bytes 2..3 = 0x10, 0x00, from the power-up state: the address stays 0x12345. -/
theorem C13_long_address_sticky_witness :
    byte [0, 9, 0x45, 0x23, 0x01, 0x00, 0, 0] 1 = USBASP_FUNC_SETLONGADDRESS
    ∧ (usbFunctionSetup Env.fixed [0, 4, 0x10, 0x00, 0, 0, 8, 0]
        (usbFunctionSetup Env.fixed [0, 9, 0x45, 0x23, 0x01, 0x00, 0, 0] State.init).st
        ).st.prog_address = 0x12345 :=
  ⟨by decide,
   ((C13_long_address_sticky Env.fixed [0, 9, 0x45, 0x23, 0x01, 0x00, 0, 0]
      [0, 4, 0x10, 0x00, 0, 0, 8, 0] State.init (by decide)).1 (by decide)).trans (by decide)⟩

/-! ## C14: arming a read with a 16-bit address -/

theorem intToULong_word16 (data : List Nat) :
    intToULong (word16 data 3 2)
      = if byte data 3 < 128 then byte data 2 + 256 * byte data 3
        else 0xFFFF0000 + (byte data 2 + 256 * byte data 3) := by
  have h2 := byte_lt data 2
  have h3 := byte_lt data 3
  have hw := word16_eq data 3 2
  unfold intToULong u16
  rw [hw]
  split_ifs <;> omega

/-- The read-memory-A and read-memory-B commands with the long-address flag
clear: the fields after the command. -/
theorem setup_read_arming (env : Env) (data : List Nat) (s : State)
    (hfn : byte data 1 = USBASP_FUNC_READFLASH ∨ byte data 1 = USBASP_FUNC_READEEPROM)
    (hnew : s.prog_address_newmode = 0) :
    (usbFunctionSetup env data s).len = env.USB_NO_MSG
    ∧ (usbFunctionSetup env data s).st.prog_address
        = (if byte data 3 < 128 then byte data 2 + 256 * byte data 3
           else 0xFFFF0000 + (byte data 2 + 256 * byte data 3))
    ∧ (usbFunctionSetup env data s).st.prog_nbytes = byte data 6 + 256 * byte data 7
    ∧ (usbFunctionSetup env data s).st.prog_state
        = (if byte data 1 = USBASP_FUNC_READFLASH then PROG_STATE_READFLASH
           else PROG_STATE_READEEPROM)
    ∧ (usbFunctionSetup env data s).st.replyBuffer = s.replyBuffer
    ∧ (usbFunctionSetup env data s).st.trace = s.trace := by
  have ha := intToULong_word16 data
  have hn := word16_eq data 7 6
  rcases hfn with h | h
  · have hl : (usbFunctionSetup env data s).len = env.USB_NO_MSG := by
      simp [usbFunctionSetup, h, USBASP_FUNC_CONNECT, USBASP_FUNC_DISCONNECT,
        USBASP_FUNC_TRANSMIT, USBASP_FUNC_READFLASH]
    rw [hl, setup_readflash env data s h hnew, if_pos h]
    exact ⟨rfl, ha, hn.trans (by omega), rfl, rfl, rfl⟩
  · have hl : (usbFunctionSetup env data s).len = env.USB_NO_MSG := by
      simp [usbFunctionSetup, h, USBASP_FUNC_CONNECT, USBASP_FUNC_DISCONNECT,
        USBASP_FUNC_TRANSMIT, USBASP_FUNC_READFLASH, USBASP_FUNC_READEEPROM]
    have hne : ¬ byte data 1 = USBASP_FUNC_READFLASH := by
      rw [h]; decide
    rw [hl, setup_readeeprom env data s h hnew, if_neg hne]
    exact ⟨rfl, ha, hn.trans (by omega), rfl, rfl, rfl⟩

/-- C14 (the code at the failing input).  From the power-up state (long-address
flag clear), the read-memory-A command with bytes 2, 3 = 0x00, 0x80 and bytes
6, 7 = 8, 0 leaves the address 0xFFFF8000, where byte2 + 256*byte3 = 0x8000;
the read-memory-B command with the same bytes does the same.  The 16-bit `int`
`(data[3] << 8) | data[2]` is negative when bit 7 of byte 3 is set and is
sign-extended by the assignment to the 32-bit `prog_address`.  The remaining
count, the mode and the returned code are as claimed. -/
theorem C14_failing_input :
    State.init.prog_address_newmode = 0
    ∧ (usbFunctionSetup Env.fixed [0, 4, 0x00, 0x80, 0, 0, 8, 0] State.init).st.prog_address
        = 0xFFFF8000
    ∧ (usbFunctionSetup Env.fixed [0, 7, 0x00, 0x80, 0, 0, 8, 0] State.init).st.prog_address
        = 0xFFFF8000
    ∧ byte [0, 4, 0x00, 0x80, 0, 0, 8, 0] 2 + 256 * byte [0, 4, 0x00, 0x80, 0, 0, 8, 0] 3
        = 0x8000
    ∧ ¬ (usbFunctionSetup Env.fixed [0, 4, 0x00, 0x80, 0, 0, 8, 0] State.init).st.prog_address
        ≤ 65535
    ∧ (usbFunctionSetup Env.fixed [0, 4, 0x00, 0x80, 0, 0, 8, 0] State.init).st.prog_nbytes = 8
    ∧ (usbFunctionSetup Env.fixed [0, 4, 0x00, 0x80, 0, 0, 8, 0] State.init).st.prog_state
        = PROG_STATE_READFLASH
    ∧ (usbFunctionSetup Env.fixed [0, 4, 0x00, 0x80, 0, 0, 8, 0] State.init).len
        = Env.fixed.USB_NO_MSG := by
  decide

/-! ## C15: arming a write -/

theorem pagesize_high_nibble : ∀ x : Nat, x < 256 → (x &&& 0xF0) <<< 4 = 256 * (x >>> 4) := by
  decide

theorem first_flag_bit0 :
    ∀ x : Nat, x < 256 → ((x &&& 0x0F) &&& PROG_BLOCKFLAG_FIRST ≠ 0 ↔ x % 2 = 1) := by
  decide

theorem shiftRight4_lt : ∀ x : Nat, x < 256 → x >>> 4 < 16 := by
  decide

/-- The write-memory-A command: the fields after the command, for every state.
The page counter armed by FIRST is the page size reduced to the 8 bits of
`prog_pagecounter`. -/
theorem setup_write_arming (env : Env) (data : List Nat) (s : State)
    (hfn : byte data 1 = USBASP_FUNC_WRITEFLASH) :
    (usbFunctionSetup env data s).len = env.USB_NO_MSG
    ∧ (usbFunctionSetup env data s).st.prog_pagesize = byte data 4 + 256 * (byte data 5 >>> 4)
    ∧ (usbFunctionSetup env data s).st.prog_pagesize ≤ 4095
    ∧ (usbFunctionSetup env data s).st.prog_blockflags = byte data 5 &&& 0x0F
    ∧ (usbFunctionSetup env data s).st.prog_nbytes = byte data 6 + 256 * byte data 7
    ∧ (usbFunctionSetup env data s).st.prog_state = PROG_STATE_WRITEFLASH
    ∧ (byte data 5 % 2 = 1 →
        (usbFunctionSetup env data s).st.prog_pagecounter
          = (usbFunctionSetup env data s).st.prog_pagesize % 256)
    ∧ (byte data 5 % 2 = 1 → (usbFunctionSetup env data s).st.prog_pagesize ≤ 255 →
        (usbFunctionSetup env data s).st.prog_pagecounter
          = (usbFunctionSetup env data s).st.prog_pagesize)
    ∧ (byte data 5 % 2 = 0 →
        (usbFunctionSetup env data s).st.prog_pagecounter = s.prog_pagecounter) := by
  have h4 := byte_lt data 4
  have h5 := byte_lt data 5
  have hn := word16_eq data 7 6
  have hhi := pagesize_high_nibble (byte data 5) h5
  have hsh := shiftRight4_lt (byte data 5) h5
  have hff := first_flag_bit0 (byte data 5) h5
  have hl : (usbFunctionSetup env data s).len = env.USB_NO_MSG := by
    simp [usbFunctionSetup, hfn, USBASP_FUNC_CONNECT, USBASP_FUNC_DISCONNECT,
      USBASP_FUNC_TRANSMIT, USBASP_FUNC_READFLASH, USBASP_FUNC_ENABLEPROG,
      USBASP_FUNC_WRITEFLASH, USBASP_FUNC_READEEPROM]
  obtain ⟨-, hps, hbf, hpc, hnb, hst⟩ := setup_writeflash_fields env data s hfn
  have hps2 : (usbFunctionSetup env data s).st.prog_pagesize
      = byte data 4 + 256 * (byte data 5 >>> 4) := by
    rw [hps, hhi]
    unfold u16
    omega
  refine ⟨hl, hps2, by omega, hbf, hnb.trans (hn.trans (by omega)), hst, ?_, ?_, ?_⟩
  · intro hb
    rw [hpc, if_pos (hff.mpr hb), ← hps]
    rfl
  · intro hb hle
    rw [hpc, if_pos (hff.mpr hb), ← hps]
    unfold u8
    omega
  · intro hb
    have hnf : ¬ ((byte data 5 &&& 0x0F) &&& PROG_BLOCKFLAG_FIRST ≠ 0) := by
      rw [hff]; omega
    rw [hpc, if_neg hnf]

/-- The write-memory-B command: page size and block flags are 0 afterwards. -/
theorem setup_writeeeprom_paging (env : Env) (data : List Nat) (s : State)
    (hfn : byte data 1 = USBASP_FUNC_WRITEEEPROM) :
    (usbFunctionSetup env data s).st.prog_pagesize = 0
    ∧ (usbFunctionSetup env data s).st.prog_blockflags = 0
    ∧ (usbFunctionSetup env data s).st.prog_pagecounter = s.prog_pagecounter := by
  by_cases hnm : s.prog_address_newmode = 0
  · simp [usbFunctionSetup, hfn, hnm, USBASP_FUNC_CONNECT,
      USBASP_FUNC_DISCONNECT, USBASP_FUNC_TRANSMIT, USBASP_FUNC_READFLASH,
      USBASP_FUNC_ENABLEPROG, USBASP_FUNC_WRITEFLASH, USBASP_FUNC_READEEPROM,
      USBASP_FUNC_WRITEEEPROM]
  · simp [usbFunctionSetup, hfn, hnm, USBASP_FUNC_CONNECT,
      USBASP_FUNC_DISCONNECT, USBASP_FUNC_TRANSMIT, USBASP_FUNC_READFLASH,
      USBASP_FUNC_ENABLEPROG, USBASP_FUNC_WRITEFLASH, USBASP_FUNC_READEEPROM,
      USBASP_FUNC_WRITEEEPROM]

/-- C15 (the code at the failing input).  The write-memory-A command with
byte 4 = 0x00 and byte 5 = 0x11 (page-size high nibble 1, FIRST set), from the
power-up state: the page size is 0 + 256 * (0x11 >> 4) = 256 and the page
counter is 0, not the page size.  With byte 4 = 0x2C the page size is 300 and
the page counter is 44.  The 8-bit `prog_pagecounter` keeps the page size
modulo 256.  Block flags, remaining count, mode and returned code are as
claimed. -/
theorem C15_failing_input :
    (usbFunctionSetup Env.fixed [0, 6, 0, 0, 0x00, 0x11, 8, 0] State.init).st.prog_pagesize = 256
    ∧ byte [0, 6, 0, 0, 0x00, 0x11, 8, 0] 5 &&& PROG_BLOCKFLAG_FIRST = 1
    ∧ (usbFunctionSetup Env.fixed [0, 6, 0, 0, 0x00, 0x11, 8, 0] State.init).st.prog_pagecounter
        = 0
    ∧ (usbFunctionSetup Env.fixed [0, 6, 0, 0, 0x2C, 0x11, 8, 0] State.init).st.prog_pagesize
        = 300
    ∧ (usbFunctionSetup Env.fixed [0, 6, 0, 0, 0x2C, 0x11, 8, 0] State.init).st.prog_pagecounter
        = 44
    ∧ (usbFunctionSetup Env.fixed [0, 6, 0, 0, 0x00, 0x11, 8, 0] State.init).st.prog_blockflags
        = 1
    ∧ (usbFunctionSetup Env.fixed [0, 6, 0, 0, 0x00, 0x11, 8, 0] State.init).st.prog_nbytes = 8
    ∧ (usbFunctionSetup Env.fixed [0, 6, 0, 0, 0x00, 0x11, 8, 0] State.init).st.prog_state
        = PROG_STATE_WRITEFLASH
    ∧ (usbFunctionSetup Env.fixed [0, 6, 0, 0, 0x00, 0x11, 8, 0] State.init).len
        = Env.fixed.USB_NO_MSG := by
  decide

/-! ## C16: chunks longer than the transfer unit -/

theorem ispReadLoop_trace_length (env : Env) (n : Nat) (s : State) :
    (ispReadLoop env n s).2.trace.length = s.trace.length + n := by
  induction n generalizing s with
  | zero => rfl
  | succ n ih =>
    simp only [ispReadLoop]
    rw [ih]
    split <;> simp [emit] <;> omega

theorem ispReadLoop_data_length (env : Env) (n : Nat) (s : State) :
    (ispReadLoop env n s).1.length = n := by
  induction n generalizing s with
  | zero => rfl
  | succ n ih =>
    simp only [ispReadLoop, List.length_cons]
    rw [ih]

theorem uartRxLoop_trace_le (len n rd : Nat) (s : State) :
    s.trace.length ≤ (uartRxLoop len n rd s).2.2.trace.length := by
  induction n generalizing rd s with
  | zero => exact Nat.le_refl _
  | succ n ih =>
    simp only [uartRxLoop, uart_getc]
    cases h : s.uart_rx with
    | nil => simp [emit]
    | cons b rest =>
      simp only []
      refine Nat.le_trans ?_ (ih _ _)
      simp [emit]

theorem usbFunctionRead_isp (env : Env) (len : Nat) (s : State)
    (hmode : s.prog_state = PROG_STATE_READFLASH ∨ s.prog_state = PROG_STATE_READEEPROM) :
    usbFunctionRead env len s
      = ⟨len, (ispReadLoop env len s).1,
         if len < 8 then { (ispReadLoop env len s).2 with prog_state := PROG_STATE_IDLE }
         else (ispReadLoop env len s).2⟩ := by
  rcases hmode with h | h <;>
    simp [usbFunctionRead, h, PROG_STATE_READFLASH, PROG_STATE_READEEPROM, PROG_STATE_TPI_READ,
      PROG_STATE_UART_RX, PROG_STATE_PDI_READ]

theorem usbFunctionRead_trace_lt (env : Env) (len : Nat) (s : State) (hlen : 0 < len)
    (hmode : isReadMode s.prog_state) :
    s.trace.length < (usbFunctionRead env len s).st.trace.length := by
  simp only [isReadMode] at hmode
  rcases hmode with h | h | h | h | h
  · rw [usbFunctionRead_isp env len s (Or.inl h)]
    have := ispReadLoop_trace_length env len s
    simp only []
    split_ifs <;> simp only [this] <;> omega
  · rw [usbFunctionRead_isp env len s (Or.inr h)]
    have := ispReadLoop_trace_length env len s
    simp only []
    split_ifs <;> simp only [this] <;> omega
  · simp [usbFunctionRead, h, emit]
  · simp only [usbFunctionRead, h, PROG_STATE_PDI_READ, PROG_STATE_TPI_READ, PROG_STATE_UART_RX]
    simp only [Nat.reduceEqDiff, if_false, if_true]
    split_ifs <;> simp [emit, pdiWaitNVM]
  · have := uartRxLoop_trace_le len len 0 s
    simp only [usbFunctionRead, h, PROG_STATE_TPI_READ, PROG_STATE_UART_RX]
    simp only [Nat.reduceEqDiff, if_false, if_true]
    split_ifs <;> simp [emit] <;> omega

theorem ispWriteStep_ret_le (acc : State × Nat) (d : Nat) (h : acc.2 ≤ 1) :
    (ispWriteStep acc d).2 ≤ 1 := by
  unfold ispWriteStep
  simp only []
  split_ifs <;> simp [h]

theorem ispWriteStep_trace_lt (acc : State × Nat) (d : Nat) :
    acc.1.trace.length < (ispWriteStep acc d).1.trace.length := by
  unfold ispWriteStep
  simp only []
  split_ifs <;> simp [emit]

theorem ispWrite_fold_ret_le (data : List Nat) (acc : State × Nat) (h : acc.2 ≤ 1) :
    (data.foldl ispWriteStep acc).2 ≤ 1 := by
  induction data generalizing acc with
  | nil => exact h
  | cons d ds ih => rw [List.foldl_cons]; exact ih _ (ispWriteStep_ret_le acc d h)

theorem ispWrite_fold_trace_le (data : List Nat) (acc : State × Nat) :
    acc.1.trace.length + data.length ≤ (data.foldl ispWriteStep acc).1.trace.length := by
  induction data generalizing acc with
  | nil => exact Nat.le_refl _
  | cons d ds ih =>
    rw [List.foldl_cons, List.length_cons]
    have h1 := ih (ispWriteStep acc d)
    have h2 := ispWriteStep_trace_lt acc d
    omega

theorem usbFunctionWrite_isp (data : List Nat) (s : State)
    (hmode : s.prog_state = PROG_STATE_WRITEFLASH ∨ s.prog_state = PROG_STATE_WRITEEEPROM) :
    usbFunctionWrite data s
      = ⟨(data.foldl ispWriteStep (s, 0)).2, (data.foldl ispWriteStep (s, 0)).1⟩ := by
  rcases hmode with h | h <;>
    simp [usbFunctionWrite, h, PROG_STATE_WRITEFLASH, PROG_STATE_WRITEEEPROM,
      PROG_STATE_TPI_WRITE, PROG_STATE_UART_TX, PROG_STATE_PDI_SEND]

theorem usbFunctionWrite_ret_le (data : List Nat) (s : State)
    (hmode : isWriteMode s.prog_state) : (usbFunctionWrite data s).ret ≤ 1 := by
  simp only [isWriteMode] at hmode
  rcases hmode with h | h | h | h | h
  · rw [usbFunctionWrite_isp data s (Or.inl h)]
    exact ispWrite_fold_ret_le data (s, 0) (by simp)
  · rw [usbFunctionWrite_isp data s (Or.inr h)]
    exact ispWrite_fold_ret_le data (s, 0) (by simp)
  · simp only [usbFunctionWrite, h, if_true]
    split_ifs <;> simp
  · simp only [usbFunctionWrite, h, PROG_STATE_PDI_SEND, PROG_STATE_TPI_WRITE,
      PROG_STATE_UART_TX]
    simp only [Nat.reduceEqDiff, if_false, if_true]
    split_ifs <;> simp
  · simp only [usbFunctionWrite, h, PROG_STATE_TPI_WRITE, PROG_STATE_UART_TX]
    simp only [Nat.reduceEqDiff, if_false, if_true]
    split_ifs <;> simp

theorem usbFunctionWrite_trace_lt (data : List Nat) (s : State) (hlen : 0 < data.length)
    (hmode : isWriteMode s.prog_state) (hpdi : s.prog_state ≠ PROG_STATE_PDI_SEND) :
    s.trace.length < (usbFunctionWrite data s).st.trace.length := by
  simp only [isWriteMode] at hmode
  rcases hmode with h | h | h | h | h
  · rw [usbFunctionWrite_isp data s (Or.inl h)]
    have := ispWrite_fold_trace_le data (s, 0)
    simp only [] at this ⊢
    omega
  · rw [usbFunctionWrite_isp data s (Or.inr h)]
    have := ispWrite_fold_trace_le data (s, 0)
    simp only [] at this ⊢
    omega
  · simp only [usbFunctionWrite, h, if_true]
    split_ifs <;> simp [emit]
  · exact absurd h hpdi
  · have hne : data.length ≠ 0 := by omega
    simp only [usbFunctionWrite, h, PROG_STATE_TPI_WRITE, PROG_STATE_UART_TX]
    simp only [Nat.reduceEqDiff, if_false, if_true]
    split_ifs <;> simp [emit]

/-- C16 (as stated, refuted): armed for a flash read, a `usbFunctionRead` call
for 9 bytes returns 9, not 0xFF, and issues nine `ispReadFlash` calls at the
addresses 0..8; armed for an EEPROM write of 9 bytes, a `usbFunctionWrite`
call with a 9-byte chunk returns 1, not 0xFF, issues nine `ispWriteEEPROM`
calls and leaves the mode Idle. -/
theorem C16_counterexample :
    (usbFunctionRead Env.fixed 9
        (usbFunctionSetup Env.fixed [0, 4, 0, 0, 0, 0, 9, 0] State.init).st).ret = 9
    ∧ (usbFunctionRead Env.fixed 9
        (usbFunctionSetup Env.fixed [0, 4, 0, 0, 0, 0, 9, 0] State.init).st).st.trace
        = (List.range 9).map Event.ispReadFlash
    ∧ (usbFunctionRead Env.fixed 9
        (usbFunctionSetup Env.fixed [0, 4, 0, 0, 0, 0, 9, 0] State.init).st).st.prog_address = 9
    ∧ (usbFunctionWrite [1, 2, 3, 4, 5, 6, 7, 8, 9]
        (usbFunctionSetup Env.fixed [0, 8, 0, 0, 0, 0, 9, 0] State.init).st).ret = 1
    ∧ (usbFunctionWrite [1, 2, 3, 4, 5, 6, 7, 8, 9]
        (usbFunctionSetup Env.fixed [0, 8, 0, 0, 0, 0, 9, 0] State.init).st).st.trace
        = (List.range 9).map (fun i => Event.ispWriteEEPROM i (i + 1))
    ∧ (usbFunctionWrite [1, 2, 3, 4, 5, 6, 7, 8, 9]
        (usbFunctionSetup Env.fixed [0, 8, 0, 0, 0, 0, 9, 0] State.init).st).st.prog_state
        = PROG_STATE_IDLE := by
  decide

/-- C16 (amended): `usbFunctionRead` and `usbFunctionWrite` do not check the
chunk length.  For every call whose chunk length is greater than 8: the call
returns the error sentinel 0xFF with the state unchanged exactly when the mode
is not a read mode (resp. not a write mode), as for every other chunk length.
In a read mode `usbFunctionRead` calls the backend (the record of collaborator
calls grows); in flash or EEPROM read mode it issues one byte read per
requested byte, returns the requested length with that many bytes, and leaves
the mode unchanged.  In a write mode `usbFunctionWrite` returns 0 or 1, and in
every write mode other than accumulate-then-commit it calls the backend. -/
theorem C16_long_chunk (env : Env) (len : Nat) (data : List Nat) (s : State)
    (hlen : 8 < len) (hdata : 8 < data.length) :
    (isReadMode s.prog_state → s.trace.length < (usbFunctionRead env len s).st.trace.length)
    ∧ (s.prog_state = PROG_STATE_READFLASH ∨ s.prog_state = PROG_STATE_READEEPROM →
        (usbFunctionRead env len s).ret = len
        ∧ (usbFunctionRead env len s).data.length = len
        ∧ (usbFunctionRead env len s).st.trace.length = s.trace.length + len
        ∧ (usbFunctionRead env len s).st.prog_state = s.prog_state)
    ∧ (((usbFunctionRead env len s).ret = 0xFF ∧ (usbFunctionRead env len s).st = s)
        ↔ ¬ isReadMode s.prog_state)
    ∧ (isWriteMode s.prog_state → (usbFunctionWrite data s).ret ≤ 1)
    ∧ (isWriteMode s.prog_state → s.prog_state ≠ PROG_STATE_PDI_SEND →
        s.trace.length < (usbFunctionWrite data s).st.trace.length)
    ∧ (((usbFunctionWrite data s).ret = 0xFF ∧ (usbFunctionWrite data s).st = s)
        ↔ ¬ isWriteMode s.prog_state) := by
  refine ⟨?_, ?_, ?_, ?_, ?_, ?_⟩
  · intro hm
    exact usbFunctionRead_trace_lt env len s (by omega) hm
  · intro hm
    have hge : ¬ len < 8 := by omega
    rw [usbFunctionRead_isp env len s hm, if_neg hge]
    exact ⟨rfl, ispReadLoop_data_length env len s, ispReadLoop_trace_length env len s,
      ispReadLoop_prog_state env len s⟩
  · constructor
    · intro h hm
      have hlt := usbFunctionRead_trace_lt env len s (by omega) hm
      rw [h.2] at hlt
      exact Nat.lt_irrefl _ hlt
    · intro hm
      simp only [isReadMode, not_or] at hm
      obtain ⟨h1, h2, h3, h4, h5⟩ := hm
      simp [usbFunctionRead, h1, h2, h3, h4, h5]
  · intro hm
    exact usbFunctionWrite_ret_le data s hm
  · intro hm hp
    exact usbFunctionWrite_trace_lt data s (by omega) hm hp
  · constructor
    · intro h hm
      have hle := usbFunctionWrite_ret_le data s hm
      rw [h.1] at hle
      omega
    · intro hm
      simp only [isWriteMode, not_or] at hm
      obtain ⟨h1, h2, h3, h4, h5⟩ := hm
      simp [usbFunctionWrite, h1, h2, h3, h4, h5]

/-- C16 (amended) at a 9-byte read in flash read mode and a 9-byte chunk. -/
theorem C16_long_chunk_witness :
    8 < 9 ∧ 8 < [1, 2, 3, 4, 5, 6, 7, 8, 9].length
    ∧ (usbFunctionRead Env.fixed 9 (State.inMode PROG_STATE_READFLASH)).ret = 9
    ∧ (usbFunctionRead Env.fixed 9 (State.inMode PROG_STATE_READFLASH)).st.trace.length
        = (State.inMode PROG_STATE_READFLASH).trace.length + 9 :=
  have h := (C16_long_chunk Env.fixed 9 [1, 2, 3, 4, 5, 6, 7, 8, 9]
    (State.inMode PROG_STATE_READFLASH) (by decide) (by decide)).2.1 (Or.inl rfl)
  ⟨by decide, by decide, h.1, h.2.2.1⟩

/-! ## C18: the clock option at link connect -/

theorem setup_setispsck (env : Env) (data : List Nat) (s : State)
    (hfn : byte data 1 = USBASP_FUNC_SETISPSCK) :
    usbFunctionSetup env data s
      = ⟨1, { s with prog_sck := byte data 2, replyBuffer := store s.replyBuffer 0 0,
                     usbMsgPtr_replyBuffer := true }⟩ := by
  simp [usbFunctionSetup, hfn, USBASP_FUNC_SETISPSCK, USBASP_FUNC_SETLONGADDRESS,
    USBASP_FUNC_CONNECT, USBASP_FUNC_DISCONNECT, USBASP_FUNC_TRANSMIT, USBASP_FUNC_READFLASH,
    USBASP_FUNC_READEEPROM, USBASP_FUNC_ENABLEPROG, USBASP_FUNC_WRITEFLASH,
    USBASP_FUNC_WRITEEEPROM]

theorem setup_connect_trace (env : Env) (data : List Nat) (s : State)
    (hfn : byte data 1 = USBASP_FUNC_CONNECT) :
    (usbFunctionSetup env data s).st.trace
      = s.trace ++ [Event.uart_disable, Event.read_PINC,
          Event.ispSetSCKOption
            (if env.PINC (s.trace ++ [Event.uart_disable]) &&& (1 <<< env.PC2) = 0
             then USBASP_ISP_SCK_8 else s.prog_sck),
          Event.ledRedOn, Event.ispConnect] := by
  have he : (emit Event.uart_disable s).trace = s.trace ++ [Event.uart_disable] := rfl
  simp only [usbFunctionSetup, hfn, if_true, he]
  split_ifs <;> simp [emit]

/-- C18 (as stated, refuted): with the stored preference 12 (set by function
10) and the override pin reading low, link connect hands the clock option 5
(`USBASP_ISP_SCK_8`, 8 kHz) to `ispSetSCKOption`, not the slowest level of the
scale, which is code 1 (`USBASP_ISP_SCK_0_5`, 500 Hz). -/
theorem C18_counterexample :
    Env.pinLow.PINC [Event.uart_disable] &&& (1 <<< Env.pinLow.PC2) = 0
    ∧ (usbFunctionSetup Env.pinLow [0, 10, 12, 0, 0, 0, 0, 0] State.init).st.prog_sck = 12
    ∧ sckOptionCalls (usbFunctionSetup Env.pinLow [0, 1, 0, 0, 0, 0, 0, 0]
        (usbFunctionSetup Env.pinLow [0, 10, 12, 0, 0, 0, 0, 0] State.init).st).st.trace = [5]
    ∧ USBASP_ISP_SCK_0_5 = 1 := by
  decide

/-- C18 (amended): set-clock-speed (function 10) stores byte 2 as the clock
preference and replies with the single byte 0, calling no collaborator.  On
link connect (function 1), for every stored preference `p`: the collaborator
calls are `uart_disable`, the pin read, one `ispSetSCKOption`, `ledRedOn`,
`ispConnect`; if the override pin PC2 reads low the option handed to
`ispSetSCKOption` is `USBASP_ISP_SCK_8` (code 5, the 8 kHz level) regardless
of `p`, and if the pin reads high it is exactly `p`. -/
theorem C18_connect_clock (env : Env) (sdata cdata : List Nat) (s : State)
    (hset : byte sdata 1 = USBASP_FUNC_SETISPSCK)
    (hcon : byte cdata 1 = USBASP_FUNC_CONNECT) :
    (usbFunctionSetup env sdata s).len = 1
    ∧ (usbFunctionSetup env sdata s).st.replyBuffer 0 = 0
    ∧ (usbFunctionSetup env sdata s).st.prog_sck = byte sdata 2
    ∧ (usbFunctionSetup env sdata s).st.trace = s.trace
    ∧ (∀ t : State,
        (usbFunctionSetup env cdata t).st.trace
          = t.trace ++ [Event.uart_disable, Event.read_PINC,
              Event.ispSetSCKOption
                (if env.PINC (t.trace ++ [Event.uart_disable]) &&& (1 <<< env.PC2) = 0
                 then USBASP_ISP_SCK_8 else t.prog_sck),
              Event.ledRedOn, Event.ispConnect]
        ∧ (env.PINC (t.trace ++ [Event.uart_disable]) &&& (1 <<< env.PC2) = 0 →
            sckOptionCalls (usbFunctionSetup env cdata t).st.trace
              = sckOptionCalls t.trace ++ [5])
        ∧ (env.PINC (t.trace ++ [Event.uart_disable]) &&& (1 <<< env.PC2) ≠ 0 →
            sckOptionCalls (usbFunctionSetup env cdata t).st.trace
              = sckOptionCalls t.trace ++ [t.prog_sck]))
    ∧ (env.PINC (s.trace ++ [Event.uart_disable]) &&& (1 <<< env.PC2) ≠ 0 →
        sckOptionCalls (usbFunctionSetup env cdata (usbFunctionSetup env sdata s).st).st.trace
          = sckOptionCalls s.trace ++ [byte sdata 2]) := by
  have hc : ∀ t : State,
      (usbFunctionSetup env cdata t).st.trace
          = t.trace ++ [Event.uart_disable, Event.read_PINC,
              Event.ispSetSCKOption
                (if env.PINC (t.trace ++ [Event.uart_disable]) &&& (1 <<< env.PC2) = 0
                 then USBASP_ISP_SCK_8 else t.prog_sck),
              Event.ledRedOn, Event.ispConnect]
        ∧ (env.PINC (t.trace ++ [Event.uart_disable]) &&& (1 <<< env.PC2) = 0 →
            sckOptionCalls (usbFunctionSetup env cdata t).st.trace
              = sckOptionCalls t.trace ++ [5])
        ∧ (env.PINC (t.trace ++ [Event.uart_disable]) &&& (1 <<< env.PC2) ≠ 0 →
            sckOptionCalls (usbFunctionSetup env cdata t).st.trace
              = sckOptionCalls t.trace ++ [t.prog_sck]) := by
    intro t
    have ht := setup_connect_trace env cdata t hcon
    refine ⟨ht, ?_, ?_⟩
    · intro hp
      rw [ht, if_pos hp]
      simp [sckOptionCalls, List.filterMap_append, USBASP_ISP_SCK_8]
    · intro hp
      rw [ht, if_neg hp]
      simp [sckOptionCalls, List.filterMap_append]
  rw [setup_setispsck env sdata s hset]
  refine ⟨rfl, by simp [store], rfl, rfl, hc, ?_⟩
  intro hp
  exact (hc _).2.2 hp

/-- C18 (amended) with the pin high (`Env.fixed`) and the preference 12 stored
by set-clock-speed: link connect hands 12 to `ispSetSCKOption`. -/
theorem C18_connect_clock_witness :
    byte [0, 10, 12, 0, 0, 0, 0, 0] 1 = USBASP_FUNC_SETISPSCK
    ∧ byte [0, 1, 0, 0, 0, 0, 0, 0] 1 = USBASP_FUNC_CONNECT
    ∧ sckOptionCalls (usbFunctionSetup Env.fixed [0, 1, 0, 0, 0, 0, 0, 0]
        (usbFunctionSetup Env.fixed [0, 10, 12, 0, 0, 0, 0, 0] State.init).st).st.trace
        = [12] :=
  ⟨by decide, by decide,
   ((C18_connect_clock Env.fixed [0, 10, 12, 0, 0, 0, 0, 0] [0, 1, 0, 0, 0, 0, 0, 0] State.init
      (by decide) (by decide)).2.2.2.2.2 (by decide)).trans (by decide)⟩

/-! ## C19: bytes of a flash write chunk -/

theorem ispWriteStep_flash (s : State) (rv d : Nat)
    (hmode : s.prog_state = PROG_STATE_WRITEFLASH) :
    flashWriteCalls (ispWriteStep (s, rv) d).1.trace
        = flashWriteCalls s.trace ++ [(s.prog_address, d)]
    ∧ eepromWriteCalls (ispWriteStep (s, rv) d).1.trace = eepromWriteCalls s.trace
    ∧ (ispWriteStep (s, rv) d).1.prog_address = u32 (s.prog_address + 1)
    ∧ (ispWriteStep (s, rv) d).1.prog_nbytes = u16 (s.prog_nbytes + 65535)
    ∧ (u16 (s.prog_nbytes + 65535) ≠ 0 →
        (ispWriteStep (s, rv) d).1.prog_state = PROG_STATE_WRITEFLASH) := by
  by_cases hps : s.prog_pagesize = 0
  · by_cases hnb : u16 (s.prog_nbytes + 65535) = 0
    · simp only [ispWriteStep, hmode, hps, hnb, emit, if_true]
      split_ifs <;> simp [flashWriteCalls, eepromWriteCalls, List.filterMap_append]
    · simp [ispWriteStep, hmode, hps, hnb, emit, flashWriteCalls, eepromWriteCalls, List.filterMap_append]
  · by_cases hpc : u8 (s.prog_pagecounter + 255) = 0
    · by_cases hnb : u16 (s.prog_nbytes + 65535) = 0
      · simp only [ispWriteStep, hmode, hps, hnb, hpc, emit, if_true, if_false]
        split_ifs <;> simp [flashWriteCalls, eepromWriteCalls, List.filterMap_append]
      · simp [ispWriteStep, hmode, hps, hnb, hpc, emit, flashWriteCalls, eepromWriteCalls, List.filterMap_append]
    · by_cases hnb : u16 (s.prog_nbytes + 65535) = 0
      · simp only [ispWriteStep, hmode, hps, hnb, hpc, emit, if_true, if_false]
        split_ifs <;> simp [flashWriteCalls, eepromWriteCalls, List.filterMap_append]
      · simp [ispWriteStep, hmode, hps, hnb, hpc, emit, flashWriteCalls, eepromWriteCalls, List.filterMap_append]

/-- In flash write mode, a chunk no longer than the remaining count: every byte
goes to `ispWriteFlash`, at consecutive addresses from `prog_address` on, and
`ispWriteEEPROM` is not called. -/
theorem ispWrite_fold_flash (data : List Nat) :
    ∀ (s : State) (rv : Nat), s.prog_state = PROG_STATE_WRITEFLASH →
      data.length ≤ s.prog_nbytes → s.prog_nbytes < 65536 →
      flashWriteCalls (data.foldl ispWriteStep (s, rv)).1.trace
          = flashWriteCalls s.trace ++ atConsecutive s.prog_address data
      ∧ eepromWriteCalls (data.foldl ispWriteStep (s, rv)).1.trace = eepromWriteCalls s.trace := by
  induction data with
  | nil => intro s rv _ _ _; simp [atConsecutive]
  | cons d ds ih =>
    intro s rv hmode hlen hn
    obtain ⟨h1, h2, h3, h4, h5⟩ := ispWriteStep_flash s rv d hmode
    rw [List.foldl_cons]
    generalize ispWriteStep (s, rv) d = r at h1 h2 h3 h4 h5 ⊢
    obtain ⟨t, rv1⟩ := r
    simp only at h1 h2 h3 h4 h5
    simp only [List.length_cons] at hlen
    have hu : u16 (s.prog_nbytes + 65535) = s.prog_nbytes - 1 := by unfold u16; omega
    cases ds with
    | nil =>
      simp only [List.foldl_nil, atConsecutive]
      exact ⟨h1, h2⟩
    | cons e es =>
      simp only [List.length_cons] at hlen
      have hne : u16 (s.prog_nbytes + 65535) ≠ 0 := by rw [hu]; omega
      have hlen2 : (e :: es).length ≤ t.prog_nbytes := by
        rw [h4, hu]; simp only [List.length_cons]; omega
      have hn2 : t.prog_nbytes < 65536 := by rw [h4, hu]; omega
      obtain ⟨i1, i2⟩ := ih t rv1 (h5 hne) hlen2 hn2
      rw [i1, i2, h1, h2, h3]
      refine ⟨?_, rfl⟩
      rw [List.append_assoc]
      rfl

/-- C19 (the code at the failing input).  Armed for an unpaged flash write of
1 byte at address 0 (remaining 1), `usbFunctionWrite` with the 2-byte chunk
`[0xAA, 0xBB]` passes only the first byte to `ispWriteFlash`; the count reaches
0 there, the mode becomes Idle inside the loop, and the second byte is passed
to `ispWriteEEPROM` at address 1.  The remaining count wraps to 65535. -/
theorem C19_failing_input :
    (usbFunctionSetup Env.fixed [0, 6, 0, 0, 0, 0, 1, 0] State.init).st.prog_state
        = PROG_STATE_WRITEFLASH
    ∧ (usbFunctionSetup Env.fixed [0, 6, 0, 0, 0, 0, 1, 0] State.init).st.prog_nbytes = 1
    ∧ (usbFunctionWrite [0xAA, 0xBB]
        (usbFunctionSetup Env.fixed [0, 6, 0, 0, 0, 0, 1, 0] State.init).st).st.trace
        = [Event.ispWriteFlash 0 0xAA 1, Event.ispWriteEEPROM 1 0xBB]
    ∧ flashWriteCalls (usbFunctionWrite [0xAA, 0xBB]
        (usbFunctionSetup Env.fixed [0, 6, 0, 0, 0, 0, 1, 0] State.init).st).st.trace
        = [(0, 0xAA)]
    ∧ eepromWriteCalls (usbFunctionWrite [0xAA, 0xBB]
        (usbFunctionSetup Env.fixed [0, 6, 0, 0, 0, 0, 1, 0] State.init).st).st.trace
        = [(1, 0xBB)]
    ∧ (usbFunctionWrite [0xAA, 0xBB]
        (usbFunctionSetup Env.fixed [0, 6, 0, 0, 0, 0, 1, 0] State.init).st).st.prog_state
        = PROG_STATE_IDLE
    ∧ (usbFunctionWrite [0xAA, 0xBB]
        (usbFunctionSetup Env.fixed [0, 6, 0, 0, 0, 0, 1, 0] State.init).st).st.prog_nbytes
        = 65535 := by
  decide

/-- In flash write mode with remaining count at least the chunk length, one
`usbFunctionWrite` call passes every byte of the chunk to `ispWriteFlash` at
consecutive addresses and does not call `ispWriteEEPROM`. -/
theorem flash_write_chunk (data : List Nat) (s : State)
    (hmode : s.prog_state = PROG_STATE_WRITEFLASH)
    (hlen : data.length ≤ s.prog_nbytes) (hn : s.prog_nbytes < 65536) :
    flashWriteCalls (usbFunctionWrite data s).st.trace
        = flashWriteCalls s.trace ++ atConsecutive s.prog_address data
    ∧ eepromWriteCalls (usbFunctionWrite data s).st.trace = eepromWriteCalls s.trace := by
  rw [usbFunctionWrite_isp data s (Or.inl hmode)]
  exact ispWrite_fold_flash data s 0 hmode hlen hn

/-! ## C17: the page counter and the page size -/

theorem ispReadLoop_paging (env : Env) (n : Nat) (s : State) :
    (ispReadLoop env n s).2.prog_pagesize = s.prog_pagesize
    ∧ (ispReadLoop env n s).2.prog_pagecounter = s.prog_pagecounter := by
  induction n generalizing s with
  | zero => exact ⟨rfl, rfl⟩
  | succ n ih =>
    simp only [ispReadLoop]
    rw [(ih _).1, (ih _).2]
    split <;> exact ⟨rfl, rfl⟩

theorem uartRxLoop_paging (len n rd : Nat) (s : State) :
    (uartRxLoop len n rd s).2.2.prog_pagesize = s.prog_pagesize
    ∧ (uartRxLoop len n rd s).2.2.prog_pagecounter = s.prog_pagecounter := by
  induction n generalizing rd s with
  | zero => exact ⟨rfl, rfl⟩
  | succ n ih =>
    simp only [uartRxLoop, uart_getc]
    cases h : s.uart_rx with
    | nil => simp [emit]
    | cons b rest => simp [ih, emit]

theorem usbFunctionRead_paging (env : Env) (len : Nat) (s : State) :
    (usbFunctionRead env len s).st.prog_pagesize = s.prog_pagesize
    ∧ (usbFunctionRead env len s).st.prog_pagecounter = s.prog_pagecounter := by
  unfold usbFunctionRead
  simp only []
  split_ifs <;> simp [emit, pdiWaitNVM, ispReadLoop_paging, uartRxLoop_paging]

theorem ispWriteStep_paging (acc : State × Nat) (d : Nat) :
    (ispWriteStep acc d).1.prog_pagesize = acc.1.prog_pagesize
    ∧ (ispWriteStep acc d).1.prog_pagecounter
      = (if acc.1.prog_state = PROG_STATE_WRITEFLASH ∧ acc.1.prog_pagesize ≠ 0 then
           (if u8 (acc.1.prog_pagecounter + 255) = 0 then u8 acc.1.prog_pagesize
            else u8 (acc.1.prog_pagecounter + 255))
         else acc.1.prog_pagecounter) := by
  obtain ⟨s, rv⟩ := acc
  by_cases hnb : u16 (s.prog_nbytes + 65535) = 0
  · by_cases hm : s.prog_state = PROG_STATE_WRITEFLASH
    · by_cases hps : s.prog_pagesize = 0
      · simp only [ispWriteStep, hm, hps, hnb, emit, if_true]
        split_ifs <;> simp_all
      · by_cases hpc : u8 (s.prog_pagecounter + 255) = 0
        · simp only [ispWriteStep, hm, hps, hnb, hpc, emit, if_true, if_false]
          split_ifs <;> simp_all
        · simp only [ispWriteStep, hm, hps, hnb, hpc, emit, if_true, if_false]
          split_ifs <;> simp_all
    · simp only [ispWriteStep, hm, hnb, emit, if_true, if_false]
      split_ifs <;> simp_all
  · by_cases hm : s.prog_state = PROG_STATE_WRITEFLASH
    · by_cases hps : s.prog_pagesize = 0
      · simp [ispWriteStep, hm, hps, hnb, emit]
      · by_cases hpc : u8 (s.prog_pagecounter + 255) = 0
        · simp [ispWriteStep, hm, hps, hnb, hpc, emit]
        · simp [ispWriteStep, hm, hps, hnb, hpc, emit]
    · simp [ispWriteStep, hm, hnb, emit]

theorem ispWriteStep_inv (acc : State × Nat) (d : Nat) (h : PageCounterInv acc.1) :
    PageCounterInv (ispWriteStep acc d).1 := by
  obtain ⟨h1, h2⟩ := h
  unfold PageCounterInv
  rw [(ispWriteStep_paging acc d).1, (ispWriteStep_paging acc d).2]
  unfold u8
  split_ifs with c1 c2
  · refine ⟨by omega, ?_⟩
    intro hp hq
    omega
  · refine ⟨by omega, ?_⟩
    intro hp hq
    have := h2 hp hq
    omega
  · exact ⟨h1, h2⟩

theorem ispWrite_fold_inv (data : List Nat) (acc : State × Nat) (h : PageCounterInv acc.1) :
    PageCounterInv (data.foldl ispWriteStep acc).1 := by
  induction data generalizing acc with
  | nil => exact h
  | cons d ds ih => rw [List.foldl_cons]; exact ih _ (ispWriteStep_inv acc d h)

theorem usbFunctionWrite_inv (data : List Nat) (s : State) (h : PageCounterInv s)
    (_hin : scratchCopyInBounds s data) :
    PageCounterInv (usbFunctionWrite data s).st := by
  by_cases hm : s.prog_state = PROG_STATE_WRITEFLASH ∨ s.prog_state = PROG_STATE_WRITEEEPROM
  · rw [usbFunctionWrite_isp data s hm]
    exact ispWrite_fold_inv data (s, 0) h
  · have hp : (usbFunctionWrite data s).st.prog_pagesize = s.prog_pagesize
        ∧ (usbFunctionWrite data s).st.prog_pagecounter = s.prog_pagecounter := by
      unfold usbFunctionWrite
      simp only [hm, if_false]
      split_ifs <;> simp [emit, pdiWaitNVM]
    unfold PageCounterInv
    rw [hp.1, hp.2]
    exact h

theorem setup_paging_frame (env : Env) (data : List Nat) (s : State)
    (h6 : byte data 1 ≠ USBASP_FUNC_WRITEFLASH) (h8 : byte data 1 ≠ USBASP_FUNC_WRITEEEPROM) :
    (usbFunctionSetup env data s).st.prog_pagesize = s.prog_pagesize
    ∧ (usbFunctionSetup env data s).st.prog_pagecounter = s.prog_pagecounter := by
  by_cases h : byte data 1 ∈ handledFunctions
  · simp only [handledFunctions, List.mem_cons, List.mem_singleton, List.not_mem_nil,
      or_false] at h
    rcases h with h | h | h | h | h | h | h | h | h | h | h | h | h | h | h | h | h | h | h | h
      | h | h | h | h | h | h | h | h
    all_goals first
      | exact absurd h h6
      | exact absurd h h8
      | skip
    all_goals
      simp [usbFunctionSetup, h, emit, USBASP_FUNC_CONNECT, USBASP_FUNC_DISCONNECT,
        USBASP_FUNC_TRANSMIT, USBASP_FUNC_READFLASH, USBASP_FUNC_READEEPROM,
        USBASP_FUNC_ENABLEPROG, USBASP_FUNC_WRITEFLASH, USBASP_FUNC_WRITEEEPROM,
        USBASP_FUNC_SETLONGADDRESS, USBASP_FUNC_SETISPSCK, USBASP_FUNC_TPI_CONNECT,
        USBASP_FUNC_TPI_DISCONNECT, USBASP_FUNC_TPI_RAWREAD, USBASP_FUNC_TPI_RAWWRITE,
        USBASP_FUNC_TPI_READBLOCK, USBASP_FUNC_TPI_WRITEBLOCK, USBASP_FUNC_PDI_CONNECT,
        USBASP_FUNC_PDI_DISCONNECT, USBASP_FUNC_PDI_SEND, USBASP_FUNC_PDI_READ,
        USBASP_FUNC_UART_CONFIG, USBASP_FUNC_UART_FLUSHTX, USBASP_FUNC_UART_FLUSHRX,
        USBASP_FUNC_UART_DISABLE, USBASP_FUNC_UART_TX, USBASP_FUNC_UART_RX,
        USBASP_FUNC_UART_TX_FREE, USBASP_FUNC_GETCAPABILITIES]
    all_goals (split_ifs <;> exact ⟨rfl, rfl⟩)
  · have hst : (usbFunctionSetup env data s).st = { s with usbMsgPtr_replyBuffer := true } := by
      simp only [handledFunctions, List.mem_cons, List.mem_singleton, not_or, List.not_mem_nil,
        not_false_eq_true, and_true] at h
      obtain ⟨h1, h2, h3, h4, h5, h6, h7, h8, h9, h10, h11, h12, h13, h14, h15, h16, h17, h18,
        h19, h20, h21, h22, h23, h24, h25, h26, h27, h28⟩ := h
      simp [usbFunctionSetup, h1, h2, h3, h4, h5, h6, h7, h8, h9, h10, h11, h12, h13, h14, h15,
        h16, h17, h18, h19, h20, h21, h22, h23, h24, h25, h26, h27, h28]
    rw [hst]
    exact ⟨rfl, rfl⟩

theorem setup_inv (env : Env) (data : List Nat) (s : State) (h : PageCounterInv s)
    (hk : keepsPageSize s (Call.setup data) = true) :
    PageCounterInv (usbFunctionSetup env data s).st := by
  obtain ⟨hc, hb⟩ := h
  by_cases h6 : byte data 1 = USBASP_FUNC_WRITEFLASH
  · obtain ⟨-, hps, -, -, -, -, hfirst, -, hclear⟩ := setup_write_arming env data s h6
    unfold PageCounterInv
    by_cases hf : byte data 5 % 2 = 1
    · rw [hfirst hf]
      refine ⟨by omega, ?_⟩
      intro hp hq
      omega
    · have hf0 : byte data 5 % 2 = 0 := by omega
      have hsame : byte data 4 + 256 * (byte data 5 >>> 4) = s.prog_pagesize := by
        simpa [keepsPageSize, h6, hf0] using hk
      rw [hclear hf0, hps, hsame]
      exact ⟨hc, hb⟩
  · by_cases h8 : byte data 1 = USBASP_FUNC_WRITEEEPROM
    · obtain ⟨hps, -, hpc⟩ := setup_writeeeprom_paging env data s h8
      unfold PageCounterInv
      rw [hps, hpc]
      refine ⟨hc, ?_⟩
      intro hp
      omega
    · obtain ⟨hps, hpc⟩ := setup_paging_frame env data s h6 h8
      unfold PageCounterInv
      rw [hps, hpc]
      exact ⟨hc, hb⟩

theorem applyCall_inv (env : Env) (s : State) (c : Call) (h : PageCounterInv s)
    (hk : keepsPageSize s c = true) (hb : keepsScratchBound s c = true) :
    PageCounterInv (applyCall env s c) := by
  cases c with
  | setup data => exact setup_inv env data s h hk
  | read len =>
    obtain ⟨hps, hpc⟩ := usbFunctionRead_paging env len s
    unfold PageCounterInv applyCall
    rw [hps, hpc]
    exact h
  | write data =>
    exact usbFunctionWrite_inv data s h (by simpa [keepsScratchBound] using hb)

theorem runCalls_inv (env : Env) (calls : List Call) :
    ∀ s : State, PageCounterInv s → pagedDiscipline env s calls = true →
      scratchDiscipline env s calls = true →
      PageCounterInv (runCalls env calls s) := by
  induction calls with
  | nil => intro s h _ _; exact h
  | cons c cs ih =>
    intro s h hd hb
    simp only [pagedDiscipline, Bool.and_eq_true] at hd
    simp only [scratchDiscipline, Bool.and_eq_true] at hb
    exact ih (applyCall env s c) (applyCall_inv env s c h hd.1 hb.1) hd.2 hb.2

theorem init_inv : PageCounterInv State.init := by
  unfold PageCounterInv
  decide

/-- C17 (as stated, refuted): from the power-up state, the write-memory-A
command with page size 4, FIRST clear and length 1, followed by one
`usbFunctionWrite` call with a 1-byte chunk, leaves page size 4 and page
counter 255 (the counter, 0 at power-up, is decremented in 8 bits); and the
write-memory-A command with page size 64 and FIRST set followed by the
write-memory-A command with page size 16 and FIRST clear leaves page size 16
and page counter 64. -/
theorem C17_counterexample :
    (runCalls Env.fixed [Call.setup [0, 6, 0, 0, 4, 0, 1, 0], Call.write [0xAB]]
        State.init).prog_pagesize = 4
    ∧ (runCalls Env.fixed [Call.setup [0, 6, 0, 0, 4, 0, 1, 0], Call.write [0xAB]]
        State.init).prog_pagecounter = 255
    ∧ (runCalls Env.fixed [Call.setup [0, 6, 0, 0, 64, 1, 8, 0],
        Call.setup [0, 6, 0, 0, 16, 0, 8, 0]] State.init).prog_pagesize = 16
    ∧ (runCalls Env.fixed [Call.setup [0, 6, 0, 0, 64, 1, 8, 0],
        Call.setup [0, 6, 0, 0, 16, 0, 8, 0]] State.init).prog_pagecounter = 64 := by
  decide

/-- C17 (amended): starting from the power-up state, after every finite
sequence of `usbFunctionSetup`, `usbFunctionRead` and `usbFunctionWrite` calls
(any command records, any chunks) in which every write-memory-A command with
the FIRST flag clear carries the page size that is in force when it is issued,
and in which no copy into the scratch buffer passes its 128 bytes, whenever
the page size is positive the page counter is at most the page size (and it
is an 8-bit value, at least 1 for page sizes up to 255). -/
theorem C17_page_counter_bound (env : Env) (calls : List Call)
    (hd : pagedDiscipline env State.init calls = true)
    (hb : scratchDiscipline env State.init calls = true) :
    (0 < (runCalls env calls State.init).prog_pagesize →
        (runCalls env calls State.init).prog_pagecounter
          ≤ (runCalls env calls State.init).prog_pagesize)
    ∧ PageCounterInv (runCalls env calls State.init) := by
  have h := runCalls_inv env calls State.init init_inv hd hb
  refine ⟨?_, h⟩
  intro hp
  obtain ⟨h1, h2⟩ := h
  by_cases hq : (runCalls env calls State.init).prog_pagesize < 256
  · exact (h2 hp hq).2
  · omega

/-- C17 (amended) at a paged write of two blocks with page size 4 (a FIRST
block of 8 bytes, a continuation block of 3 bytes), then a read command and a
read call, then a send of 3 bytes through the scratch buffer. -/
theorem C17_page_counter_bound_witness :
    pagedDiscipline Env.fixed State.init
        [Call.setup [0, 6, 0, 0, 4, 1, 8, 0], Call.write [1, 2, 3, 4, 5, 6, 7, 8],
         Call.setup [0, 6, 8, 0, 4, 2, 3, 0], Call.write [9, 10, 11],
         Call.setup [0, 4, 0, 0, 0, 0, 8, 0], Call.read 8,
         Call.setup [0, 20, 0, 0, 0, 0, 3, 0], Call.write [7, 8, 9]] = true
    ∧ scratchDiscipline Env.fixed State.init
        [Call.setup [0, 6, 0, 0, 4, 1, 8, 0], Call.write [1, 2, 3, 4, 5, 6, 7, 8],
         Call.setup [0, 6, 8, 0, 4, 2, 3, 0], Call.write [9, 10, 11],
         Call.setup [0, 4, 0, 0, 0, 0, 8, 0], Call.read 8,
         Call.setup [0, 20, 0, 0, 0, 0, 3, 0], Call.write [7, 8, 9]] = true
    ∧ (runCalls Env.fixed
        [Call.setup [0, 6, 0, 0, 4, 1, 8, 0], Call.write [1, 2, 3, 4, 5, 6, 7, 8],
         Call.setup [0, 6, 8, 0, 4, 2, 3, 0], Call.write [9, 10, 11],
         Call.setup [0, 4, 0, 0, 0, 0, 8, 0], Call.read 8,
         Call.setup [0, 20, 0, 0, 0, 0, 3, 0], Call.write [7, 8, 9]]
        State.init).prog_pagecounter
        ≤ (runCalls Env.fixed
        [Call.setup [0, 6, 0, 0, 4, 1, 8, 0], Call.write [1, 2, 3, 4, 5, 6, 7, 8],
         Call.setup [0, 6, 8, 0, 4, 2, 3, 0], Call.write [9, 10, 11],
         Call.setup [0, 4, 0, 0, 0, 0, 8, 0], Call.read 8,
         Call.setup [0, 20, 0, 0, 0, 0, 3, 0], Call.write [7, 8, 9]]
        State.init).prog_pagesize :=
  ⟨by decide, by decide,
   (C17_page_counter_bound Env.fixed
        [Call.setup [0, 6, 0, 0, 4, 1, 8, 0], Call.write [1, 2, 3, 4, 5, 6, 7, 8],
         Call.setup [0, 6, 8, 0, 4, 2, 3, 0], Call.write [9, 10, 11],
         Call.setup [0, 4, 0, 0, 0, 0, 8, 0], Call.read 8,
         Call.setup [0, 20, 0, 0, 0, 0, 3, 0], Call.write [7, 8, 9]]
        (by decide) (by decide)).1 (by decide)⟩

/-! ## C20: the scratch buffer bound -/

theorem scratchCopies_idle (chunks : List (List Nat)) (s : State)
    (h : s.prog_state = PROG_STATE_IDLE) : scratchCopies chunks s = [] := by
  induction chunks with
  | nil => rfl
  | cons c cs ih =>
    have hw : usbFunctionWrite c s = ⟨0xFF, s⟩ := by
      simp [usbFunctionWrite, h, PROG_STATE_IDLE, PROG_STATE_TPI_WRITE, PROG_STATE_UART_TX,
        PROG_STATE_PDI_SEND, PROG_STATE_WRITEFLASH, PROG_STATE_WRITEEEPROM]
    have hne : ¬ s.prog_state = PROG_STATE_PDI_SEND := by rw [h]; decide
    simp only [scratchCopies, hw, if_neg hne, List.nil_append]
    exact ih

theorem sendLengths_pdiSendCalls (flags busy : Nat) (bytes : List Nat) (count : Nat) :
    sendLengths (pdiSendCalls flags busy bytes count) = [count] := by
  unfold pdiSendCalls sendLengths
  split_ifs <;> simp [List.filterMap_append]

/-- An accumulate-then-commit transfer whose chunks sum to the remaining count
and fit the rest of the scratch buffer: every copy stays inside the 128 bytes
of `prog_buf`, and a send is issued with a length of at most 128. -/
theorem scratch_copies_in_bounds (chunks : List (List Nat)) :
    ∀ s : State, s.prog_state = PROG_STATE_PDI_SEND →
      s.prog_nbytes = totalLen chunks →
      s.prog_buf_pos + totalLen chunks ≤ PROG_BUF_SIZE →
      (∀ p ∈ scratchCopies chunks s, p.1 + p.2 ≤ PROG_BUF_SIZE)
      ∧ ∃ tr, (writePackets chunks s).2.trace = s.trace ++ tr
          ∧ ∀ n ∈ sendLengths tr, n ≤ PROG_BUF_SIZE := by
  induction chunks with
  | nil =>
    intro s _ _ _
    exact ⟨by simp [scratchCopies], [], by simp [writePackets], by simp [sendLengths]⟩
  | cons c cs ih =>
    intro s hmode hn hcap
    rw [totalLen_cons] at hn hcap
    unfold PROG_BUF_SIZE at hcap
    simp only [scratchCopies, hmode, if_true, writePackets]
    by_cases hz : totalLen cs = 0
    · obtain ⟨l1, l2, l3, l4⟩ := pdi_send_last c s hmode (by omega) (by omega)
      have hu8 : u8 (s.prog_buf_pos + c.length) = s.prog_buf_pos + c.length := by
        unfold u8; omega
      rw [scratchCopies_idle cs _ l2, writePackets_idle cs _ l2, l4]
      refine ⟨?_, _, rfl, ?_⟩
      · intro p hp
        simp only [List.append_nil, List.mem_singleton] at hp
        rw [hp]
        unfold PROG_BUF_SIZE
        simp only []
        omega
      · intro n hnm
        rw [sendLengths_pdiSendCalls, List.mem_singleton, hu8] at hnm
        unfold PROG_BUF_SIZE
        omega
    · have hmore := pdi_send_more c s (totalLen cs) hmode hn (by omega) (by omega)
      have hu8 : u8 (s.prog_buf_pos + c.length) = s.prog_buf_pos + c.length := by
        unfold u8; omega
      rw [hmore]
      obtain ⟨i1, tr, i2, i3⟩ := ih
        { s with prog_buf := memmove_at s.prog_buf s.prog_buf_pos c,
                 prog_buf_pos := u8 (s.prog_buf_pos + c.length),
                 prog_nbytes := totalLen cs } hmode rfl
        (by unfold PROG_BUF_SIZE; simp only [hu8]; omega)
      refine ⟨?_, tr, i2, i3⟩
      intro p hp
      rw [List.mem_append, List.mem_singleton] at hp
      rcases hp with hp | hp
      · rw [hp]
        unfold PROG_BUF_SIZE
        simp only []
        omega
      · exact i1 p hp

/-- C20 (the code at the failing input).  The send command (function 20) with
the 16-bit length 136, followed by chunks of 8 bytes: the first 16 copies are
made at the scratch positions 0, 8, ..., 120 and fill `prog_buf`; after them
the mode is still accumulate-then-commit, the scratch position is 128 and 8
bytes remain, so the 17th call copies 8 bytes to the positions 128..135, past
the 128 bytes of `prog_buf`: the call is outside the defined behaviour of the
source. -/
theorem C20_failing_input :
    (usbFunctionSetup Env.fixed [0, 20, 0, 0, 0, 0, 136, 0] State.init).st.prog_nbytes = 136
    ∧ scratchCopies (List.replicate 16 (List.replicate 8 0x55))
        (usbFunctionSetup Env.fixed [0, 20, 0, 0, 0, 0, 136, 0] State.init).st
        = (List.range 16).map (fun i => (8 * i, 8))
    ∧ (writePackets (List.replicate 16 (List.replicate 8 0x55))
        (usbFunctionSetup Env.fixed [0, 20, 0, 0, 0, 0, 136, 0] State.init).st).2.prog_state
        = PROG_STATE_PDI_SEND
    ∧ (writePackets (List.replicate 16 (List.replicate 8 0x55))
        (usbFunctionSetup Env.fixed [0, 20, 0, 0, 0, 0, 136, 0] State.init).st).2.prog_buf_pos
        = 128
    ∧ (writePackets (List.replicate 16 (List.replicate 8 0x55))
        (usbFunctionSetup Env.fixed [0, 20, 0, 0, 0, 0, 136, 0] State.init).st).2.prog_nbytes
        = 8
    ∧ scratchCopies [List.replicate 8 0x55]
        (writePackets (List.replicate 16 (List.replicate 8 0x55))
          (usbFunctionSetup Env.fixed [0, 20, 0, 0, 0, 0, 136, 0] State.init).st).2
        = [(128, 8)]
    ∧ ¬ 128 + 8 ≤ PROG_BUF_SIZE
    ∧ (usbFunctionWriteChecked (List.replicate 8 0x55)
        (writePackets (List.replicate 16 (List.replicate 8 0x55))
          (usbFunctionSetup Env.fixed [0, 20, 0, 0, 0, 0, 136, 0] State.init).st).2).isNone
        = true := by
  decide

end USBasp
